import Mathlib

/-!
# FATE-OS: task registry and deadline-driven dispatcher

A shallow embedding of the kernel in `fate.c` / `fate.h` (release v1.2) and
theorems about registration, selection, redirection and periodic activation.
Two short sections embed the parts of releases v1.1 and v1.0 that concern
task priorities and the capacity of the task table.

Conventions of the embedding
* `uint32_t` and `intptr_t` values are natural numbers; the only place where
  the source can wrap (`count++`) reduces modulo `2^32` explicitly.
* `Task_list` is the fixed array of `NUM_TASKS = 8` control blocks, a map from
  `Fin 8`; pointers into it (`current_task`, the entries of
  `Event_task_list`) are slot indices.
* The loops `for(i=1;i<NUM_TASKS;i++)` run over `task_slots`.
* The interrupt handlers are functions on the kernel state. The timer handler
  also yields the value it stores into the saved return address of the
  interrupted context, or `none` when it stores nothing.
* Port configuration, the NVIC and the execution timers TA1..TA3 are outside
  the modelled state.
-/

namespace V1_2

/-- Number of entries of `Task_list` (`#define NUM_TASKS 8`). -/
def NUM_TASKS : Nat := 8

/-- Number of entries of `Event_task_list` (`#define NUM_EVENTS 2`). -/
def NUM_EVENTS : Nat := 2

/-- Largest `uint32_t` value. -/
def UINT32_MAX : Nat := 4294967295

/-- The enumeration `enum task_state`, in declaration order. -/
inductive task_state where
  | TASK_STOPPED
  | TASK_SUSPENDED
  | TASK_RUNNING
  | TASK_UNDEFINED
deriving DecidableEq, Repr

open task_state

/-- The structure `task_ctrl_blk`. -/
structure task_ctrl_blk where
  function : Nat
  period : Nat
  count : Nat
  start_offset : Nat
  deadline : Nat
  deadline_remaining : Nat
  state : task_state
deriving DecidableEq, Repr

/-- Event identifiers of `enum events`. -/
def SWITCH_P1_1 : Nat := 0

/-- Second enumerator of `enum events`. -/
def SWITCH_P1_4 : Nat := 1

/-- Global kernel state: the task table, the event binding table, the
cursor `current_task`, and the two device registers the handlers read. -/
structure Kernel where
  Task_list : Fin 8 → task_ctrl_blk
  Event_task_list : Fin 2 → Option (Fin 8)
  current_task : Fin 8
  TA0CTL : Nat
  P1IFG : Nat

/-- Indices visited by `for(i=1;i<NUM_TASKS;i++)`, in order. -/
def task_slots : List (Fin 8) := [1, 2, 3, 4, 5, 6, 7]

/-- The function `Task_list_init`: slot 0 becomes the idle task, slots 1..7
become `TASK_UNDEFINED`, every event binding is cleared. Only the fields
`state`, `function`, `period` and `count` are assigned. -/
def Task_list_init (idle_thread : Nat) (s : Kernel) : Kernel :=
  { s with
    Task_list := fun i =>
      if i = 0 then
        { s.Task_list i with
          state := TASK_RUNNING, function := idle_thread, period := 1, count := 0 }
      else
        { s.Task_list i with
          state := TASK_UNDEFINED, function := idle_thread, period := 1, count := 0 }
    Event_task_list := fun _ => none }

/-- The scan `for(i = 1; (i<NUM_TASKS) && (Task_list[i].state != TASK_UNDEFINED); i++);`
shared by both registration functions: the first slot of 1..7 that is
`TASK_UNDEFINED`, or `none` when the scan ends with `i = NUM_TASKS`. -/
def free_slot (tl : Fin 8 → task_ctrl_blk) : Option (Fin 8) :=
  task_slots.find? (fun i => decide ((tl i).state = TASK_UNDEFINED))

/-- The function `Task_add`; the first component is the returned code. -/
def Task_add (function period start_offset deadline : Nat) (s : Kernel) : Nat × Kernel :=
  match free_slot s.Task_list with
  | some i =>
    (0, { s with
          Task_list := Function.update s.Task_list i
            { s.Task_list i with
              state := TASK_STOPPED
              function := function
              period := period
              start_offset := start_offset
              count := UINT32_MAX
              deadline := deadline } })
  | none => (1, s)

/-- The function `Task_event_add`; the first component is the returned code.
`Enable_event` only programs port and NVIC registers, and does nothing for an
event other than the two switches. The store `Event_task_list[event] = ...`
is performed for every `event`; for `event >= NUM_EVENTS` it lands outside
the array, which this state does not contain. -/
def Task_event_add (function event deadline : Nat) (s : Kernel) : Nat × Kernel :=
  match free_slot s.Task_list with
  | some i =>
    (0, { s with
          Task_list := Function.update s.Task_list i
            { s.Task_list i with
              state := TASK_STOPPED
              function := function
              period := 0
              count := 1
              deadline := deadline }
          Event_task_list :=
            if h : event < 2 then Function.update s.Event_task_list ⟨event, h⟩ (some i)
            else s.Event_task_list })
  | none => (1, s)

/-- One iteration of the selection loop of `get_priority_task`; the
accumulator is the pair (`earliest`, `earliest_deadline`). -/
def priority_step (tl : Fin 8 → task_ctrl_blk) (acc : Fin 8 × Nat) (i : Fin 8) :
    Fin 8 × Nat :=
  if (tl i).state = TASK_RUNNING ∨ (tl i).state = TASK_SUSPENDED then
    if (tl i).start_offset = 0 ∧ (tl i).deadline_remaining < acc.2 then
      (i, (tl i).deadline_remaining)
    else acc
  else acc

/-- The function `get_priority_task`: the result is the index `earliest`
(the source returns `Task_list + earliest`). -/
def get_priority_task (tl : Fin 8 → task_ctrl_blk) : Fin 8 :=
  (task_slots.foldl (priority_step tl) (0, UINT32_MAX)).1

/-- First statement of the tick loop body: count down `start_offset`, or else
advance `count` modulo `period` for a periodic task. -/
def tick_counters (t : task_ctrl_blk) : task_ctrl_blk :=
  if t.start_offset > 0 then
    { t with start_offset := t.start_offset - 1 }
  else if t.period ≠ 0 then
    { t with count := ((t.count + 1) % 2 ^ 32) % t.period }
  else t

/-- Second statement of the tick loop body: a stopped task whose count is 0
becomes suspended and its remaining deadline is reloaded. -/
def tick_activate (t : task_ctrl_blk) : task_ctrl_blk :=
  if t.count = 0 then
    if t.state = TASK_STOPPED then
      { t with state := TASK_SUSPENDED, deadline_remaining := t.deadline }
    else t
  else t

/-- Third statement of the tick loop body: the remaining deadline of a
suspended or running task counts down, stopping at 0. -/
def tick_deadline (t : task_ctrl_blk) : task_ctrl_blk :=
  if t.state = TASK_SUSPENDED ∨ t.state = TASK_RUNNING then
    if t.deadline_remaining > 0 then
      { t with deadline_remaining := t.deadline_remaining - 1 }
    else t
  else t

/-- Body of the loop `for(i=1;i<8;i++)` of the timer handler, on one slot. -/
def tick_slot (t : task_ctrl_blk) : task_ctrl_blk :=
  tick_deadline (tick_activate (tick_counters t))

/-- The loop `for(i=1;i<8;i++)` of the timer handler. -/
def tick_loop (tl : Fin 8 → task_ctrl_blk) : Fin 8 → task_ctrl_blk :=
  task_slots.foldl (fun tl i => Function.update tl i (tick_slot (tl i))) tl

/-- First half of `TA0_N_IRQHandler`: when `TA0CTL & (uint16_t)(~BIT0)` is
non-zero, run the counter loop and clear bit 0 of `TA0CTL`. -/
def tick_update (s : Kernel) : Kernel :=
  if s.TA0CTL &&& 0xFFFE ≠ 0 then
    { s with Task_list := tick_loop s.Task_list, TA0CTL := s.TA0CTL &&& 0xFFFE }
  else s

/-- Second half of `TA0_N_IRQHandler`: selection and redirection. The second
component is the value stored into the saved return address, if any. -/
def dispatch (s : Kernel) : Kernel × Option Nat :=
  let new_task := get_priority_task s.Task_list
  if new_task ≠ s.current_task then
    let tl1 :=
      if (s.Task_list s.current_task).state = TASK_RUNNING then
        Function.update s.Task_list s.current_task
          { s.Task_list s.current_task with state := TASK_SUSPENDED }
      else s.Task_list
    let tl2 := Function.update tl1 new_task { tl1 new_task with state := TASK_RUNNING }
    ({ s with Task_list := tl2, current_task := new_task }, some (tl2 new_task).function)
  else if (s.Task_list s.current_task).state = TASK_STOPPED then
    let tl1 := Function.update s.Task_list 0 { s.Task_list 0 with state := TASK_RUNNING }
    ({ s with Task_list := tl1, current_task := 0 }, some (tl1 0).function)
  else (s, none)

/-- The timer interrupt handler `TA0_N_IRQHandler`. Locating the exception
frame on the stack is taken as given; the store into it is the second
component of the result. -/
def TA0_N_IRQHandler (s : Kernel) : Kernel × Option Nat :=
  dispatch (tick_update s)

/-- Activation of the task bound to event `e`, if any
(`if(Event_task_list[e]) Event_task_list[e]->state = TASK_SUSPENDED`). -/
def activate_event (e : Fin 2) (tl : Fin 8 → task_ctrl_blk)
    (etl : Fin 2 → Option (Fin 8)) : Fin 8 → task_ctrl_blk :=
  match etl e with
  | some i => Function.update tl i { tl i with state := TASK_SUSPENDED }
  | none => tl

/-- One block `if(P1IFG & bit) { P1IFG &= (uint8_t)(~bit); ... }` of the port
handler, for the flag `bit` (with `clear` the 8-bit complement of `bit`) and
the event `e`. -/
def port_flag (bit clear : Nat) (e : Fin 2) (s : Kernel) : Kernel :=
  if s.P1IFG &&& bit ≠ 0 then
    { s with
      P1IFG := s.P1IFG &&& clear
      Task_list := activate_event e s.Task_list s.Event_task_list }
  else s

/-- The port interrupt handler `PORT1_IRQHandler`: the block for `BIT1 = 0x02`
and `SWITCH_P1_1`, then the block for `BIT4 = 0x10` and `SWITCH_P1_4`. -/
def PORT1_IRQHandler (s : Kernel) : Kernel :=
  port_flag 0x10 0xEF 1 (port_flag 0x02 0xFD 0 s)

/-- The macro `Task_stop(X)`: the first slot of 1..7 whose `function` equals
`X` becomes stopped (the macro then spins in `while(1)`, so no later slot is
visited); without a match nothing is assigned. -/
def Task_stop (X : Nat) (s : Kernel) : Kernel :=
  match task_slots.find? (fun i => decide ((s.Task_list i).function = X)) with
  | some i =>
    { s with Task_list := Function.update s.Task_list i
              { s.Task_list i with state := TASK_STOPPED } }
  | none => s

/-- Timer configuration done by `Task_schedule` before it enters the idle
loop: `TA0CTL |= BIT8; TA0CTL |= BIT1; TA0CTL |= BIT4`. -/
def Task_schedule (s : Kernel) : Kernel :=
  { s with TA0CTL := ((s.TA0CTL ||| 0x100) ||| 0x02) ||| 0x10 }

/-- A registration call made by the application. -/
inductive Reg where
  | add (function period start_offset deadline : Nat)
  | event_add (function event deadline : Nat)

/-- The trigger of a registration call, when it has one, is one of the two
enumerators of `enum events`. -/
def Reg.valid : Reg → Prop
  | .add _ _ _ _ => True
  | .event_add _ e _ => e = SWITCH_P1_1 ∨ e = SWITCH_P1_4

/-- Perform one registration call. -/
def register (s : Kernel) : Reg → Nat × Kernel
  | .add f p o d => Task_add f p o d s
  | .event_add f e d => Task_event_add f e d s

/-- Perform registration calls in sequence, collecting the returned codes. -/
def register_all (s : Kernel) : List Reg → List Nat × Kernel
  | [] => ([], s)
  | r :: rs =>
    let a := register s r
    let b := register_all a.2 rs
    (a.1 :: b.1, b.2)

/-- Something that happens to the kernel once tasks are registered. -/
inductive Event where
  /-- An invocation of the timer handler. -/
  | irq
  /-- The port raises the flags `flags`, then the port handler runs. -/
  | port (flags : Nat)
  /-- A task body executes `Task_stop(X)`. -/
  | stop (X : Nat)
  /-- A further registration call. -/
  | reg (r : Reg)

/-- Effect of one event on the kernel state. -/
def step (s : Kernel) : Event → Kernel
  | .irq => (TA0_N_IRQHandler s).1
  | .port flags => PORT1_IRQHandler { s with P1IFG := (s.P1IFG ||| flags) % 256 }
  | .stop X => Task_stop X s
  | .reg r => (register s r).2

/-- Effect of a sequence of events. -/
def run (s : Kernel) (evs : List Event) : Kernel :=
  evs.foldl step s

/-- Number of timer handler invocations in a sequence of events. -/
def irq_count : List Event → Nat
  | [] => 0
  | .irq :: evs => irq_count evs + 1
  | _ :: evs => irq_count evs

/-- A slot is eligible for selection: suspended or running, with its start
offset exhausted. -/
def eligible (tl : Fin 8 → task_ctrl_blk) (i : Fin 8) : Prop :=
  ((tl i).state = TASK_SUSPENDED ∨ (tl i).state = TASK_RUNNING) ∧ (tl i).start_offset = 0

instance (tl : Fin 8 → task_ctrl_blk) (i : Fin 8) : Decidable (eligible tl i) := by
  unfold eligible; infer_instance

/-- Slots 1..k are registered and slots k+1..7 are undefined. -/
def filled (k : Nat) (tl : Fin 8 → task_ctrl_blk) : Prop :=
  ∀ j : Fin 8, j ≠ 0 → ((tl j).state ≠ TASK_UNDEFINED ↔ j.val ≤ k)

/-- Zero-initialised globals, as at program start (`TASK_STOPPED` is the
enumerator with value 0, `current_task` points at slot 0). -/
def boot : Kernel where
  Task_list := fun _ =>
    { function := 0, period := 0, count := 0, start_offset := 0, deadline := 0,
      deadline_remaining := 0, state := TASK_STOPPED }
  Event_task_list := fun _ => none
  current_task := 0
  TA0CTL := 0
  P1IFG := 0

/-- Seven registration calls mixing both kinds, with valid triggers. -/
def seven_regs : List Reg :=
  [.add 0x1000 100 150 10000, .event_add 0x1100 SWITCH_P1_4 100, .add 0x1200 1500 300 100,
   .add 0x1300 1500 0 1500, .event_add 0x1400 SWITCH_P1_1 5, .add 0x1500 1500 100 700,
   .add 0x1600 1 0 1]

/-- A control block with the given state, start offset and remaining
deadline; the other fields are those of a periodic task of period 1500. -/
def sample_blk (st : task_state) (so dr : Nat) : task_ctrl_blk :=
  { function := 0x1000, period := 1500, count := 7, start_offset := so, deadline := 1500,
    deadline_remaining := dr, state := st }

/-- The entry at slot 0 after `Task_list_init` when its start offset held 3
before (the initialisation does not assign that field). -/
def idle_blk : task_ctrl_blk :=
  { function := 0x800, period := 1, count := 0, start_offset := 3, deadline := 0,
    deadline_remaining := 0, state := TASK_RUNNING }

/-- Idle task at slot 0, entry `a` at slot 1, entry `b` at slot 2, the other
slots undefined. -/
def table_of (a b : task_ctrl_blk) : Fin 8 → task_ctrl_blk := fun i =>
  if i = 0 then idle_blk
  else if i = 1 then a
  else if i = 2 then b
  else sample_blk TASK_UNDEFINED 0 0

/-- The slot chosen by the selection step of a handler invocation entered in
state `s`: `get_priority_task` runs on the table left by the counter update. -/
def selected (s : Kernel) : Fin 8 :=
  get_priority_task (tick_update s).Task_list

/-- The state built by `main`: `Task_list_init`, the three `Task_add` calls
for `Task_1`, `Task_2`, `Task_3` (entries 0x1000, 0x2000, 0x3000, idle entry
0x800) and the timer configuration of `Task_schedule`, from zeroed globals. -/
def main_setup : Kernel :=
  Task_schedule
    (Task_add 0x3000 1500 100 700
      (Task_add 0x2000 1500 0 1500
        (Task_add 0x1000 1500 300 100 (Task_list_init 0x800 boot)).2).2).2

/-- The block `t2` differs from `t1` at most in its state, and any new state
is one of stopped, suspended, running. -/
def state_only (t1 t2 : task_ctrl_blk) : Prop :=
  t2 = t1 ∨ t2 = { t1 with state := TASK_STOPPED } ∨
    t2 = { t1 with state := TASK_SUSPENDED } ∨ t2 = { t1 with state := TASK_RUNNING }

/-- The test `TA0CTL & (uint16_t)(~BIT0)` of the handler succeeds. -/
def gate_open (s : Kernel) : Prop := s.TA0CTL &&& 0xFFFE ≠ 0

instance (s : Kernel) : Decidable (gate_open s) := by
  unfold gate_open; infer_instance

/-- Counters of a slot registered by `Task_add` with period `P` and start
offset `S`, after `n` handler invocations that ran the counter loop. -/
def counted (P S n : Nat) (t : task_ctrl_blk) : Prop :=
  t.state ≠ TASK_UNDEFINED ∧ t.period = P ∧ t.start_offset = S - n ∧
    t.count = if n ≤ S then UINT32_MAX else (n - S - 1) % P

/-- The handler invocation entered in state `s` takes slot `i` through the
stopped-to-suspended transition of its counter loop. -/
def activates (s : Kernel) (i : Fin 8) : Prop :=
  (s.Task_list i).state = TASK_STOPPED ∧ ((tick_update s).Task_list i).state = TASK_SUSPENDED

instance (s : Kernel) (i : Fin 8) : Decidable (activates s i) := by
  unfold activates; infer_instance

/-- Slot `i` is a stopped task still waiting for its start offset: its count
is the value stored by `Task_add`, at most `k` of the `S` ticks of its start
offset have been consumed, and no trigger is bound to it. -/
def held (S k : Nat) (i : Fin 8) (s : Kernel) : Prop :=
  (s.Task_list i).state = TASK_STOPPED ∧ (s.Task_list i).count = UINT32_MAX ∧
    S ≤ (s.Task_list i).start_offset + k ∧ ∀ e : Fin 2, s.Event_task_list e ≠ some i

/-- The registration call of an event, if it is one, names a valid trigger. -/
def Event.valid : Event → Prop
  | .reg r => r.valid
  | _ => True

/-- States reachable from `Task_list_init`, entered with the cursor at slot 0
(the static initial value of `current_task`), by registrations with valid
triggers, timer handler invocations, port interrupts and `Task_stop` calls. -/
inductive Reachable : Kernel → Prop where
  | init (idle_thread : Nat) (s0 : Kernel) (h : s0.current_task = 0) :
      Reachable (Task_list_init idle_thread s0)
  | next (s : Kernel) (ev : Event) (hs : Reachable s) (hv : ev.valid) :
      Reachable (step s ev)

/-- Only the slot referenced by the cursor may be running. -/
def only_cursor_running (s : Kernel) : Prop :=
  ∀ j : Fin 8, (s.Task_list j).state = TASK_RUNNING → j = s.current_task

/-- The `function` argument of a registration call. -/
def Reg.entry : Reg → Nat
  | .add f _ _ _ => f
  | .event_add f _ _ => f

/-- Among the registered slots of 1..7 no two hold the same `function`, and
each holds one of the values `fs`. -/
def distinct_entries (fs : List Nat) (tl : Fin 8 → task_ctrl_blk) : Prop :=
  (∀ j : Fin 8, j ≠ 0 → (tl j).state ≠ TASK_UNDEFINED → (tl j).function ∈ fs) ∧
    ∀ j1 j2 : Fin 8, j1 ≠ 0 → j2 ≠ 0 → (tl j1).state ≠ TASK_UNDEFINED →
      (tl j2).state ≠ TASK_UNDEFINED → (tl j1).function = (tl j2).function → j1 = j2

/-- A table whose slot 0 holds non-zero timing fields before initialisation. -/
def stale : Kernel :=
  { boot with
    Task_list := fun _ =>
      { function := 0x1234, period := 9, count := 4, start_offset := 3, deadline := 50,
        deadline_remaining := 7, state := TASK_SUSPENDED } }

/-- Two tasks registered with the same entry 0x1000 (period 1, start offset
0, deadlines 10 and 5), then one tick: the second task, in slot 2, has the
nearer deadline and is running, the cursor references slot 2. -/
def shared_entry_state : Kernel :=
  run (Task_list_init 0x800 (Task_schedule boot))
    [.reg (.add 0x1000 1 0 10), .reg (.add 0x1000 1 0 5), .irq]

/-- An event task bound to `SWITCH_P1_1` is registered, its trigger fires, a
tick dispatches it, and its trigger fires again while it runs. -/
def retrigger_events : List Event :=
  [.reg (.event_add 0x1000 SWITCH_P1_1 100), .port 0x02, .irq, .port 0x02]

/-- A periodic task of period 2 is registered, runs from tick 0, and calls
`Task_stop` after tick 1. -/
def stop_at_boundary_events : List Event :=
  [.reg (.add 0x1000 2 0 5), .irq, .irq, .stop 0x1000]

/-- The state after `n` successive timer handler invocations (ticks
0 .. n-1), nothing else happening in between. -/
def ticks (s : Kernel) : Nat → Kernel
  | 0 => s
  | n + 1 => (TA0_N_IRQHandler (ticks s n)).1

/-- Shape of the kernel state in the scenario of `main` after tick `n`, for
`n` up to 99: the cursor is on `Task_2` (slot 2), running with its remaining
deadline counted down from 1500; `Task_1` (slot 1) and `Task_3` (slot 3) are
stopped, still consuming their start offsets 300 and 100; slots 4..7 are
undefined. -/
def scenario_inv (n : Nat) (s : Kernel) : Prop :=
  s.current_task = 2 ∧ gate_open s ∧
  ((s.Task_list 1).state = TASK_STOPPED ∧ (s.Task_list 1).count = UINT32_MAX ∧
    (s.Task_list 1).start_offset = 299 - n) ∧
  ((s.Task_list 2).state = TASK_RUNNING ∧ (s.Task_list 2).start_offset = 0 ∧
    (s.Task_list 2).deadline_remaining = 1499 - n) ∧
  ((s.Task_list 3).state = TASK_STOPPED ∧ (s.Task_list 3).count = UINT32_MAX ∧
    (s.Task_list 3).start_offset = 99 - n ∧ (s.Task_list 3).period = 1500 ∧
    (s.Task_list 3).deadline = 700 ∧ (s.Task_list 3).function = 0x3000) ∧
  ∀ j : Fin 8, 4 ≤ j.val → (s.Task_list j).state = TASK_UNDEFINED

instance (n : Nat) (s : Kernel) : Decidable (scenario_inv n s) := by
  unfold scenario_inv; infer_instance

/-- State of slot `j` after the selection and redirection step run in `s`. -/
def redirected_state (s : Kernel) (j : Fin 8) : task_state :=
  if get_priority_task s.Task_list ≠ s.current_task then
    if j = get_priority_task s.Task_list then TASK_RUNNING
    else if j = s.current_task ∧ (s.Task_list j).state = TASK_RUNNING then TASK_SUSPENDED
    else (s.Task_list j).state
  else if (s.Task_list s.current_task).state = TASK_STOPPED then
    if j = 0 then TASK_RUNNING else (s.Task_list j).state
  else (s.Task_list j).state

/-- The table of `main` with only the overflow flag (bit 0) set in `TA0CTL`. -/
def overflow_only : Kernel := { main_setup with TA0CTL := 0x0001 }

/-- Slot `i` is a stopped task that the counter loop cannot activate: its
period is 0 and its count is the non-zero value `c`. -/
def dormant (c : Nat) (i : Fin 8) (s : Kernel) : Prop :=
  (s.Task_list i).state = TASK_STOPPED ∧ (s.Task_list i).period = 0 ∧ (s.Task_list i).count = c

/-- No trigger is bound to slot `i`. -/
def unbound (i : Fin 8) (s : Kernel) : Prop :=
  ∀ e : Fin 2, s.Event_task_list e ≠ some i

/-- An event that is not a port interrupt. -/
def Event.quiet : Event → Prop
  | .port _ => False
  | _ => True

/-- Slot 0 is running or suspended and no trigger is bound to it. -/
def idle_alive (s : Kernel) : Prop :=
  ((s.Task_list 0).state = TASK_RUNNING ∨ (s.Task_list 0).state = TASK_SUSPENDED) ∧
    unbound 0 s

/-- The event is not a `Task_event_add` call naming trigger `e`. -/
def Event.spares (e : Fin 2) : Event → Prop
  | .reg (.event_add _ e2 _) => e2 ≠ e.val
  | _ => True

/-- The state `s` with the `deadline` field of slot `i` replaced by `d`. -/
def with_deadline (i : Fin 8) (d : Nat) (s : Kernel) : Kernel :=
  { s with Task_list := Function.update s.Task_list i { s.Task_list i with deadline := d } }

/-- The values stored into the saved return address by the successive timer
handler invocations of a sequence of events (`none` for an invocation that
stores nothing). -/
def ra_trace (s : Kernel) : List Event → List (Option Nat)
  | [] => []
  | .irq :: evs => (TA0_N_IRQHandler s).2 :: ra_trace (step s .irq) evs
  | .port flags :: evs => ra_trace (step s (.port flags)) evs
  | .stop X :: evs => ra_trace (step s (.stop X)) evs
  | .reg r :: evs => ra_trace (step s (.reg r)) evs

/-- Slot `i` is a registered task that the counter loop cannot activate:
period 0 and a non-zero count. -/
def event_like (i : Fin 8) (s : Kernel) : Prop :=
  (s.Task_list i).period = 0 ∧ (s.Task_list i).count ≠ 0 ∧
    (s.Task_list i).state ≠ TASK_UNDEFINED

end V1_2

/-! ## Release v1.1: priorities

The parts of `fate.c` / `fate.h` of release v1.1 that decide which task is
selected: the control block with its 8-bit signed `priority`, registration,
the counter loop of the timer handler and `get_priority_task`. A store outside
`Task_list` or `Event_task_list` has no defined effect; the registration
functions then yield `none`. -/

namespace V1_1

/-- The constant `TASK_UNDEFINED` of `fate.h`. -/
def TASK_UNDEFINED : Int := -1

/-- The constant `TASK_STOPPED` of `fate.h`. -/
def TASK_STOPPED : Int := 0

/-- The constant `TASK_SUSPENDED` of `fate.h`. -/
def TASK_SUSPENDED : Int := 1

/-- The constant `TASK_RUNNING` of `fate.h`. -/
def TASK_RUNNING : Int := 2

/-- The structure `task_ctrl_blk` of v1.1; `state` and `priority` are
`int8_t`, the other fields `uint32_t`. -/
structure task_ctrl_blk where
  state : Int
  function : Nat
  period : Nat
  count : Nat
  priority : Int
deriving DecidableEq, Repr

/-- Conversion of a `uint32_t` value to `int8_t` on assignment: the low eight
bits, read as a two's complement number (what the compilers for the target
do; the C standard leaves the out-of-range case to the implementation). -/
def to_int8 (n : Nat) : Int :=
  if n % 256 < 128 then ((n % 256 : Nat) : Int) else ((n % 256 : Nat) : Int) - 256

/-- The task table and the event binding table. -/
structure Kernel where
  Task_list : Fin 8 → task_ctrl_blk
  Event_task_list : Fin 2 → Option (Fin 8)

/-- Indices visited by `for(i=1;i<8;i++)`. -/
def task_slots : List (Fin 8) := [1, 2, 3, 4, 5, 6, 7]

/-- Indices visited by `for(i=0;i<8;i++)`. -/
def all_slots : List (Fin 8) := [0, 1, 2, 3, 4, 5, 6, 7]

/-- The function `Task_list_init` of v1.1; it assigns every field. -/
def Task_list_init (idle_thread : Nat) (_s : Kernel) : Kernel where
  Task_list := fun i =>
    if i = 0 then
      { state := TASK_RUNNING, function := idle_thread, period := 1, count := 0, priority := -1 }
    else
      { state := TASK_UNDEFINED, function := idle_thread, period := 1, count := 0,
        priority := -1 }
  Event_task_list := fun _ => none

/-- Value of `i` after the loop
`for(i=1;i<8;i++) { if(Task_list[i].state == TASK_UNDEFINED) break; }`. -/
def scan_free (tl : Fin 8 → task_ctrl_blk) : Nat :=
  match task_slots.find? (fun i => decide ((tl i).state = TASK_UNDEFINED)) with
  | some i => i.val
  | none => 8

/-- The function `Task_add` of v1.1. The stores go to `Task_list[i]` without
a test of `i`; for `i = 8` they fall outside the array. -/
def Task_add (function period priority : Nat) (s : Kernel) : Option Kernel :=
  if h : scan_free s.Task_list < 8 then
    some { s with
      Task_list := Function.update s.Task_list ⟨scan_free s.Task_list, h⟩
        { state := TASK_STOPPED, function := function, period := period, count := 0,
          priority := to_int8 priority } }
  else none

/-- The function `Task_event_add` of v1.1. -/
def Task_event_add (function event priority : Nat) (s : Kernel) : Option Kernel :=
  if h : scan_free s.Task_list < 8 then
    if he : event < 2 then
      some { s with
        Task_list := Function.update s.Task_list ⟨scan_free s.Task_list, h⟩
          { state := TASK_STOPPED, function := function, period := 0, count := 1,
            priority := to_int8 priority }
        Event_task_list :=
          Function.update s.Event_task_list ⟨event, he⟩ (some ⟨scan_free s.Task_list, h⟩) }
    else none
  else none

/-- Body of the counter loop of `TA0_N_IRQHandler` of v1.1, on one slot. -/
def tick_slot (t : task_ctrl_blk) : task_ctrl_blk :=
  let t1 := if t.period ≠ 0 then { t with count := ((t.count + 1) % 2 ^ 32) % t.period } else t
  if t1.count = 0 then
    if t1.state = TASK_STOPPED then { t1 with state := TASK_SUSPENDED } else t1
  else t1

/-- The counter loop `for(i=1;i<8;i++)` of `TA0_N_IRQHandler` of v1.1. -/
def tick_loop (tl : Fin 8 → task_ctrl_blk) : Fin 8 → task_ctrl_blk :=
  task_slots.foldl (fun tl i => Function.update tl i (tick_slot (tl i))) tl

/-- One iteration of the loop of `get_priority_task`; the accumulator is
(`highest`, `highest_priority`). -/
def priority_step (tl : Fin 8 → task_ctrl_blk) (acc : Fin 8 × Int) (i : Fin 8) : Fin 8 × Int :=
  if (tl i).state = TASK_RUNNING ∨ (tl i).state = TASK_SUSPENDED then
    if (tl i).priority > acc.2 then (i, (tl i).priority) else acc
  else acc

/-- The function `get_priority_task` of v1.1 (index of the entry returned). -/
def get_priority_task (tl : Fin 8 → task_ctrl_blk) : Fin 8 :=
  (all_slots.foldl (priority_step tl) (0, -1)).1

/-- Zero-initialised globals. -/
def boot : Kernel where
  Task_list := fun _ => { state := 0, function := 0, period := 0, count := 0, priority := 0 }
  Event_task_list := fun _ => none

end V1_1

/-! ## Release v1.0: capacity of the task table -/

namespace V1_0

/-- Modelled from the spec: the header `fate.h` of v1.0, which declares the
control block and the state constants, is not among the sources. The block
has the fields that `fate.c` of v1.0 assigns (`state`, `function`, `period`,
`count`, `priority`), and the four states are the four states of the task
descriptor, here as an enumeration. -/
inductive task_state where
  | TASK_UNDEFINED
  | TASK_STOPPED
  | TASK_SUSPENDED
  | TASK_RUNNING
deriving DecidableEq, Repr

/-- Modelled from the spec: control block of v1.0 (see `task_state`); the
types of the fields do not matter for the table capacity. -/
structure task_ctrl_blk where
  state : task_state
  function : Nat
  period : Nat
  count : Nat
  priority : Int
deriving DecidableEq, Repr

/-- Indices visited by `for(i=1;i<8;i++)`. -/
def task_slots : List (Fin 8) := [1, 2, 3, 4, 5, 6, 7]

/-- The function `Task_list_init` of v1.0 on `task_ctrl_blk Task_list[8]`. -/
def Task_list_init (idle_thread : Nat) : Fin 8 → task_ctrl_blk := fun i =>
  if i = 0 then
    { state := .TASK_RUNNING, function := idle_thread, period := 1, count := 0,
      priority := -1 }
  else
    { state := .TASK_UNDEFINED, function := idle_thread, period := 1, count := 0,
      priority := -1 }

/-- Value of `i` after the loop
`for(i=1;i<8;i++) { if(Task_list[i].state == TASK_UNDEFINED) break; }`. -/
def scan_free (tl : Fin 8 → task_ctrl_blk) : Nat :=
  match task_slots.find? (fun i => decide ((tl i).state = .TASK_UNDEFINED)) with
  | some i => i.val
  | none => 8

/-- The function `Task_add` of v1.0. The five stores go to `Task_list[i]`
without a test of `i`; for `i = 8` they fall outside the 8-entry array, which
has no defined effect: the result is then `none`. The stored priority is
given as the value the field holds. -/
def Task_add (function period : Nat) (priority : Int) (tl : Fin 8 → task_ctrl_blk) :
    Option (Fin 8 → task_ctrl_blk) :=
  if h : scan_free tl < 8 then
    some (Function.update tl ⟨scan_free tl, h⟩
      { state := .TASK_STOPPED, function := function, period := period, count := 0,
        priority := priority })
  else none

/-- Successive `Task_add` calls, given as (function, period, priority). -/
def add_all : List (Nat × Nat × Int) → (Fin 8 → task_ctrl_blk) → Option (Fin 8 → task_ctrl_blk)
  | [], tl => some tl
  | (f, p, q) :: rest, tl =>
    match Task_add f p q tl with
    | some tl2 => add_all rest tl2
    | none => none

/-- Seven tasks with distinct entries. -/
def seven_tasks : List (Nat × Nat × Int) :=
  [(0x1000, 100, 1), (0x1100, 200, 2), (0x1200, 300, 3), (0x1300, 400, 4), (0x1400, 500, 5),
   (0x1500, 600, 6), (0x1600, 700, 7)]

end V1_0

namespace V1_2

open task_state

/-! ## Basic facts about the scanned slots -/

theorem mem_task_slots (i : Fin 8) : i ∈ task_slots ↔ i ≠ 0 := by
  revert i; decide

theorem task_slots_sorted : task_slots.Pairwise (· < ·) := by
  decide

theorem task_slots_nodup : task_slots.Nodup := by
  decide

/-- In an increasing list, `find?` yields the least element satisfying the test. -/
theorem find?_increasing (p : Fin 8 → Bool) (l : List (Fin 8))
    (hl : l.Pairwise (· < ·)) (i : Fin 8) :
    l.find? p = some i ↔ i ∈ l ∧ p i = true ∧ ∀ j ∈ l, j < i → p j = false := by
  induction l with
  | nil => simp
  | cons x xs ih =>
    rw [List.pairwise_cons] at hl
    obtain ⟨hx, hxs⟩ := hl
    by_cases hpx : p x = true
    · rw [List.find?_cons_of_pos _ hpx]
      constructor
      · intro h
        have hxi : x = i := Option.some.inj h
        subst hxi
        refine ⟨List.mem_cons_self _ _, hpx, ?_⟩
        intro j hj hlt
        rcases List.mem_cons.mp hj with rfl | hj
        · exact absurd hlt (lt_irrefl _)
        · exact absurd hlt (not_lt.mpr (le_of_lt (hx j hj)))
      · rintro ⟨hi, _, hmin⟩
        rcases List.mem_cons.mp hi with rfl | hi
        · rfl
        · have := hmin x (List.mem_cons_self _ _) (hx i hi)
          rw [hpx] at this
          exact absurd this (by simp)
    · have hpx' : p x = false := by simpa using hpx
      rw [List.find?_cons_of_neg _ hpx, ih hxs]
      constructor
      · rintro ⟨hi, hpi, hmin⟩
        refine ⟨List.mem_cons_of_mem _ hi, hpi, ?_⟩
        intro j hj hlt
        rcases List.mem_cons.mp hj with rfl | hj
        · exact hpx'
        · exact hmin j hj hlt
      · rintro ⟨hi, hpi, hmin⟩
        rcases List.mem_cons.mp hi with rfl | hi
        · rw [hpi] at hpx'
          exact absurd hpx' (by simp)
        · exact ⟨hi, hpi, fun j hj hlt => hmin j (List.mem_cons_of_mem _ hj) hlt⟩

theorem free_slot_eq_some (tl : Fin 8 → task_ctrl_blk) (i : Fin 8) :
    free_slot tl = some i ↔
      i ≠ 0 ∧ (tl i).state = TASK_UNDEFINED ∧
        ∀ j : Fin 8, j ≠ 0 → j < i → (tl j).state ≠ TASK_UNDEFINED := by
  unfold free_slot
  rw [find?_increasing _ _ task_slots_sorted]
  simp only [mem_task_slots, decide_eq_true_eq, decide_eq_false_iff_not]

theorem free_slot_eq_none (tl : Fin 8 → task_ctrl_blk) :
    free_slot tl = none ↔ ∀ j : Fin 8, j ≠ 0 → (tl j).state ≠ TASK_UNDEFINED := by
  unfold free_slot
  rw [List.find?_eq_none]
  simp only [mem_task_slots, decide_eq_true_eq]

theorem free_slot_ne_zero (tl : Fin 8 → task_ctrl_blk) (i : Fin 8)
    (h : free_slot tl = some i) : i ≠ 0 :=
  ((free_slot_eq_some tl i).mp h).1

/-- The scan finds a slot exactly when some slot of 1..7 is undefined. -/
theorem free_slot_isSome (tl : Fin 8 → task_ctrl_blk) :
    (∃ i, free_slot tl = some i) ↔ ∃ j : Fin 8, j ≠ 0 ∧ (tl j).state = TASK_UNDEFINED := by
  constructor
  · rintro ⟨i, hi⟩
    exact ⟨i, ((free_slot_eq_some tl i).mp hi).1, ((free_slot_eq_some tl i).mp hi).2.1⟩
  · rintro ⟨j, hj0, hj⟩
    cases h : free_slot tl with
    | some i => exact ⟨i, rfl⟩
    | none => exact absurd hj ((free_slot_eq_none tl).mp h j hj0)

/-! ## Registration -/

theorem filled_init (idle : Nat) (s : Kernel) : filled 0 (Task_list_init idle s).Task_list := by
  intro j hj
  have hj' : j.val ≠ 0 := fun h => hj (Fin.ext h)
  simp [Task_list_init, hj, hj']

theorem free_slot_of_filled (k : Nat) (hk : k < 7) (tl : Fin 8 → task_ctrl_blk)
    (h : filled k tl) : free_slot tl = some ⟨k + 1, by omega⟩ := by
  rw [free_slot_eq_some]
  have h0 : (⟨k + 1, by omega⟩ : Fin 8) ≠ 0 := by
    intro e
    have := congrArg Fin.val e
    simp at this
  refine ⟨h0, ?_, ?_⟩
  · by_contra hne
    have := (h _ h0).mp hne
    simp at this
  · intro j hj hlt
    apply (h j hj).mpr
    have : j.val < k + 1 := hlt
    omega

theorem free_slot_of_full (tl : Fin 8 → task_ctrl_blk) (h : filled 7 tl) :
    free_slot tl = none := by
  rw [free_slot_eq_none]
  intro j hj
  apply (h j hj).mpr
  omega

theorem filled_update (k : Nat) (hk : k < 7) (tl : Fin 8 → task_ctrl_blk) (h : filled k tl)
    (t : task_ctrl_blk) (ht : t.state ≠ TASK_UNDEFINED) :
    filled (k + 1) (Function.update tl ⟨k + 1, by omega⟩ t) := by
  intro j hj
  by_cases hjk : j = ⟨k + 1, by omega⟩
  · subst hjk
    simp [ht]
  · rw [Function.update_noteq hjk, h j hj]
    have : j.val ≠ k + 1 := fun e => hjk (Fin.ext e)
    omega

theorem register_of_filled (k : Nat) (hk : k < 7) (s : Kernel) (h : filled k s.Task_list)
    (r : Reg) : (register s r).1 = 0 ∧ filled (k + 1) (register s r).2.Task_list := by
  have hf := free_slot_of_filled k hk s.Task_list h
  cases r with
  | add f p o d =>
    simp only [register, Task_add, hf]
    exact ⟨trivial, filled_update k hk _ h _ (by simp)⟩
  | event_add f e d =>
    simp only [register, Task_event_add, hf]
    exact ⟨trivial, filled_update k hk _ h _ (by simp)⟩

theorem register_of_full (s : Kernel) (h : filled 7 s.Task_list) (r : Reg) :
    register s r = (1, s) := by
  have hf := free_slot_of_full s.Task_list h
  cases r <;> simp [register, Task_add, Task_event_add, hf]

theorem register_all_of_filled (rs : List Reg) :
    ∀ (k : Nat) (s : Kernel), filled k s.Task_list → k + rs.length ≤ 7 →
      (register_all s rs).1 = List.replicate rs.length 0 ∧
        filled (k + rs.length) (register_all s rs).2.Task_list := by
  induction rs with
  | nil => intro k s h _; exact ⟨rfl, h⟩
  | cons r rs ih =>
    intro k s h hk
    simp only [List.length_cons] at hk
    obtain ⟨h1, h2⟩ := register_of_filled k (by omega) s h r
    obtain ⟨h3, h4⟩ := ih (k + 1) (register s r).2 h2 (by omega)
    refine ⟨?_, ?_⟩
    · simp only [register_all, List.length_cons, List.replicate_succ, h1, h3]
    · have e : k + (r :: rs).length = k + 1 + rs.length := by
        simp only [List.length_cons]; omega
      rw [e]
      exact h4

/-- C1. After `Task_list_init`, any seven registration calls (each `Task_add`
or `Task_event_add` with a valid trigger) all return 0, and an eighth call of
either kind returns 1 and leaves the whole kernel state, in particular
`Task_list` and `Event_task_list`, exactly as it was. -/
theorem registration_capacity (idle : Nat) (s0 : Kernel) (rs : List Reg)
    (hlen : rs.length = 7) (_hvalid : ∀ r ∈ rs, r.valid) (r8 : Reg) (_hv8 : r8.valid) :
    (register_all (Task_list_init idle s0) rs).1 = List.replicate 7 0 ∧
      register (register_all (Task_list_init idle s0) rs).2 r8 =
        (1, (register_all (Task_list_init idle s0) rs).2) := by
  obtain ⟨h1, h2⟩ :=
    register_all_of_filled rs 0 (Task_list_init idle s0) (filled_init idle s0) (by omega)
  rw [hlen] at h1 h2
  exact ⟨h1, register_of_full _ h2 r8⟩

theorem registration_capacity_witness :
    (register_all (Task_list_init 0x800 boot) seven_regs).1 = List.replicate 7 0 ∧
      register (register_all (Task_list_init 0x800 boot) seven_regs).2
          (.event_add 0x1700 SWITCH_P1_1 9) =
        (1, (register_all (Task_list_init 0x800 boot) seven_regs).2) :=
  registration_capacity 0x800 boot seven_regs rfl
    (by intro r hr; simp [seven_regs] at hr; rcases hr with h | h | h | h | h | h | h <;>
          subst h <;> simp [Reg.valid, SWITCH_P1_1, SWITCH_P1_4])
    (.event_add 0x1700 SWITCH_P1_1 9) (Or.inl rfl)

/-- C2. `Task_add(f, p, o, d)` returns 0 exactly when some slot of 1..7 is
undefined. In that case the lowest undefined slot of 1..7 becomes stopped
with function `f`, period `p`, start offset `o`, deadline `d` and count
`2^32-1` (its remaining deadline is kept), and every other slot, slot 0
included, is unchanged. Otherwise the call returns 1 and changes nothing. -/
theorem Task_add_spec (f p o d : Nat) (s : Kernel) :
    ((Task_add f p o d s).1 = 0 ↔
        ∃ j : Fin 8, j ≠ 0 ∧ (s.Task_list j).state = TASK_UNDEFINED) ∧
    ((∃ i : Fin 8, i ≠ 0 ∧ (s.Task_list i).state = TASK_UNDEFINED ∧
        (∀ j : Fin 8, j ≠ 0 → j < i → (s.Task_list j).state ≠ TASK_UNDEFINED) ∧
        (Task_add f p o d s).1 = 0 ∧
        (Task_add f p o d s).2.Task_list i =
          { function := f, period := p, count := 4294967295, start_offset := o,
            deadline := d, deadline_remaining := (s.Task_list i).deadline_remaining,
            state := TASK_STOPPED } ∧
        ∀ j : Fin 8, j ≠ i → (Task_add f p o d s).2.Task_list j = s.Task_list j) ∨
      ((∀ j : Fin 8, j ≠ 0 → (s.Task_list j).state ≠ TASK_UNDEFINED) ∧
        Task_add f p o d s = (1, s))) := by
  cases hf : free_slot s.Task_list with
  | some i =>
    obtain ⟨hi0, hiu, hmin⟩ := (free_slot_eq_some _ _).mp hf
    refine ⟨?_, Or.inl ⟨i, hi0, hiu, hmin, ?_, ?_, ?_⟩⟩
    · simp only [Task_add, hf, true_iff]
      exact ⟨i, hi0, hiu⟩
    · simp only [Task_add, hf]
    · simp only [Task_add, hf, Function.update_same, UINT32_MAX]
    · intro j hj
      simp only [Task_add, hf, Function.update_noteq hj]
  | none =>
    have hall := (free_slot_eq_none _).mp hf
    refine ⟨?_, Or.inr ⟨hall, ?_⟩⟩
    · simp only [Task_add, hf]
      constructor
      · intro h; exact absurd h (by decide)
      · rintro ⟨j, hj0, hj⟩; exact absurd hj (hall j hj0)
    · simp only [Task_add, hf]

/-- C3, evaluated on the table left by `Task_list_init` with the trigger
value 2, which is neither `SWITCH_P1_1` nor `SWITCH_P1_4`: the call returns
0 and slot 1, undefined before, is now a stopped task with the given entry,
period 0, count 1 and the given deadline. -/
theorem Task_event_add_unrecognised_trigger :
    ((Task_list_init 0x800 boot).Task_list 1).state = TASK_UNDEFINED ∧
    (Task_event_add 0x1000 2 100 (Task_list_init 0x800 boot)).1 = 0 ∧
    (Task_event_add 0x1000 2 100 (Task_list_init 0x800 boot)).2.Task_list 1 =
      { function := 0x1000, period := 0, count := 1, start_offset := 0, deadline := 100,
        deadline_remaining := 0, state := TASK_STOPPED } := by
  decide

/-! ## Selection -/

theorem priority_step_cases (tl : Fin 8 → task_ctrl_blk) (acc : Fin 8 × Nat) (x : Fin 8) :
    (priority_step tl acc x = acc ∨
      (priority_step tl acc x = (x, (tl x).deadline_remaining) ∧ eligible tl x ∧
        (tl x).deadline_remaining < acc.2)) ∧
    (priority_step tl acc x).2 ≤ acc.2 ∧
    (eligible tl x → (priority_step tl acc x).2 ≤ (tl x).deadline_remaining) := by
  unfold priority_step eligible
  by_cases hs : (tl x).state = TASK_RUNNING ∨ (tl x).state = TASK_SUSPENDED
  · by_cases hc : (tl x).start_offset = 0 ∧ (tl x).deadline_remaining < acc.2
    · rw [if_pos hs, if_pos hc]
      refine ⟨Or.inr ⟨rfl, ⟨hs.symm, hc.1⟩, hc.2⟩, le_of_lt hc.2, fun _ => le_refl _⟩
    · rw [if_pos hs, if_neg hc]
      refine ⟨Or.inl rfl, le_refl _, ?_⟩
      rintro ⟨_, h0⟩
      exact not_lt.mp (fun hlt => hc ⟨h0, hlt⟩)
  · rw [if_neg hs]
    refine ⟨Or.inl rfl, le_refl _, ?_⟩
    rintro ⟨h, _⟩
    exact absurd h.symm hs

/-- Invariant of the selection loop over an increasing list of slots. -/
theorem priority_fold (tl : Fin 8 → task_ctrl_blk) (l : List (Fin 8))
    (hl : l.Pairwise (· < ·)) :
    ∀ acc : Fin 8 × Nat,
      (l.foldl (priority_step tl) acc = acc ∨
        ((l.foldl (priority_step tl) acc).1 ∈ l ∧
          eligible tl (l.foldl (priority_step tl) acc).1 ∧
          (l.foldl (priority_step tl) acc).2 =
            (tl (l.foldl (priority_step tl) acc).1).deadline_remaining ∧
          (l.foldl (priority_step tl) acc).2 < acc.2 ∧
          ∀ j ∈ l, j < (l.foldl (priority_step tl) acc).1 → eligible tl j →
            (l.foldl (priority_step tl) acc).2 < (tl j).deadline_remaining)) ∧
      (l.foldl (priority_step tl) acc).2 ≤ acc.2 ∧
      (∀ j ∈ l, eligible tl j →
        (l.foldl (priority_step tl) acc).2 ≤ (tl j).deadline_remaining) := by
  induction l with
  | nil =>
    intro acc
    exact ⟨Or.inl rfl, le_refl _, fun j hj => absurd hj (List.not_mem_nil j)⟩
  | cons x xs ih =>
    intro acc
    rw [List.pairwise_cons] at hl
    obtain ⟨hx, hxs⟩ := hl
    obtain ⟨s1, s2, s3⟩ := priority_step_cases tl acc x
    obtain ⟨f1, f2, f3⟩ := ih hxs (priority_step tl acc x)
    simp only [List.foldl_cons]
    refine ⟨?_, le_trans f2 s2, ?_⟩
    · rcases f1 with f1 | ⟨m1, m2, m3, m4, m5⟩
      · rcases s1 with s1 | ⟨s1, s1e, s1l⟩
        · left; rw [f1, s1]
        · right
          rw [f1, s1]
          refine ⟨List.mem_cons_self _ _, s1e, rfl, s1l, ?_⟩
          intro j hj hlt
          rcases List.mem_cons.mp hj with rfl | hj
          · exact absurd hlt (lt_irrefl _)
          · exact absurd hlt (not_lt.mpr (le_of_lt (hx j hj)))
      · right
        refine ⟨List.mem_cons_of_mem _ m1, m2, m3, lt_of_lt_of_le m4 s2, ?_⟩
        intro j hj hlt he
        rcases List.mem_cons.mp hj with rfl | hj
        · exact lt_of_lt_of_le m4 (s3 he)
        · exact m5 j hj hlt he
    · intro j hj he
      rcases List.mem_cons.mp hj with rfl | hj
      · exact le_trans f2 (s3 he)
      · exact f3 j hj he

/-- What `get_priority_task` returns: slot 0 when no eligible slot of 1..7 has
a remaining deadline below `UINT32_MAX`; otherwise the lowest-index slot among
the eligible slots of 1..7 with the smallest remaining deadline. -/
theorem get_priority_task_cases (tl : Fin 8 → task_ctrl_blk) :
    (get_priority_task tl = 0 ∧
        ∀ j : Fin 8, j ≠ 0 → eligible tl j → UINT32_MAX ≤ (tl j).deadline_remaining) ∨
    (get_priority_task tl ≠ 0 ∧ eligible tl (get_priority_task tl) ∧
      (tl (get_priority_task tl)).deadline_remaining < UINT32_MAX ∧
      (∀ j : Fin 8, j ≠ 0 → eligible tl j →
        (tl (get_priority_task tl)).deadline_remaining ≤ (tl j).deadline_remaining) ∧
      ∀ j : Fin 8, j ≠ 0 → j < get_priority_task tl → eligible tl j →
        (tl (get_priority_task tl)).deadline_remaining < (tl j).deadline_remaining) := by
  obtain ⟨f1, _, f3⟩ := priority_fold tl task_slots task_slots_sorted (0, UINT32_MAX)
  unfold get_priority_task
  rcases f1 with f1 | ⟨m1, m2, m3, m4, m5⟩
  · left
    rw [f1] at f3 ⊢
    exact ⟨rfl, fun j hj he => f3 j ((mem_task_slots j).mpr hj) he⟩
  · right
    refine ⟨(mem_task_slots _).mp m1, m2, ?_, ?_, ?_⟩
    · rw [← m3]; exact m4
    · intro j hj he
      rw [← m3]; exact f3 j ((mem_task_slots j).mpr hj) he
    · intro j hj hlt he
      rw [← m3]; exact m5 j ((mem_task_slots j).mpr hj) hlt he

/-- A stopped or undefined slot is never selected, unless it is slot 0. -/
theorem get_priority_task_eligible (tl : Fin 8 → task_ctrl_blk)
    (h : get_priority_task tl ≠ 0) : eligible tl (get_priority_task tl) := by
  rcases get_priority_task_cases tl with ⟨h0, _⟩ | ⟨_, he, _⟩
  · exact absurd h0 h
  · exact he

/-- C4 (as stated) fails: slot 1 is suspended with start offset 0, hence
eligible, and its remaining deadline is `UINT32_MAX`; the comparison
`deadline_remaining < earliest_deadline` is then false, slot 0 is returned,
and slot 0 is not an eligible slot. -/
theorem get_priority_task_earliest_counterexample :
    eligible (table_of (sample_blk TASK_SUSPENDED 0 4294967295)
        (sample_blk TASK_UNDEFINED 0 0)) 1 ∧
    get_priority_task (table_of (sample_blk TASK_SUSPENDED 0 4294967295)
        (sample_blk TASK_UNDEFINED 0 0)) = 0 ∧
    ¬ eligible (table_of (sample_blk TASK_SUSPENDED 0 4294967295)
        (sample_blk TASK_UNDEFINED 0 0))
      (get_priority_task (table_of (sample_blk TASK_SUSPENDED 0 4294967295)
        (sample_blk TASK_UNDEFINED 0 0))) := by
  decide

/-- C4 (amended). When some eligible slot of 1..7 has a remaining deadline
below `UINT32_MAX`, `get_priority_task` returns a slot of 1..7 that is
eligible and whose remaining deadline is at most that of every eligible slot
of 1..7. -/
theorem get_priority_task_earliest (tl : Fin 8 → task_ctrl_blk)
    (h : ∃ i : Fin 8, i ≠ 0 ∧ eligible tl i ∧ (tl i).deadline_remaining < UINT32_MAX) :
    get_priority_task tl ≠ 0 ∧ eligible tl (get_priority_task tl) ∧
      ∀ j : Fin 8, j ≠ 0 → eligible tl j →
        (tl (get_priority_task tl)).deadline_remaining ≤ (tl j).deadline_remaining := by
  obtain ⟨i, hi0, hie, hil⟩ := h
  rcases get_priority_task_cases tl with ⟨_, hall⟩ | ⟨h0, he, _, hmin, _⟩
  · exact absurd (hall i hi0 hie) (not_le.mpr hil)
  · exact ⟨h0, he, hmin⟩

theorem get_priority_task_earliest_witness :
    get_priority_task (table_of (sample_blk TASK_RUNNING 0 1400)
        (sample_blk TASK_SUSPENDED 0 700)) ≠ 0 ∧
      eligible (table_of (sample_blk TASK_RUNNING 0 1400) (sample_blk TASK_SUSPENDED 0 700))
        (get_priority_task (table_of (sample_blk TASK_RUNNING 0 1400)
          (sample_blk TASK_SUSPENDED 0 700))) ∧
      ∀ j : Fin 8, j ≠ 0 →
        eligible (table_of (sample_blk TASK_RUNNING 0 1400) (sample_blk TASK_SUSPENDED 0 700)) j →
        ((table_of (sample_blk TASK_RUNNING 0 1400) (sample_blk TASK_SUSPENDED 0 700))
          (get_priority_task (table_of (sample_blk TASK_RUNNING 0 1400)
            (sample_blk TASK_SUSPENDED 0 700)))).deadline_remaining ≤
        ((table_of (sample_blk TASK_RUNNING 0 1400) (sample_blk TASK_SUSPENDED 0 700))
          j).deadline_remaining :=
  get_priority_task_earliest _ ⟨2, by decide, by decide, by decide⟩

/-- C5 (as stated) fails: slots 1 and 2 are the eligible slots and share the
smallest remaining deadline, `UINT32_MAX`; the slot returned is 0, not 1. -/
theorem get_priority_task_tie_counterexample :
    eligible (table_of (sample_blk TASK_SUSPENDED 0 4294967295)
        (sample_blk TASK_SUSPENDED 0 4294967295)) 1 ∧
    eligible (table_of (sample_blk TASK_SUSPENDED 0 4294967295)
        (sample_blk TASK_SUSPENDED 0 4294967295)) 2 ∧
    (∀ j : Fin 8, eligible (table_of (sample_blk TASK_SUSPENDED 0 4294967295)
        (sample_blk TASK_SUSPENDED 0 4294967295)) j →
      (j = 1 ∨ j = 2) ∧
      ((table_of (sample_blk TASK_SUSPENDED 0 4294967295)
        (sample_blk TASK_SUSPENDED 0 4294967295)) j).deadline_remaining = 4294967295) ∧
    get_priority_task (table_of (sample_blk TASK_SUSPENDED 0 4294967295)
        (sample_blk TASK_SUSPENDED 0 4294967295)) ≠ 1 := by
  decide

/-- C5 (amended). When the smallest remaining deadline among the eligible
slots of 1..7 is below `UINT32_MAX`, `get_priority_task` returns the
lowest-index eligible slot having that smallest value: if `i` is eligible,
no eligible slot has a smaller remaining deadline, and no eligible slot with
the same remaining deadline has a lower index, then `i` is returned. In
particular a ready task with remaining deadline 5 wins against one with 10 in
either slot order. -/
theorem get_priority_task_tie_break (tl : Fin 8 → task_ctrl_blk) (i : Fin 8) (hi0 : i ≠ 0)
    (hi : eligible tl i) (hlt : (tl i).deadline_remaining < UINT32_MAX)
    (hmin : ∀ j : Fin 8, j ≠ 0 → eligible tl j →
      (tl i).deadline_remaining ≤ (tl j).deadline_remaining)
    (hlow : ∀ j : Fin 8, j ≠ 0 → eligible tl j →
      (tl j).deadline_remaining = (tl i).deadline_remaining → i ≤ j) :
    get_priority_task tl = i := by
  rcases get_priority_task_cases tl with ⟨_, hall⟩ | ⟨h0, he, _, hmin', hfirst⟩
  · exact absurd (hall i hi0 hi) (not_le.mpr hlt)
  · have heq : (tl (get_priority_task tl)).deadline_remaining = (tl i).deadline_remaining :=
      le_antisymm (hmin' i hi0 hi) (hmin _ h0 he)
    have hle : i ≤ get_priority_task tl := hlow _ h0 he heq
    rcases lt_or_eq_of_le hle with hlt' | heq'
    · exact absurd (hfirst i hi0 hlt' hi) (by rw [heq]; exact lt_irrefl _)
    · exact heq'.symm

theorem get_priority_task_tie_break_witness :
    get_priority_task (table_of (sample_blk TASK_SUSPENDED 0 5)
        (sample_blk TASK_RUNNING 0 10)) = 1 ∧
    get_priority_task (table_of (sample_blk TASK_RUNNING 0 10)
        (sample_blk TASK_SUSPENDED 0 5)) = 2 ∧
    get_priority_task (table_of (sample_blk TASK_SUSPENDED 0 5)
        (sample_blk TASK_RUNNING 0 5)) = 1 :=
  ⟨get_priority_task_tie_break _ 1 (by decide) (by decide) (by decide) (by decide) (by decide),
   get_priority_task_tie_break _ 2 (by decide) (by decide) (by decide) (by decide) (by decide),
   get_priority_task_tie_break _ 1 (by decide) (by decide) (by decide) (by decide) (by decide)⟩

/-- C6. When no slot of 1..7 is both (suspended or running) and has start
offset 0, `get_priority_task` returns slot 0, whatever slot 0 contains. -/
theorem get_priority_task_idle (tl : Fin 8 → task_ctrl_blk)
    (h : ∀ j : Fin 8, j ≠ 0 →
      ¬ (((tl j).state = TASK_SUSPENDED ∨ (tl j).state = TASK_RUNNING) ∧
          (tl j).start_offset = 0)) :
    get_priority_task tl = 0 := by
  rcases get_priority_task_cases tl with ⟨h0, _⟩ | ⟨h0, he, _⟩
  · exact h0
  · exact absurd he (h _ h0)

theorem get_priority_task_idle_witness :
    get_priority_task (table_of (sample_blk TASK_STOPPED 0 0)
        (sample_blk TASK_SUSPENDED 100 700)) = 0 :=
  get_priority_task_idle _ (by decide)

/-! ## The timer handler -/

/-- A loop that rewrites each listed slot from its own old value acts
pointwise. -/
theorem foldl_update_apply (g : task_ctrl_blk → task_ctrl_blk) (l : List (Fin 8))
    (hl : l.Nodup) :
    ∀ (tl : Fin 8 → task_ctrl_blk) (j : Fin 8),
      (l.foldl (fun tl i => Function.update tl i (g (tl i))) tl) j =
        if j ∈ l then g (tl j) else tl j := by
  induction l with
  | nil => intro tl j; simp
  | cons x xs ih =>
    intro tl j
    rw [List.nodup_cons] at hl
    obtain ⟨hx, hxs⟩ := hl
    rw [List.foldl_cons, ih hxs]
    by_cases hj : j ∈ xs
    · have hjx : j ≠ x := fun e => hx (e ▸ hj)
      simp [hj, Function.update_noteq hjx]
    · by_cases hjx : j = x
      · subst hjx
        simp [hj]
      · simp [hj, hjx, Function.update_noteq hjx]

theorem tick_loop_apply (tl : Fin 8 → task_ctrl_blk) (j : Fin 8) :
    tick_loop tl j = if j = 0 then tl j else tick_slot (tl j) := by
  unfold tick_loop
  rw [foldl_update_apply tick_slot task_slots task_slots_nodup]
  by_cases hj : j = 0
  · subst hj; simp [task_slots]
  · simp [(mem_task_slots j).mpr hj, hj]

theorem tick_slot_function (t : task_ctrl_blk) : (tick_slot t).function = t.function := by
  unfold tick_slot tick_deadline tick_activate tick_counters
  repeat' split
  all_goals rfl

theorem tick_slot_period (t : task_ctrl_blk) : (tick_slot t).period = t.period := by
  unfold tick_slot tick_deadline tick_activate tick_counters
  repeat' split
  all_goals rfl

theorem tick_loop_function (tl : Fin 8 → task_ctrl_blk) (j : Fin 8) :
    (tick_loop tl j).function = (tl j).function := by
  rw [tick_loop_apply]
  split
  · rfl
  · exact tick_slot_function _

theorem tick_update_current (s : Kernel) : (tick_update s).current_task = s.current_task := by
  unfold tick_update
  split <;> rfl

theorem tick_update_function (s : Kernel) (j : Fin 8) :
    ((tick_update s).Task_list j).function = (s.Task_list j).function := by
  unfold tick_update
  split
  · exact tick_loop_function _ _
  · rfl

/-- C7. In a handler invocation whose selected slot differs from the cursor:
the cursor becomes the selected slot, the selected slot becomes running, the
value stored into the saved return address is the `function` field of the
selected slot (a field the handler never changes), and the old cursor slot
becomes suspended if it was running at the redirection step and otherwise
keeps the state it had there, in particular when it was stopped. States of
the old cursor slot are those seen by the redirection step, after the counter
update of the same invocation. -/
theorem handler_redirects (s : Kernel) (hne : selected s ≠ s.current_task) :
    (TA0_N_IRQHandler s).1.current_task = selected s ∧
    ((TA0_N_IRQHandler s).1.Task_list (selected s)).state = TASK_RUNNING ∧
    (TA0_N_IRQHandler s).2 = some (s.Task_list (selected s)).function ∧
    ((TA0_N_IRQHandler s).1.Task_list (selected s)).function =
      (s.Task_list (selected s)).function ∧
    (((tick_update s).Task_list s.current_task).state = TASK_RUNNING →
      ((TA0_N_IRQHandler s).1.Task_list s.current_task).state = TASK_SUSPENDED) ∧
    (((tick_update s).Task_list s.current_task).state = TASK_STOPPED →
      ((TA0_N_IRQHandler s).1.Task_list s.current_task).state = TASK_STOPPED) ∧
    (((tick_update s).Task_list s.current_task).state ≠ TASK_RUNNING →
      ((TA0_N_IRQHandler s).1.Task_list s.current_task).state =
        ((tick_update s).Task_list s.current_task).state) := by
  have hc := tick_update_current s
  have hf := tick_update_function s (selected s)
  unfold selected at hne hf ⊢
  have hne' : get_priority_task (tick_update s).Task_list ≠ (tick_update s).current_task := by
    rw [hc]; exact hne
  have hne2 : s.current_task ≠ get_priority_task (tick_update s).Task_list :=
    fun e => hne e.symm
  unfold TA0_N_IRQHandler dispatch
  simp only [if_pos hne']
  rw [hc]
  refine ⟨trivial, ?_, ?_, ?_, ?_, ?_, ?_⟩
  · simp
  · by_cases hr : ((tick_update s).Task_list s.current_task).state = TASK_RUNNING
    · simp [hr, Function.update_noteq hne, hf]
    · simp [hr, hf]
  · by_cases hr : ((tick_update s).Task_list s.current_task).state = TASK_RUNNING
    · simp [hr, Function.update_noteq hne, hf]
    · simp [hr, hf]
  · intro hr
    simp [hr, Function.update_noteq hne2]
  · intro hr
    simp [hr, Function.update_noteq hne2]
  · intro hr
    simp [hr, Function.update_noteq hne2]

theorem handler_redirects_witness :
    (TA0_N_IRQHandler main_setup).1.current_task = 2 ∧
    ((TA0_N_IRQHandler main_setup).1.Task_list 2).state = TASK_RUNNING ∧
    (TA0_N_IRQHandler main_setup).2 = some 0x2000 ∧
    ((TA0_N_IRQHandler main_setup).1.Task_list 0).state = TASK_SUSPENDED := by
  have hsel : selected main_setup = 2 := by decide
  have h := handler_redirects main_setup (by decide)
  rw [hsel] at h
  exact ⟨h.1, h.2.1, h.2.2.1, h.2.2.2.2.1 (by decide)⟩

/-- A slot that is not stopped on entry to the handler is not stopped after
the counter update. -/
theorem tick_update_not_stopped (s : Kernel) (j : Fin 8)
    (h : (s.Task_list j).state ≠ TASK_STOPPED) :
    ((tick_update s).Task_list j).state ≠ TASK_STOPPED := by
  unfold tick_update
  split
  · simp only [tick_loop_apply]
    split
    · exact h
    · unfold tick_slot tick_deadline tick_activate tick_counters
      repeat' split
      all_goals simp_all
  · exact h

/-- C8. In a handler invocation whose selected slot is the cursor, and whose
cursor slot is not stopped when the redirection step runs (which is the case
whenever it was not stopped on entry), nothing is stored into the saved
return address, the cursor is unchanged, and the redirection step leaves the
whole state, hence every slot state, as the counter update left it. -/
theorem handler_keeps_current (s : Kernel) (heq : selected s = s.current_task)
    (hns : ((tick_update s).Task_list s.current_task).state ≠ TASK_STOPPED) :
    (TA0_N_IRQHandler s).2 = none ∧
    (TA0_N_IRQHandler s).1.current_task = s.current_task ∧
    (TA0_N_IRQHandler s).1 = tick_update s ∧
    ∀ j : Fin 8, ((TA0_N_IRQHandler s).1.Task_list j).state =
      ((tick_update s).Task_list j).state := by
  have hc := tick_update_current s
  have heq' : ¬ get_priority_task (tick_update s).Task_list ≠ (tick_update s).current_task := by
    rw [hc]; exact not_not.mpr heq
  have hns' : ¬ ((tick_update s).Task_list (tick_update s).current_task).state =
      TASK_STOPPED := by
    rw [hc]; exact hns
  have hd : TA0_N_IRQHandler s = (tick_update s, none) := by
    unfold TA0_N_IRQHandler dispatch
    simp only [if_neg heq', if_neg hns']
  rw [hd]
  exact ⟨rfl, hc, rfl, fun _ => rfl⟩

theorem handler_keeps_current_witness :
    (TA0_N_IRQHandler (TA0_N_IRQHandler main_setup).1).2 = none ∧
    (TA0_N_IRQHandler (TA0_N_IRQHandler main_setup).1).1.current_task =
      (TA0_N_IRQHandler main_setup).1.current_task ∧
    (TA0_N_IRQHandler (TA0_N_IRQHandler main_setup).1).1 =
      tick_update (TA0_N_IRQHandler main_setup).1 ∧
    ∀ j : Fin 8,
      ((TA0_N_IRQHandler (TA0_N_IRQHandler main_setup).1).1.Task_list j).state =
        ((tick_update (TA0_N_IRQHandler main_setup).1).Task_list j).state :=
  handler_keeps_current (TA0_N_IRQHandler main_setup).1 (by decide) (by decide)

/-! ## Effect of each event on one slot -/

theorem activate_event_apply (e : Fin 2) (tl : Fin 8 → task_ctrl_blk)
    (etl : Fin 2 → Option (Fin 8)) (j : Fin 8) :
    activate_event e tl etl j =
      if etl e = some j then { tl j with state := TASK_SUSPENDED } else tl j := by
  unfold activate_event
  cases h : etl e with
  | none => simp
  | some i =>
    by_cases hij : i = j
    · subst hij; simp
    · have hji : j ≠ i := fun e => hij e.symm
      simp [hij, Function.update_noteq hji]

theorem port_flag_Event_task_list (bit clear : Nat) (e : Fin 2) (s : Kernel) :
    (port_flag bit clear e s).Event_task_list = s.Event_task_list := by
  unfold port_flag
  split <;> rfl

theorem port_flag_TA0CTL (bit clear : Nat) (e : Fin 2) (s : Kernel) :
    (port_flag bit clear e s).TA0CTL = s.TA0CTL := by
  unfold port_flag
  split <;> rfl

theorem port_flag_slot (bit clear : Nat) (e : Fin 2) (s : Kernel) (j : Fin 8) :
    (port_flag bit clear e s).Task_list j = s.Task_list j ∨
      (s.Event_task_list e = some j ∧
        (port_flag bit clear e s).Task_list j =
          { s.Task_list j with state := TASK_SUSPENDED }) := by
  unfold port_flag
  split
  · simp only [activate_event_apply]
    by_cases h : s.Event_task_list e = some j
    · right; simp [h]
    · left; simp [h]
  · left; rfl

theorem PORT1_Event_task_list (s : Kernel) :
    (PORT1_IRQHandler s).Event_task_list = s.Event_task_list := by
  unfold PORT1_IRQHandler
  rw [port_flag_Event_task_list, port_flag_Event_task_list]

theorem PORT1_TA0CTL (s : Kernel) : (PORT1_IRQHandler s).TA0CTL = s.TA0CTL := by
  unfold PORT1_IRQHandler
  rw [port_flag_TA0CTL, port_flag_TA0CTL]

/-- The port handler changes a slot only if a trigger is bound to it, and then
only by making it suspended. -/
theorem PORT1_slot (s : Kernel) (j : Fin 8) :
    (PORT1_IRQHandler s).Task_list j = s.Task_list j ∨
      ((∃ e, s.Event_task_list e = some j) ∧
        (PORT1_IRQHandler s).Task_list j = { s.Task_list j with state := TASK_SUSPENDED }) := by
  unfold PORT1_IRQHandler
  rcases port_flag_slot 0x02 0xFD 0 s j with h1 | ⟨b1, h1⟩ <;>
    rcases port_flag_slot 0x10 0xEF 1 (port_flag 0x02 0xFD 0 s) j with h2 | ⟨b2, h2⟩
  · left; rw [h2, h1]
  · right
    rw [port_flag_Event_task_list] at b2
    exact ⟨⟨1, b2⟩, by rw [h2, h1]⟩
  · right
    exact ⟨⟨0, b1⟩, by rw [h2, h1]⟩
  · right
    exact ⟨⟨0, b1⟩, by rw [h2, h1]⟩

theorem Task_stop_slot (X : Nat) (s : Kernel) (j : Fin 8) :
    (Task_stop X s).Task_list j = s.Task_list j ∨
      (Task_stop X s).Task_list j = { s.Task_list j with state := TASK_STOPPED } := by
  unfold Task_stop
  split
  · rename_i i _
    by_cases hij : j = i
    · subst hij; right; simp
    · left; simp [Function.update_noteq hij]
  · left; rfl

theorem Task_stop_Event_task_list (X : Nat) (s : Kernel) :
    (Task_stop X s).Event_task_list = s.Event_task_list := by
  unfold Task_stop
  split <;> rfl

theorem Task_stop_TA0CTL (X : Nat) (s : Kernel) : (Task_stop X s).TA0CTL = s.TA0CTL := by
  unfold Task_stop
  split <;> rfl

/-- A registration call leaves every registered slot as it is. -/
theorem register_slot (s : Kernel) (r : Reg) (j : Fin 8)
    (hj : (s.Task_list j).state ≠ TASK_UNDEFINED) :
    (register s r).2.Task_list j = s.Task_list j := by
  cases hf : free_slot s.Task_list with
  | none => cases r <;> simp [register, Task_add, Task_event_add, hf]
  | some i =>
    have hji : j ≠ i := by
      intro e
      subst e
      exact hj ((free_slot_eq_some _ _).mp hf).2.1
    cases r <;> simp [register, Task_add, Task_event_add, hf, Function.update_noteq hji]

/-- A registration call binds no trigger to an already registered slot. -/
theorem register_binding (s : Kernel) (r : Reg) (j : Fin 8)
    (hj : (s.Task_list j).state ≠ TASK_UNDEFINED) (e : Fin 2)
    (h : (register s r).2.Event_task_list e = some j) : s.Event_task_list e = some j := by
  cases hf : free_slot s.Task_list with
  | none =>
    cases r <;> simpa [register, Task_add, Task_event_add, hf] using h
  | some i =>
    have hij : i ≠ j := by
      intro e
      subst e
      exact hj ((free_slot_eq_some _ _).mp hf).2.1
    cases r with
    | add f p o d => simpa [register, Task_add, hf] using h
    | event_add f ev d =>
      simp only [register, Task_event_add, hf] at h
      by_cases hev : ev < 2
      · simp only [hev, dite_true] at h
        by_cases hee : e = ⟨ev, hev⟩
        · subst hee
          simp [hij] at h
        · simpa [Function.update_noteq hee] using h
      · simpa [hev] using h

theorem register_TA0CTL (s : Kernel) (r : Reg) : (register s r).2.TA0CTL = s.TA0CTL := by
  cases hf : free_slot s.Task_list <;> cases r <;>
    simp [register, Task_add, Task_event_add, hf]

theorem dispatch_TA0CTL (s : Kernel) : (dispatch s).1.TA0CTL = s.TA0CTL := by
  unfold dispatch
  simp only
  repeat' split
  all_goals rfl

theorem dispatch_Event_task_list (s : Kernel) :
    (dispatch s).1.Event_task_list = s.Event_task_list := by
  unfold dispatch
  simp only
  repeat' split
  all_goals rfl

/-- Selection and redirection change nothing but slot states. -/
theorem dispatch_slot (s : Kernel) (j : Fin 8) :
    state_only (s.Task_list j) ((dispatch s).1.Task_list j) := by
  unfold dispatch state_only
  simp only
  by_cases hsel : get_priority_task s.Task_list ≠ s.current_task
  · rw [if_pos hsel]
    simp only
    by_cases hj : j = get_priority_task s.Task_list
    · right; right; right
      have hjc : j ≠ s.current_task := by rw [hj]; exact hsel
      rw [← hj]
      by_cases hr : (s.Task_list s.current_task).state = TASK_RUNNING
      · simp [hr, Function.update_noteq hjc]
      · simp [hr]
    · rw [Function.update_noteq hj]
      by_cases hr : (s.Task_list s.current_task).state = TASK_RUNNING
      · rw [if_pos hr]
        by_cases hjc : j = s.current_task
        · right; right; left
          rw [hjc]; simp
        · left
          rw [Function.update_noteq hjc]
      · rw [if_neg hr]
        left; rfl
  · rw [if_neg hsel]
    by_cases hst : (s.Task_list s.current_task).state = TASK_STOPPED
    · rw [if_pos hst]
      simp only
      by_cases hj : j = 0
      · right; right; right
        rw [hj]; simp
      · left
        rw [Function.update_noteq hj]
    · rw [if_neg hst]
      left; rfl

/-- A stopped slot other than slot 0 is not selected. -/
theorem get_priority_task_ne_of_stopped (tl : Fin 8 → task_ctrl_blk) (j : Fin 8)
    (hj0 : j ≠ 0) (hst : (tl j).state = TASK_STOPPED) : get_priority_task tl ≠ j := by
  intro e
  have he := get_priority_task_eligible tl (by rw [e]; exact hj0)
  rw [e] at he
  unfold eligible at he
  rw [hst] at he
  rcases he.1 with h | h <;> exact absurd h (by decide)

/-- Selection and redirection leave a stopped slot other than slot 0 as it is. -/
theorem dispatch_stopped_slot (s : Kernel) (j : Fin 8) (hj0 : j ≠ 0)
    (hst : (s.Task_list j).state = TASK_STOPPED) :
    (dispatch s).1.Task_list j = s.Task_list j := by
  have hne : j ≠ get_priority_task s.Task_list :=
    fun e => get_priority_task_ne_of_stopped s.Task_list j hj0 hst e.symm
  unfold dispatch
  simp only
  by_cases hsel : get_priority_task s.Task_list ≠ s.current_task
  · rw [if_pos hsel]
    simp only
    rw [Function.update_noteq hne]
    by_cases hr : (s.Task_list s.current_task).state = TASK_RUNNING
    · rw [if_pos hr]
      have hjc : j ≠ s.current_task := by
        intro e
        rw [← e, hst] at hr
        exact absurd hr (by decide)
      rw [Function.update_noteq hjc]
    · rw [if_neg hr]
  · rw [if_neg hsel]
    by_cases hc : (s.Task_list s.current_task).state = TASK_STOPPED
    · rw [if_pos hc]
      simp only
      rw [Function.update_noteq hj0]
    · rw [if_neg hc]

theorem tick_update_Event_task_list (s : Kernel) :
    (tick_update s).Event_task_list = s.Event_task_list := by
  unfold tick_update
  split <;> rfl

theorem tick_update_gate (s : Kernel) (h : gate_open s) : gate_open (tick_update s) := by
  unfold gate_open at h ⊢
  unfold tick_update
  rw [if_pos h]
  simp only
  rw [Nat.land_assoc]
  exact h

theorem tick_update_slot (s : Kernel) (h : gate_open s) (j : Fin 8) (hj : j ≠ 0) :
    (tick_update s).Task_list j = tick_slot (s.Task_list j) := by
  unfold gate_open at h
  unfold tick_update
  rw [if_pos h]
  simp only
  rw [tick_loop_apply, if_neg hj]

/-- Without the gate the counter update changes no slot; with it, slots 1..7
go through the loop body. -/
theorem tick_update_slot_cases (s : Kernel) (j : Fin 8) :
    (tick_update s).Task_list j = s.Task_list j ∨
      (tick_update s).Task_list j = tick_slot (s.Task_list j) := by
  unfold tick_update
  split
  · simp only [tick_loop_apply]
    split
    · left; rfl
    · right; rfl
  · left; rfl

/-! ## Start offset and periodic activation -/

theorem tick_slot_count (t : task_ctrl_blk) : (tick_slot t).count = (tick_counters t).count := by
  unfold tick_slot tick_deadline tick_activate
  repeat' split
  all_goals rfl

theorem tick_slot_start_offset (t : task_ctrl_blk) :
    (tick_slot t).start_offset = (tick_counters t).start_offset := by
  unfold tick_slot tick_deadline tick_activate
  repeat' split
  all_goals rfl

theorem tick_counters_state (t : task_ctrl_blk) : (tick_counters t).state = t.state := by
  unfold tick_counters
  repeat' split
  all_goals rfl

/-- State left by the loop body: the activation branch is the only one that
assigns the state. -/
theorem tick_slot_state (t : task_ctrl_blk) :
    (tick_slot t).state =
      if (tick_counters t).count = 0 ∧ t.state = TASK_STOPPED then TASK_SUSPENDED
      else t.state := by
  have hs := tick_counters_state t
  unfold tick_slot tick_deadline tick_activate
  by_cases hc : (tick_counters t).count = 0 <;> by_cases hst : t.state = TASK_STOPPED
  all_goals simp only [hc, hs, hst, if_true, if_false, true_and, false_and, and_true, and_false]
  all_goals repeat' split
  all_goals first | rfl | exact hs | simp_all

/-- Every event other than a timer handler invocation changes a registered
slot at most in its state. -/
theorem step_other_slot (s : Kernel) (ev : Event) (hev : ev ≠ .irq) (j : Fin 8)
    (hj : (s.Task_list j).state ≠ TASK_UNDEFINED) :
    state_only (s.Task_list j) ((step s ev).Task_list j) := by
  cases ev with
  | irq => exact absurd rfl hev
  | port flags =>
    simp only [step]
    rcases PORT1_slot { s with P1IFG := (s.P1IFG ||| flags) % 256 } j with h | ⟨_, h⟩
    · exact Or.inl h
    · exact Or.inr (Or.inr (Or.inl h))
  | stop X =>
    simp only [step]
    rcases Task_stop_slot X s j with h | h
    · exact Or.inl h
    · exact Or.inr (Or.inl h)
  | reg r =>
    simp only [step]
    exact Or.inl (register_slot s r j hj)

theorem step_other_gate (s : Kernel) (ev : Event) (hev : ev ≠ .irq) :
    (step s ev).TA0CTL = s.TA0CTL := by
  cases ev with
  | irq => exact absurd rfl hev
  | port flags => simp only [step]; rw [PORT1_TA0CTL]
  | stop X => simp only [step]; rw [Task_stop_TA0CTL]
  | reg r => simp only [step]; rw [register_TA0CTL]

theorem step_irq_slot (s : Kernel) (h : gate_open s) (j : Fin 8) (hj : j ≠ 0) :
    state_only (tick_slot (s.Task_list j)) ((step s .irq).Task_list j) := by
  simp only [step, TA0_N_IRQHandler]
  rw [← tick_update_slot s h j hj]
  exact dispatch_slot (tick_update s) j

theorem step_gate (s : Kernel) (ev : Event) (h : gate_open s) : gate_open (step s ev) := by
  by_cases hev : ev = .irq
  · subst hev
    have := tick_update_gate s h
    unfold gate_open at this ⊢
    simp only [step, TA0_N_IRQHandler]
    rw [dispatch_TA0CTL]
    exact this
  · unfold gate_open at h ⊢
    rw [step_other_gate s ev hev]
    exact h

theorem counted_state_only (P S n : Nat) (t t2 : task_ctrl_blk) (h : counted P S n t)
    (hs : state_only t t2) : counted P S n t2 := by
  obtain ⟨h1, h2, h3, h4⟩ := h
  rcases hs with e | e | e | e
  all_goals subst e
  · exact ⟨h1, h2, h3, h4⟩
  · exact ⟨by simp, h2, h3, h4⟩
  · exact ⟨by simp, h2, h3, h4⟩
  · exact ⟨by simp, h2, h3, h4⟩

theorem counted_tick (P S n : Nat) (hP : 1 ≤ P) (hP32 : P < 2 ^ 32) (t : task_ctrl_blk)
    (h : counted P S n t) : counted P S (n + 1) (tick_slot t) := by
  obtain ⟨h1, h2, h3, h4⟩ := h
  refine ⟨?_, ?_, ?_, ?_⟩
  · rw [tick_slot_state]
    split
    · simp
    · exact h1
  · rw [tick_slot_period, h2]
  · rw [tick_slot_start_offset]
    unfold tick_counters
    by_cases hn : n < S
    · have : t.start_offset > 0 := by omega
      simp only [this, if_true]
      omega
    · have h0 : ¬ t.start_offset > 0 := by omega
      simp only [h0, if_false]
      split
      · simp only; omega
      · omega
  · rw [tick_slot_count]
    by_cases hn : n < S
    · have hpos : t.start_offset > 0 := by omega
      have hle : n ≤ S := by omega
      have hle1 : n + 1 ≤ S := by omega
      unfold tick_counters
      rw [if_pos hpos, if_pos hle1]
      simp only
      rw [h4, if_pos hle]
    · have h0 : ¬ t.start_offset > 0 := by omega
      have hp : t.period ≠ 0 := by omega
      have hle1 : ¬ n + 1 ≤ S := by omega
      have hcnt : (tick_counters t).count = ((t.count + 1) % 2 ^ 32) % t.period := by
        unfold tick_counters
        rw [if_neg h0, if_pos hp]
      rw [hcnt, if_neg hle1, h2]
      by_cases hnS : n ≤ S
      · have e : n = S := by omega
        subst e
        rw [h4, if_pos hnS]
        simp [UINT32_MAX]
      · rw [h4, if_neg hnS]
        have hlt : (n - S - 1) % P < P := Nat.mod_lt _ (by omega)
        have hsmall : (n - S - 1) % P + 1 < 2 ^ 32 := by omega
        rw [Nat.mod_eq_of_lt hsmall]
        have e : n + 1 - S - 1 = (n - S - 1) + 1 := by omega
        rw [e, Nat.add_mod ((n - S - 1)) 1 P]
        by_cases hP1 : P = 1
        · subst hP1; simp [Nat.mod_one]
        · have : 1 % P = 1 := Nat.mod_eq_of_lt (by omega)
          rw [this]

theorem counted_run (P S : Nat) (hP : 1 ≤ P) (hP32 : P < 2 ^ 32) (i : Fin 8) (hi : i ≠ 0)
    (evs : List Event) :
    ∀ (s : Kernel) (n : Nat), gate_open s → counted P S n (s.Task_list i) →
      gate_open (run s evs) ∧ counted P S (n + irq_count evs) ((run s evs).Task_list i) := by
  induction evs with
  | nil => intro s n hg hc; exact ⟨hg, hc⟩
  | cons ev evs ih =>
    intro s n hg hc
    have hg2 := step_gate s ev hg
    by_cases hev : ev = .irq
    · subst hev
      have hc2 := counted_state_only P S (n + 1) _ _ (counted_tick P S n hP hP32 _ hc)
        (step_irq_slot s hg i hi)
      have := ih (step s .irq) (n + 1) hg2 hc2
      have e : n + irq_count (Event.irq :: evs) = n + 1 + irq_count evs := by
        simp only [irq_count]; omega
      rw [e]
      exact this
    · have hc2 := counted_state_only P S n _ _ hc (step_other_slot s ev hev i hc.1)
      have := ih (step s ev) n hg2 hc2
      have e : irq_count (ev :: evs) = irq_count evs := by
        cases ev with
        | irq => exact absurd rfl hev
        | port _ => rfl
        | stop _ => rfl
        | reg _ => rfl
      rw [e]
      exact this

theorem Task_schedule_gate (s : Kernel) : gate_open (Task_schedule s) := by
  unfold gate_open Task_schedule
  simp only
  intro h
  have h4 : ((((s.TA0CTL ||| 0x100) ||| 0x02) ||| 0x10) &&& 0xFFFE).testBit 4 = false := by
    rw [h]; simp
  have e1 : Nat.testBit 0x10 4 = true := by decide
  have e2 : Nat.testBit 0xFFFE 4 = true := by decide
  rw [Nat.testBit_land, Nat.testBit_lor, e1, e2] at h4
  simp at h4

/-- C9 (as stated) fails for the task `Task_add(0x2000, 1500, 0, 1500)`
(period 1500, start offset 0): the handler invocation number 0 after the
registration already takes it from stopped to suspended, and 0 is not of the
form `S + k * P` with `k >= 1`. -/
theorem periodic_activation_counterexample :
    free_slot (Task_schedule (Task_list_init 0x800 boot)).Task_list = some 1 ∧
    irq_count ([] : List Event) = 0 ∧
    activates
      (run (Task_add 0x2000 1500 0 1500 (Task_schedule (Task_list_init 0x800 boot))).2 []) 1 ∧
    ¬ ∃ k : Nat, 1 ≤ k ∧ irq_count ([] : List Event) = 0 + k * 1500 := by
  refine ⟨by decide, rfl, by decide, ?_⟩
  rintro ⟨k, hk, h⟩
  simp only [irq_count] at h
  omega

/-- C9 (amended). Let a task be registered by `Task_add(f, P, S, d)` with
`1 <= P < 2^32`, the timer control register holding a bit other than bit 0
(as after `Task_schedule`), and let any events follow (handler invocations,
port interrupts, `Task_stop` calls, registrations with valid triggers). The
handler invocation number `n` after the registration, counting from 0, takes
the task from stopped to suspended exactly when the task is stopped on entry
and `n` is one of `S`, `S + P`, `S + 2P`, ...; the first activation is at
tick `S`, not `S + P`. -/
theorem periodic_activation (f P S d : Nat) (hP : 1 ≤ P) (hP32 : P < 2 ^ 32) (s0 : Kernel)
    (hctl : gate_open s0) (i : Fin 8) (hfree : free_slot s0.Task_list = some i)
    (evs : List Event) (_hvalid : ∀ r : Reg, Event.reg r ∈ evs → r.valid) :
    activates (run (Task_add f P S d s0).2 evs) i ↔
      ((run (Task_add f P S d s0).2 evs).Task_list i).state = TASK_STOPPED ∧
        ∃ k : Nat, irq_count evs = S + k * P := by
  have hi0 := free_slot_ne_zero _ _ hfree
  have hg1 : gate_open (Task_add f P S d s0).2 := by
    unfold gate_open at hctl ⊢
    simp only [Task_add, hfree]
    exact hctl
  have hc1 : counted P S 0 ((Task_add f P S d s0).2.Task_list i) := by
    simp only [Task_add, hfree, Function.update_same]
    exact ⟨by simp, rfl, rfl, by simp⟩
  obtain ⟨hg, hc⟩ := counted_run P S hP hP32 i hi0 evs _ 0 hg1 hc1
  rw [Nat.zero_add] at hc
  have hcn := counted_tick P S _ hP hP32 _ hc
  obtain ⟨_, _, _, hcount⟩ := hcn
  rw [tick_slot_count] at hcount
  unfold activates
  rw [tick_update_slot _ hg i hi0, tick_slot_state]
  constructor
  · rintro ⟨hst, hsus⟩
    refine ⟨hst, ?_⟩
    by_cases hz : (tick_counters ((run (Task_add f P S d s0).2 evs).Task_list i)).count = 0
    · rw [hz] at hcount
      by_cases hle : irq_count evs + 1 ≤ S
      · rw [if_pos hle] at hcount
        exact absurd hcount (by decide)
      · rw [if_neg hle] at hcount
        have e : irq_count evs + 1 - S - 1 = irq_count evs - S := by omega
        rw [e] at hcount
        obtain ⟨k, hk⟩ := Nat.dvd_of_mod_eq_zero hcount.symm
        exact ⟨k, by rw [Nat.mul_comm k P]; omega⟩
    · rw [if_neg (fun h => hz h.1), hst] at hsus
      exact absurd hsus (by decide)
  · rintro ⟨hst, k, hk⟩
    refine ⟨hst, ?_⟩
    have hle : ¬ irq_count evs + 1 ≤ S := by omega
    rw [if_neg hle] at hcount
    have e : irq_count evs + 1 - S - 1 = k * P := by omega
    rw [e, Nat.mul_mod_left] at hcount
    rw [if_pos ⟨hcount, hst⟩]

theorem periodic_activation_witness :
    activates
        (run (Task_add 0x1000 3 2 100 (Task_schedule (Task_list_init 0x800 boot))).2
          [.irq, .port 2, .irq, .reg (.event_add 0x4000 SWITCH_P1_4 50)]) 1 ↔
      ((run (Task_add 0x1000 3 2 100 (Task_schedule (Task_list_init 0x800 boot))).2
          [.irq, .port 2, .irq, .reg (.event_add 0x4000 SWITCH_P1_4 50)]).Task_list 1).state =
        TASK_STOPPED ∧
      ∃ k : Nat,
        irq_count [.irq, .port 2, .irq, .reg (.event_add 0x4000 SWITCH_P1_4 50)] = 2 + k * 3 :=
  periodic_activation 0x1000 3 2 100 (by decide) (by decide)
    (Task_schedule (Task_list_init 0x800 boot)) (by decide) 1 (by decide) _
    (by intro r hr; simp at hr; subst hr; exact Or.inr rfl)

/-- While the start offset is positive the loop body only decrements it. -/
theorem tick_slot_of_held (t : task_ctrl_blk) (hst : t.state = TASK_STOPPED)
    (hc : t.count = UINT32_MAX) (hpos : 0 < t.start_offset) :
    tick_slot t = { t with start_offset := t.start_offset - 1 } := by
  have hne : ¬ (UINT32_MAX = 0) := by decide
  unfold tick_slot tick_deadline tick_activate tick_counters
  simp [hpos, hc, hne, hst]

theorem held_step_other (S k : Nat) (i : Fin 8) (s : Kernel) (ev : Event) (hev : ev ≠ .irq)
    (h : held S k i s) : held S k i (step s ev) := by
  obtain ⟨h1, h2, h3, h4⟩ := h
  cases ev with
  | irq => exact absurd rfl hev
  | port flags =>
    simp only [step]
    rcases PORT1_slot { s with P1IFG := (s.P1IFG ||| flags) % 256 } i with e | ⟨⟨b, hb⟩, _⟩
    · refine ⟨by rw [e]; exact h1, by rw [e]; exact h2, by rw [e]; exact h3, ?_⟩
      rw [PORT1_Event_task_list]
      exact h4
    · exact absurd hb (h4 b)
  | stop X =>
    simp only [step]
    rw [held, Task_stop_Event_task_list]
    rcases Task_stop_slot X s i with e | e
    · rw [e]; exact ⟨h1, h2, h3, h4⟩
    · rw [e]; exact ⟨rfl, h2, h3, h4⟩
  | reg r =>
    simp only [step]
    have hu : (s.Task_list i).state ≠ TASK_UNDEFINED := by rw [h1]; decide
    rw [held, register_slot s r i hu]
    exact ⟨h1, h2, h3, fun e he => h4 e (register_binding s r i hu e he)⟩

theorem held_tick_update (S k : Nat) (i : Fin 8) (s : Kernel) (hk : k < S) (h : held S k i s) :
    held S (k + 1) i (tick_update s) := by
  obtain ⟨h1, h2, h3, h4⟩ := h
  rw [held, tick_update_Event_task_list]
  rcases tick_update_slot_cases s i with e | e
  · rw [e]; exact ⟨h1, h2, by omega, h4⟩
  · rw [e, tick_slot_of_held _ h1 h2 (by omega)]
    exact ⟨h1, h2, by simp only; omega, h4⟩

theorem held_dispatch (S k : Nat) (i : Fin 8) (hi : i ≠ 0) (s : Kernel) (h : held S k i s) :
    held S k i (dispatch s).1 := by
  obtain ⟨h1, h2, h3, h4⟩ := h
  rw [held, dispatch_Event_task_list, dispatch_stopped_slot s i hi h1]
  exact ⟨h1, h2, h3, h4⟩

theorem held_run (S : Nat) (i : Fin 8) (hi : i ≠ 0) (evs : List Event) :
    ∀ (s : Kernel) (k : Nat), held S k i s → k + irq_count evs ≤ S →
      held S (k + irq_count evs) i (run s evs) := by
  induction evs with
  | nil => intro s k h _; exact h
  | cons ev evs ih =>
    intro s k h hk
    by_cases hev : ev = .irq
    · subst hev
      simp only [irq_count] at hk
      have h2 : held S (k + 1) i (step s .irq) :=
        held_dispatch S (k + 1) i hi _ (held_tick_update S k i s (by omega) h)
      have := ih (step s .irq) (k + 1) h2 (by omega)
      have e : k + irq_count (Event.irq :: evs) = k + 1 + irq_count evs := by
        simp only [irq_count]; omega
      rw [e]
      exact this
    · have e : irq_count (ev :: evs) = irq_count evs := by
        cases ev with
        | irq => exact absurd rfl hev
        | port _ => rfl
        | stop _ => rfl
        | reg _ => rfl
      rw [e] at hk ⊢
      exact ih (step s ev) k (held_step_other S k i s ev hev h) hk

/-- C10. A task registered by `Task_add(f, P, S, d)` in a slot to which no
trigger is bound is stopped, keeps the count `2^32-1`, and is not the slot
returned by `get_priority_task`, in every state reached by events containing
at most `S` timer handler invocations (with any port interrupts, `Task_stop`
calls and registrations in between); in each of the first `S` invocations
it is stopped after the counter update, is not the selected slot, and is
stopped when the handler returns. -/
theorem start_offset_keeps_stopped (f P S d : Nat) (s0 : Kernel) (i : Fin 8)
    (hfree : free_slot s0.Task_list = some i)
    (hunbound : ∀ e : Fin 2, s0.Event_task_list e ≠ some i)
    (evs : List Event) (_hvalid : ∀ r : Reg, Event.reg r ∈ evs → r.valid)
    (hk : irq_count evs ≤ S) :
    ((run (Task_add f P S d s0).2 evs).Task_list i).state = TASK_STOPPED ∧
    ((run (Task_add f P S d s0).2 evs).Task_list i).count = 4294967295 ∧
    get_priority_task (run (Task_add f P S d s0).2 evs).Task_list ≠ i ∧
    (irq_count evs < S →
      ((tick_update (run (Task_add f P S d s0).2 evs)).Task_list i).state = TASK_STOPPED ∧
      selected (run (Task_add f P S d s0).2 evs) ≠ i ∧
      ((TA0_N_IRQHandler (run (Task_add f P S d s0).2 evs)).1.Task_list i).state =
        TASK_STOPPED) := by
  have hi0 := free_slot_ne_zero _ _ hfree
  have h1 : held S 0 i (Task_add f P S d s0).2 := by
    simp only [held, Task_add, hfree, Function.update_same]
    exact ⟨trivial, trivial, by omega, hunbound⟩
  have h := held_run S i hi0 evs _ 0 h1 (by omega)
  rw [Nat.zero_add] at h
  refine ⟨h.1, h.2.1, get_priority_task_ne_of_stopped _ i hi0 h.1, ?_⟩
  intro hlt
  have ht := held_tick_update S _ i _ hlt h
  have hd := held_dispatch S _ i hi0 _ ht
  exact ⟨ht.1, get_priority_task_ne_of_stopped _ i hi0 ht.1, hd.1⟩

theorem start_offset_keeps_stopped_witness :
    ((run (Task_add 0x1000 1500 3 100 (Task_schedule (Task_list_init 0x800 boot))).2
        [.irq, .port 2, .irq, .stop 0x1000]).Task_list 1).state = TASK_STOPPED ∧
    ((run (Task_add 0x1000 1500 3 100 (Task_schedule (Task_list_init 0x800 boot))).2
        [.irq, .port 2, .irq, .stop 0x1000]).Task_list 1).count = 4294967295 ∧
    get_priority_task
        (run (Task_add 0x1000 1500 3 100 (Task_schedule (Task_list_init 0x800 boot))).2
          [.irq, .port 2, .irq, .stop 0x1000]).Task_list ≠ 1 ∧
    (irq_count [.irq, .port 2, .irq, .stop 0x1000] < 3 →
      ((tick_update
          (run (Task_add 0x1000 1500 3 100 (Task_schedule (Task_list_init 0x800 boot))).2
            [.irq, .port 2, .irq, .stop 0x1000])).Task_list 1).state = TASK_STOPPED ∧
      selected
          (run (Task_add 0x1000 1500 3 100 (Task_schedule (Task_list_init 0x800 boot))).2
            [.irq, .port 2, .irq, .stop 0x1000]) ≠ 1 ∧
      ((TA0_N_IRQHandler
          (run (Task_add 0x1000 1500 3 100 (Task_schedule (Task_list_init 0x800 boot))).2
            [.irq, .port 2, .irq, .stop 0x1000])).1.Task_list 1).state = TASK_STOPPED) :=
  start_offset_keeps_stopped 0x1000 1500 3 100 (Task_schedule (Task_list_init 0x800 boot)) 1
    (by decide) (by decide) _ (by intro r hr; simp at hr) (by decide)

/-! ## Deadline countdown and counter update -/

theorem state_only_fields (t t2 : task_ctrl_blk) (h : state_only t t2) :
    t2.function = t.function ∧ t2.period = t.period ∧ t2.count = t.count ∧
      t2.start_offset = t.start_offset ∧ t2.deadline = t.deadline ∧
      t2.deadline_remaining = t.deadline_remaining := by
  rcases h with e | e | e | e
  all_goals subst e
  all_goals exact ⟨rfl, rfl, rfl, rfl, rfl, rfl⟩

theorem tick_counters_deadline_remaining (t : task_ctrl_blk) :
    (tick_counters t).deadline_remaining = t.deadline_remaining ∧
      (tick_counters t).deadline = t.deadline := by
  unfold tick_counters
  repeat' split
  all_goals exact ⟨rfl, rfl⟩

/-- Remaining deadline left by the loop body: reloaded and counted down once
on activation, counted down (not below 0) for a suspended or running slot,
kept otherwise. -/
theorem tick_slot_deadline_remaining (t : task_ctrl_blk) :
    (tick_slot t).deadline_remaining =
      if (tick_counters t).count = 0 ∧ t.state = TASK_STOPPED then t.deadline - 1
      else if t.state = TASK_SUSPENDED ∨ t.state = TASK_RUNNING then t.deadline_remaining - 1
      else t.deadline_remaining := by
  have hs := tick_counters_state t
  obtain ⟨hd, hdl⟩ := tick_counters_deadline_remaining t
  unfold tick_slot tick_deadline tick_activate
  by_cases hc : (tick_counters t).count = 0 <;> by_cases hst : t.state = TASK_STOPPED
  · simp only [hc, hs, hst, if_true, true_and, and_self, true_or]
    split
    · simp only [hdl]
    · simp only [hdl]; omega
  · simp only [hc, hs, hst, if_true, if_false, true_and, and_false]
    by_cases hsr : t.state = TASK_SUSPENDED ∨ t.state = TASK_RUNNING
    · simp only [hsr, if_true]
      split
      · simp only [hd]
      · rw [hd]; omega
    · simp only [hsr, if_false, hd]
  · simp [hc, hs, hst, hd]
  · simp only [hc, hs, hst, if_false, false_and]
    by_cases hsr : t.state = TASK_SUSPENDED ∨ t.state = TASK_RUNNING
    · simp only [hsr, if_true]
      split
      · simp only [hd]
      · rw [hd]; omega
    · simp only [hsr, if_false, hd]

/-- Fields of a slot of 1..7 after a handler invocation that runs the counter
loop: all but the state are those left by the loop body. -/
theorem handler_slot_fields (s : Kernel) (hg : gate_open s) (i : Fin 8) (hi : i ≠ 0) :
    state_only (tick_slot (s.Task_list i)) ((TA0_N_IRQHandler s).1.Task_list i) :=
  step_irq_slot s hg i hi

theorem register_deadline_remaining (s : Kernel) (r : Reg) (j : Fin 8) :
    ((register s r).2.Task_list j).deadline_remaining = (s.Task_list j).deadline_remaining := by
  cases hf : free_slot s.Task_list with
  | none => cases r <;> simp [register, Task_add, Task_event_add, hf]
  | some i =>
    by_cases hji : j = i
    · subst hji
      cases r <;> simp [register, Task_add, Task_event_add, hf]
    · cases r <;> simp [register, Task_add, Task_event_add, hf, Function.update_noteq hji]

theorem step_other_deadline_remaining (s : Kernel) (ev : Event) (hev : ev ≠ .irq) (j : Fin 8) :
    ((step s ev).Task_list j).deadline_remaining = (s.Task_list j).deadline_remaining := by
  cases ev with
  | irq => exact absurd rfl hev
  | port flags =>
    simp only [step]
    rcases PORT1_slot { s with P1IFG := (s.P1IFG ||| flags) % 256 } j with h | ⟨_, h⟩
    · rw [h]
    · rw [h]
  | stop X =>
    simp only [step]
    rcases Task_stop_slot X s j with h | h
    · rw [h]
    · rw [h]
  | reg r =>
    simp only [step]
    exact register_deadline_remaining s r j

/-- C11. In a tick (a handler invocation that runs the counter loop) a slot
of 1..7 that is suspended or running on entry ends with its remaining
deadline one lower, and at 0 when it was 0. The remaining deadline is
reloaded from the deadline only in the stopped-to-suspended transition of the
counter loop: in a tick with that transition it ends at deadline minus one
(0 for deadline 0); in a tick without it, it is kept or counted down by one;
and no other event (port interrupt, `Task_stop`, registration) changes it. -/
theorem deadline_countdown (s : Kernel) (hg : gate_open s) (i : Fin 8) (hi : i ≠ 0) :
    ((s.Task_list i).state = TASK_SUSPENDED ∨ (s.Task_list i).state = TASK_RUNNING →
      ((TA0_N_IRQHandler s).1.Task_list i).deadline_remaining =
          (s.Task_list i).deadline_remaining - 1 ∧
        ((s.Task_list i).deadline_remaining = 0 →
          ((TA0_N_IRQHandler s).1.Task_list i).deadline_remaining = 0)) ∧
    (activates s i →
      ((TA0_N_IRQHandler s).1.Task_list i).deadline_remaining = (s.Task_list i).deadline - 1) ∧
    (¬ activates s i →
      ((TA0_N_IRQHandler s).1.Task_list i).deadline_remaining =
          (s.Task_list i).deadline_remaining ∨
        ((TA0_N_IRQHandler s).1.Task_list i).deadline_remaining =
          (s.Task_list i).deadline_remaining - 1) ∧
    ∀ ev : Event, ev ≠ .irq →
      ((step s ev).Task_list i).deadline_remaining = (s.Task_list i).deadline_remaining := by
  have hdr := (state_only_fields _ _ (handler_slot_fields s hg i hi)).2.2.2.2.2
  rw [tick_slot_deadline_remaining] at hdr
  have hact : activates s i ↔
      ((tick_counters (s.Task_list i)).count = 0 ∧ (s.Task_list i).state = TASK_STOPPED) := by
    unfold activates
    rw [tick_update_slot s hg i hi, tick_slot_state]
    constructor
    · rintro ⟨hst, h⟩
      by_cases hc : (tick_counters (s.Task_list i)).count = 0
      · exact ⟨hc, hst⟩
      · rw [if_neg (fun h => hc h.1), hst] at h
        exact absurd h (by decide)
    · rintro ⟨hc, hst⟩
      exact ⟨hst, by rw [if_pos ⟨hc, hst⟩]⟩
  refine ⟨?_, ?_, ?_, fun ev hev => step_other_deadline_remaining s ev hev i⟩
  · intro hsr
    have hns : ¬ ((tick_counters (s.Task_list i)).count = 0 ∧
        (s.Task_list i).state = TASK_STOPPED) := by
      rintro ⟨_, hst⟩
      rw [hst] at hsr
      rcases hsr with h | h <;> exact absurd h (by decide)
    rw [if_neg hns, if_pos hsr] at hdr
    exact ⟨hdr, fun h0 => by rw [hdr, h0]⟩
  · intro ha
    rw [if_pos (hact.mp ha)] at hdr
    exact hdr
  · intro hna
    rw [if_neg (fun h => hna (hact.mpr h))] at hdr
    by_cases hsr : (s.Task_list i).state = TASK_SUSPENDED ∨ (s.Task_list i).state = TASK_RUNNING
    · rw [if_pos hsr] at hdr
      exact Or.inr hdr
    · rw [if_neg hsr] at hdr
      exact Or.inl hdr

theorem deadline_countdown_witness :
    ((TA0_N_IRQHandler (TA0_N_IRQHandler main_setup).1).1.Task_list 2).deadline_remaining =
        ((TA0_N_IRQHandler main_setup).1.Task_list 2).deadline_remaining - 1 ∧
      (((TA0_N_IRQHandler main_setup).1.Task_list 2).deadline_remaining = 0 →
        ((TA0_N_IRQHandler (TA0_N_IRQHandler main_setup).1).1.Task_list 2).deadline_remaining
          = 0) :=
  (deadline_countdown (TA0_N_IRQHandler main_setup).1 (by decide) 2 (by decide)).1
    (by decide)

theorem port_flag_apply (bit clear : Nat) (e : Fin 2) (s : Kernel) (j : Fin 8) :
    (port_flag bit clear e s).Task_list j =
      if s.P1IFG &&& bit ≠ 0 ∧ s.Event_task_list e = some j then
        { s.Task_list j with state := TASK_SUSPENDED }
      else s.Task_list j := by
  unfold port_flag
  by_cases hb : s.P1IFG &&& bit ≠ 0
  · rw [if_pos hb]
    simp only [activate_event_apply]
    by_cases h : s.Event_task_list e = some j
    · rw [if_pos h, if_pos ⟨hb, h⟩]
    · rw [if_neg h, if_neg (fun c => h c.2)]
  · rw [if_neg hb, if_neg (fun c => hb c.1)]

theorem port_flag_current (bit clear : Nat) (e : Fin 2) (s : Kernel) :
    (port_flag bit clear e s).current_task = s.current_task := by
  unfold port_flag
  split <;> rfl

/-- Clearing bit 1 of `P1IFG` does not affect the test of bit 4. -/
theorem port_flag_second_test (s : Kernel) :
    (port_flag 0x02 0xFD 0 s).P1IFG &&& 0x10 = s.P1IFG &&& 0x10 := by
  unfold port_flag
  split
  · simp only
    rw [Nat.land_assoc]
    rfl
  · rfl

/-- C12. The port handler leaves the cursor and the binding table as they
are, and its effect on the task table is exactly this: a slot bound to a
trigger whose flag is raised gets state suspended, all its other fields
(remaining deadline included) being kept; every other slot is unchanged. In
particular a raised trigger without a bound slot changes no slot. -/
theorem PORT1_IRQHandler_effect (s : Kernel) :
    (PORT1_IRQHandler s).current_task = s.current_task ∧
    (PORT1_IRQHandler s).Event_task_list = s.Event_task_list ∧
    ∀ j : Fin 8, (PORT1_IRQHandler s).Task_list j =
      if (s.P1IFG &&& 0x02 ≠ 0 ∧ s.Event_task_list 0 = some j) ∨
          (s.P1IFG &&& 0x10 ≠ 0 ∧ s.Event_task_list 1 = some j) then
        { s.Task_list j with state := TASK_SUSPENDED }
      else s.Task_list j := by
  refine ⟨?_, PORT1_Event_task_list s, ?_⟩
  · unfold PORT1_IRQHandler
    rw [port_flag_current, port_flag_current]
  · intro j
    unfold PORT1_IRQHandler
    rw [port_flag_apply, port_flag_second_test, port_flag_Event_task_list, port_flag_apply]
    by_cases h1 : s.P1IFG &&& 0x02 ≠ 0 ∧ s.Event_task_list 0 = some j <;>
      by_cases h4 : s.P1IFG &&& 0x10 ≠ 0 ∧ s.Event_task_list 1 = some j
    · rw [if_pos h4, if_pos h1, if_pos (Or.inl h1)]
    · rw [if_neg h4, if_pos h1, if_pos (Or.inl h1)]
    · rw [if_pos h4, if_neg h1, if_pos (Or.inr h4)]
    · rw [if_neg h4, if_neg h1, if_neg (fun c => c.elim h1 h4)]

/-- C20. In a tick (a handler invocation that runs the counter loop), for a
slot of 1..7: a positive start offset is decremented and the count is kept;
otherwise, with a non-zero period, the count becomes
`((count + 1) mod 2^32) mod period` and the start offset stays 0; otherwise
(period 0) both are kept, the modulo not being evaluated. -/
theorem tick_counter_update (s : Kernel) (hg : gate_open s) (i : Fin 8) (hi : i ≠ 0) :
    (0 < (s.Task_list i).start_offset →
      ((TA0_N_IRQHandler s).1.Task_list i).start_offset = (s.Task_list i).start_offset - 1 ∧
      ((TA0_N_IRQHandler s).1.Task_list i).count = (s.Task_list i).count) ∧
    ((s.Task_list i).start_offset = 0 → (s.Task_list i).period ≠ 0 →
      ((TA0_N_IRQHandler s).1.Task_list i).start_offset = 0 ∧
      ((TA0_N_IRQHandler s).1.Task_list i).count =
        (((s.Task_list i).count + 1) % 2 ^ 32) % (s.Task_list i).period) ∧
    ((s.Task_list i).start_offset = 0 → (s.Task_list i).period = 0 →
      ((TA0_N_IRQHandler s).1.Task_list i).start_offset = 0 ∧
      ((TA0_N_IRQHandler s).1.Task_list i).count = (s.Task_list i).count) := by
  obtain ⟨_, _, hcnt, hso, _, _⟩ := state_only_fields _ _ (handler_slot_fields s hg i hi)
  rw [tick_slot_count] at hcnt
  rw [tick_slot_start_offset] at hso
  rw [hcnt, hso]
  unfold tick_counters
  refine ⟨?_, ?_, ?_⟩
  · intro hpos
    rw [if_pos hpos]
    exact ⟨rfl, rfl⟩
  · intro h0 hp
    have hn : ¬ (s.Task_list i).start_offset > 0 := by omega
    rw [if_neg hn, if_pos hp]
    exact ⟨h0, rfl⟩
  · intro h0 hp
    have hn : ¬ (s.Task_list i).start_offset > 0 := by omega
    have hp' : ¬ (s.Task_list i).period ≠ 0 := not_not.mpr hp
    rw [if_neg hn, if_neg hp']
    exact ⟨h0, rfl⟩

theorem tick_counter_update_witness :
    (0 < (main_setup.Task_list 3).start_offset →
      ((TA0_N_IRQHandler main_setup).1.Task_list 3).start_offset =
        (main_setup.Task_list 3).start_offset - 1 ∧
      ((TA0_N_IRQHandler main_setup).1.Task_list 3).count = (main_setup.Task_list 3).count) ∧
    ((main_setup.Task_list 3).start_offset = 0 → (main_setup.Task_list 3).period ≠ 0 →
      ((TA0_N_IRQHandler main_setup).1.Task_list 3).start_offset = 0 ∧
      ((TA0_N_IRQHandler main_setup).1.Task_list 3).count =
        (((main_setup.Task_list 3).count + 1) % 2 ^ 32) % (main_setup.Task_list 3).period) ∧
    ((main_setup.Task_list 3).start_offset = 0 → (main_setup.Task_list 3).period = 0 →
      ((TA0_N_IRQHandler main_setup).1.Task_list 3).start_offset = 0 ∧
      ((TA0_N_IRQHandler main_setup).1.Task_list 3).count = (main_setup.Task_list 3).count) :=
  tick_counter_update main_setup (by decide) 3 (by decide)

/-! ## Invariants of reachable states -/

theorem state_only_registered (t t2 : task_ctrl_blk) (h : state_only t t2)
    (ht : t.state ≠ TASK_UNDEFINED) : t2.state ≠ TASK_UNDEFINED := by
  rcases h with e | e | e | e
  all_goals subst e
  · exact ht
  all_goals simp

theorem tick_slot_registered (t : task_ctrl_blk) (ht : t.state ≠ TASK_UNDEFINED) :
    (tick_slot t).state ≠ TASK_UNDEFINED := by
  rw [tick_slot_state]
  split
  · simp
  · exact ht

/-- One event keeps a registered slot registered and keeps its entry. -/
theorem step_registered (s : Kernel) (ev : Event) (j : Fin 8)
    (hj : (s.Task_list j).state ≠ TASK_UNDEFINED) :
    ((step s ev).Task_list j).state ≠ TASK_UNDEFINED ∧
      ((step s ev).Task_list j).function = (s.Task_list j).function := by
  by_cases hev : ev = .irq
  · subst hev
    have hd := dispatch_slot (tick_update s) j
    have hf := (state_only_fields _ _ hd).1
    have hu : ((tick_update s).Task_list j).state ≠ TASK_UNDEFINED := by
      rcases tick_update_slot_cases s j with e | e
      · rw [e]; exact hj
      · rw [e]; exact tick_slot_registered _ hj
    simp only [step, TA0_N_IRQHandler]
    exact ⟨state_only_registered _ _ hd hu, by rw [hf, tick_update_function]⟩
  · have h := step_other_slot s ev hev j hj
    exact ⟨state_only_registered _ _ h hj, (state_only_fields _ _ h).1⟩

/-- C16. Once a slot is not undefined, no sequence of timer handler
invocations, port interrupts, `Task_stop` calls and registration calls (with
valid triggers) makes it undefined again or changes its `function` field. -/
theorem registration_permanent (evs : List Event) :
    ∀ (s : Kernel), (∀ ev ∈ evs, ev.valid) → ∀ j : Fin 8,
      (s.Task_list j).state ≠ TASK_UNDEFINED →
      ((run s evs).Task_list j).state ≠ TASK_UNDEFINED ∧
        ((run s evs).Task_list j).function = (s.Task_list j).function := by
  induction evs with
  | nil => intro s _ j hj; exact ⟨hj, rfl⟩
  | cons ev evs ih =>
    intro s hv j hj
    obtain ⟨h1, h2⟩ := step_registered s ev j hj
    obtain ⟨h3, h4⟩ := ih (step s ev) (fun e he => hv e (List.mem_cons_of_mem _ he)) j h1
    exact ⟨h3, by rw [← h2]; exact h4⟩

theorem registration_permanent_witness :
    ((run main_setup [.irq, .port 0x12, .stop 0x2000, .irq,
        .reg (.event_add 0x4000 SWITCH_P1_1 20), .irq]).Task_list 2).state ≠ TASK_UNDEFINED ∧
      ((run main_setup [.irq, .port 0x12, .stop 0x2000, .irq,
        .reg (.event_add 0x4000 SWITCH_P1_1 20), .irq]).Task_list 2).function =
        (main_setup.Task_list 2).function :=
  registration_permanent _ main_setup
    (by
      intro ev hev
      simp only [List.mem_cons, List.mem_singleton, List.not_mem_nil, or_false] at hev
      rcases hev with h | h | h | h | h | h <;> subst h <;>
        simp [Event.valid, Reg.valid, SWITCH_P1_1])
    2 (by decide)

theorem Task_stop_current (X : Nat) (s : Kernel) :
    (Task_stop X s).current_task = s.current_task := by
  unfold Task_stop
  split <;> rfl

theorem PORT1_current (s : Kernel) : (PORT1_IRQHandler s).current_task = s.current_task := by
  unfold PORT1_IRQHandler
  rw [port_flag_current, port_flag_current]

theorem register_current (s : Kernel) (r : Reg) :
    (register s r).2.current_task = s.current_task := by
  cases hf : free_slot s.Task_list <;> cases r <;>
    simp [register, Task_add, Task_event_add, hf]

/-- A registration call leaves each slot as it is or makes it stopped. -/
theorem register_state (s : Kernel) (r : Reg) (j : Fin 8) :
    ((register s r).2.Task_list j).state = (s.Task_list j).state ∨
      ((register s r).2.Task_list j).state = TASK_STOPPED := by
  cases hf : free_slot s.Task_list with
  | none => left; cases r <;> simp [register, Task_add, Task_event_add, hf]
  | some i =>
    by_cases hji : j = i
    · subst hji
      right
      cases r <;> simp [register, Task_add, Task_event_add, hf]
    · left
      cases r <;> simp [register, Task_add, Task_event_add, hf, Function.update_noteq hji]

theorem only_cursor_running_init (idle : Nat) (s0 : Kernel) (h : s0.current_task = 0) :
    only_cursor_running (Task_list_init idle s0) := by
  intro j hj
  by_cases hj0 : j = 0
  · rw [hj0]; exact h.symm
  · simp [Task_list_init, hj0] at hj

theorem only_cursor_running_tick_update (s : Kernel) (h : only_cursor_running s) :
    only_cursor_running (tick_update s) := by
  intro j hj
  rw [tick_update_current]
  apply h
  rcases tick_update_slot_cases s j with e | e
  · rw [e] at hj; exact hj
  · rw [e, tick_slot_state] at hj
    split at hj
    · exact absurd hj (by decide)
    · exact hj

theorem only_cursor_running_dispatch (s : Kernel) (h : only_cursor_running s) :
    only_cursor_running (dispatch s).1 := by
  intro j
  unfold dispatch
  simp only
  by_cases hsel : get_priority_task s.Task_list ≠ s.current_task
  · rw [if_pos hsel]
    simp only
    intro hj
    by_contra hne
    rw [Function.update_noteq hne] at hj
    by_cases hr : (s.Task_list s.current_task).state = TASK_RUNNING
    · rw [if_pos hr] at hj
      by_cases hjc : j = s.current_task
      · rw [hjc] at hj
        simp at hj
      · rw [Function.update_noteq hjc] at hj
        exact hjc (h j hj)
    · rw [if_neg hr] at hj
      have := h j hj
      rw [this] at hj
      exact hr hj
  · rw [if_neg hsel]
    by_cases hst : (s.Task_list s.current_task).state = TASK_STOPPED
    · rw [if_pos hst]
      simp only
      intro hj
      by_contra hne
      rw [Function.update_noteq hne] at hj
      have := h j hj
      rw [this, hst] at hj
      exact absurd hj (by decide)
    · rw [if_neg hst]
      exact h j

theorem only_cursor_running_step (s : Kernel) (ev : Event) (h : only_cursor_running s) :
    only_cursor_running (step s ev) := by
  cases ev with
  | irq =>
    simp only [step, TA0_N_IRQHandler]
    exact only_cursor_running_dispatch _ (only_cursor_running_tick_update s h)
  | port flags =>
    intro j hj
    simp only [step] at hj ⊢
    rw [PORT1_current]
    rcases PORT1_slot { s with P1IFG := (s.P1IFG ||| flags) % 256 } j with e | ⟨_, e⟩
    · rw [e] at hj; exact h j hj
    · rw [e] at hj; exact absurd hj (by simp)
  | stop X =>
    intro j hj
    simp only [step] at hj ⊢
    rw [Task_stop_current]
    rcases Task_stop_slot X s j with e | e
    · rw [e] at hj; exact h j hj
    · rw [e] at hj; exact absurd hj (by simp)
  | reg r =>
    intro j hj
    simp only [step] at hj ⊢
    rw [register_current]
    rcases register_state s r j with e | e
    · rw [e] at hj; exact h j hj
    · rw [e] at hj; exact absurd hj (by decide)

theorem only_cursor_running_of_reachable (s : Kernel) (h : Reachable s) :
    only_cursor_running s := by
  induction h with
  | init idle s0 h0 => exact only_cursor_running_init idle s0 h0
  | next s ev _ _ ih => exact only_cursor_running_step s ev ih

/-- C14. In every reachable state at most one slot is running: any two
running slots are the same slot (namely the one the cursor references). -/
theorem at_most_one_running (s : Kernel) (h : Reachable s) (j1 j2 : Fin 8)
    (h1 : (s.Task_list j1).state = TASK_RUNNING) (h2 : (s.Task_list j2).state = TASK_RUNNING) :
    j1 = j2 := by
  have hinv := only_cursor_running_of_reachable s h
  rw [hinv j1 h1, hinv j2 h2]

theorem at_most_one_running_witness :
    (1 : Fin 8) = (step (step (Task_list_init 0x800 (Task_schedule boot))
      (.reg (.add 0x2000 1500 0 1500))) .irq).current_task :=
  at_most_one_running
    (step (step (Task_list_init 0x800 (Task_schedule boot))
      (.reg (.add 0x2000 1500 0 1500))) .irq)
    (Reachable.next _ .irq
      (Reachable.next _ (.reg (.add 0x2000 1500 0 1500))
        (Reachable.init 0x800 (Task_schedule boot) rfl) trivial) trivial)
    1 _ (by decide) (by decide)

/-! ## Initialisation and entry values -/

/-- C18 (as stated) fails: `Task_list_init` assigns only `state`, `function`,
`period` and `count`; on a table whose slot 0 held start offset 3, deadline
50 and remaining deadline 7, slot 0 still holds them afterwards. -/
theorem Task_list_init_counterexample :
    ((Task_list_init 0x800 stale).Task_list 0).start_offset = 3 ∧
    ((Task_list_init 0x800 stale).Task_list 0).deadline = 50 ∧
    ((Task_list_init 0x800 stale).Task_list 0).deadline_remaining = 7 := by
  decide

/-- C18 (amended). For every prior content, after `Task_list_init` every slot
of 1..7 is undefined, every trigger binding is empty, and slot 0 is running,
bound to the idle entry, with period 1 and count 0; the fields
`start_offset`, `deadline` and `deadline_remaining` of every slot keep their
prior content, so on the zero-initialised table of program start slot 0 has
all timing fields zero. -/
theorem Task_list_init_spec (idle : Nat) (s : Kernel) :
    (∀ j : Fin 8, j ≠ 0 → ((Task_list_init idle s).Task_list j).state = TASK_UNDEFINED) ∧
    (∀ e : Fin 2, (Task_list_init idle s).Event_task_list e = none) ∧
    (Task_list_init idle s).Task_list 0 =
      { function := idle, period := 1, count := 0,
        start_offset := (s.Task_list 0).start_offset, deadline := (s.Task_list 0).deadline,
        deadline_remaining := (s.Task_list 0).deadline_remaining, state := TASK_RUNNING } ∧
    (∀ j : Fin 8,
      ((Task_list_init idle s).Task_list j).start_offset = (s.Task_list j).start_offset ∧
      ((Task_list_init idle s).Task_list j).deadline = (s.Task_list j).deadline ∧
      ((Task_list_init idle s).Task_list j).deadline_remaining =
        (s.Task_list j).deadline_remaining) ∧
    (Task_list_init idle boot).Task_list 0 =
      { function := idle, period := 1, count := 0, start_offset := 0, deadline := 0,
        deadline_remaining := 0, state := TASK_RUNNING } := by
  refine ⟨?_, fun _ => rfl, ?_, ?_, ?_⟩
  · intro j hj
    simp [Task_list_init, hj]
  · simp [Task_list_init]
  · intro j
    by_cases hj : j = 0 <;> simp [Task_list_init, hj]
  · simp [Task_list_init, boot]

/-- C17 (as stated) fails: two `Task_add` calls with the same entry 0x1000
after `Task_list_init` leave slots 1 and 2 both registered with that entry. -/
theorem distinct_entries_counterexample :
    (((register_all (Task_list_init 0x800 boot)
        [.add 0x1000 100 0 50, .add 0x1000 200 0 80]).2.Task_list 1).state = TASK_STOPPED ∧
      ((register_all (Task_list_init 0x800 boot)
        [.add 0x1000 100 0 50, .add 0x1000 200 0 80]).2.Task_list 2).state = TASK_STOPPED) ∧
    ((register_all (Task_list_init 0x800 boot)
        [.add 0x1000 100 0 50, .add 0x1000 200 0 80]).2.Task_list 1).function =
      ((register_all (Task_list_init 0x800 boot)
        [.add 0x1000 100 0 50, .add 0x1000 200 0 80]).2.Task_list 2).function ∧
    (1 : Fin 8) ≠ 2 := by
  decide

theorem distinct_entries_init (idle : Nat) (s : Kernel) :
    distinct_entries [] (Task_list_init idle s).Task_list := by
  have hu : ∀ j : Fin 8, j ≠ 0 →
      ((Task_list_init idle s).Task_list j).state = TASK_UNDEFINED := by
    intro j hj
    simp [Task_list_init, hj]
  exact ⟨fun j hj hr => absurd (hu j hj) hr, fun j1 _ hj1 _ hr _ _ => absurd (hu j1 hj1) hr⟩

/-- Slot contents after a registration call that found the free slot `i`. -/
theorem register_found (s : Kernel) (r : Reg) (i : Fin 8) (hf : free_slot s.Task_list = some i) :
    ((register s r).2.Task_list i).function = r.entry ∧
      ((register s r).2.Task_list i).state = TASK_STOPPED ∧
      ∀ j : Fin 8, j ≠ i → (register s r).2.Task_list j = s.Task_list j := by
  cases r with
  | add f p o d =>
    simp only [register, Task_add, hf, Function.update_same, Reg.entry]
    exact ⟨trivial, trivial, fun j hj => Function.update_noteq hj _ _⟩
  | event_add f e d =>
    simp only [register, Task_event_add, hf, Function.update_same, Reg.entry]
    exact ⟨trivial, trivial, fun j hj => Function.update_noteq hj _ _⟩

theorem distinct_entries_register (fs : List Nat) (s : Kernel) (r : Reg)
    (h : distinct_entries fs s.Task_list) (hr : r.entry ∉ fs) :
    distinct_entries (r.entry :: fs) (register s r).2.Task_list := by
  obtain ⟨hin, hinj⟩ := h
  cases hf : free_slot s.Task_list with
  | none =>
    have e : (register s r).2 = s := by
      cases r <;> simp [register, Task_add, Task_event_add, hf]
    rw [e]
    exact ⟨fun j hj hreg => List.mem_cons_of_mem _ (hin j hj hreg), hinj⟩
  | some i =>
    obtain ⟨h1, _, h3⟩ := register_found s r i hf
    have hiu : (s.Task_list i).state = TASK_UNDEFINED := ((free_slot_eq_some _ _).mp hf).2.1
    have hold : ∀ j : Fin 8, j ≠ 0 → j ≠ i →
        ((register s r).2.Task_list j).state ≠ TASK_UNDEFINED →
        ((register s r).2.Task_list j).function ∈ fs := by
      intro j hj hji hreg
      rw [h3 j hji] at hreg ⊢
      exact hin j hj hreg
    refine ⟨?_, ?_⟩
    · intro j hj hreg
      by_cases hji : j = i
      · rw [hji, h1]; exact List.mem_cons_self _ _
      · exact List.mem_cons_of_mem _ (hold j hj hji hreg)
    · intro j1 j2 hj1 hj2 hr1 hr2 heq
      by_cases e1 : j1 = i <;> by_cases e2 : j2 = i
      · rw [e1, e2]
      · rw [e1, h1] at heq
        exact absurd (heq ▸ hold j2 hj2 e2 hr2) hr
      · rw [e2, h1] at heq
        exact absurd (heq ▸ hold j1 hj1 e1 hr1) hr
      · rw [h3 j1 e1] at hr1 heq
        rw [h3 j2 e2] at hr2 heq
        exact hinj j1 j2 hj1 hj2 hr1 hr2 heq

theorem distinct_entries_register_all (rs : List Reg) :
    ∀ (fs : List Nat) (s : Kernel), distinct_entries fs s.Task_list →
      (rs.map Reg.entry).Nodup → (∀ r ∈ rs, r.entry ∉ fs) →
      ∃ fs2, distinct_entries fs2 (register_all s rs).2.Task_list := by
  induction rs with
  | nil => intro fs s h _ _; exact ⟨fs, h⟩
  | cons r rs ih =>
    intro fs s h hnd hfs
    simp only [List.map_cons, List.nodup_cons, List.mem_map, not_exists, not_and] at hnd
    have h1 := distinct_entries_register fs s r h (hfs r (List.mem_cons_self _ _))
    apply ih (r.entry :: fs) (register s r).2 h1 hnd.2
    intro r2 hr2 hmem
    rcases List.mem_cons.mp hmem with e | e
    · exact hnd.1 r2 hr2 e
    · exact hfs r2 (List.mem_cons_of_mem _ hr2) e

/-- C17 (amended). After `Task_list_init` followed by any sequence of
`Task_add` and `Task_event_add` calls (with valid triggers) whose `function`
arguments are pairwise distinct, no two registered slots of 1..7 hold the same
`function` value. -/
theorem distinct_entries_of_distinct_args (idle : Nat) (s0 : Kernel) (rs : List Reg)
    (_hvalid : ∀ r ∈ rs, r.valid) (hnd : (rs.map Reg.entry).Nodup) (j1 j2 : Fin 8)
    (hj1 : j1 ≠ 0) (hj2 : j2 ≠ 0)
    (hr1 : ((register_all (Task_list_init idle s0) rs).2.Task_list j1).state ≠ TASK_UNDEFINED)
    (hr2 : ((register_all (Task_list_init idle s0) rs).2.Task_list j2).state ≠ TASK_UNDEFINED)
    (hne : j1 ≠ j2) :
    ((register_all (Task_list_init idle s0) rs).2.Task_list j1).function ≠
      ((register_all (Task_list_init idle s0) rs).2.Task_list j2).function := by
  obtain ⟨fs2, h⟩ := distinct_entries_register_all rs [] (Task_list_init idle s0)
    (distinct_entries_init idle s0) hnd (fun _ _ hm => absurd hm (List.not_mem_nil _))
  exact fun heq => hne (h.2 j1 j2 hj1 hj2 hr1 hr2 heq)

theorem distinct_entries_of_distinct_args_witness :
    ((register_all (Task_list_init 0x800 boot)
        [.add 0x1000 1500 300 100, .event_add 0x2000 SWITCH_P1_4 1500,
          .add 0x3000 1500 100 700]).2.Task_list 1).function ≠
      ((register_all (Task_list_init 0x800 boot)
        [.add 0x1000 1500 300 100, .event_add 0x2000 SWITCH_P1_4 1500,
          .add 0x3000 1500 100 700]).2.Task_list 3).function :=
  distinct_entries_of_distinct_args 0x800 boot
    [.add 0x1000 1500 300 100, .event_add 0x2000 SWITCH_P1_4 1500, .add 0x3000 1500 100 700]
    (by
      intro r hr
      simp only [List.mem_cons, List.mem_singleton, List.not_mem_nil, or_false] at hr
      rcases hr with h | h | h <;> subst h <;> simp [Reg.valid, SWITCH_P1_4])
    (by decide) 1 3 (by decide) (by decide) (by decide) (by decide) (by decide)

/-! ## Task_stop and the cursor -/

/-- C13 (as stated) fails in a reachable state: slots 1 and 2 hold the same
entry, the cursor is slot 2 (running). `Task_stop` with the entry of slot 2
stops slot 1, which was suspended, and leaves slot 2 running. -/
theorem Task_stop_counterexample :
    Reachable shared_entry_state ∧
    shared_entry_state.current_task = 2 ∧
    (shared_entry_state.Task_list 2).state = TASK_RUNNING ∧
    (shared_entry_state.Task_list 1).state = TASK_SUSPENDED ∧
    ((Task_stop (shared_entry_state.Task_list 2).function shared_entry_state).Task_list 2).state =
      TASK_RUNNING ∧
    ((Task_stop (shared_entry_state.Task_list 2).function shared_entry_state).Task_list 1).state =
      TASK_STOPPED := by
  refine ⟨?_, by decide, by decide, by decide, by decide, by decide⟩
  exact Reachable.next _ .irq
    (Reachable.next _ (.reg (.add 0x1000 1 0 5))
      (Reachable.next _ (.reg (.add 0x1000 1 0 10))
        (Reachable.init 0x800 (Task_schedule boot) rfl) trivial) trivial) trivial

/-- C13 (amended). In every state in which the cursor is a slot `c >= 1` and no
slot of 1..7 below `c` holds the same `function` value as slot `c`,
`Task_stop` called with the entry of slot `c` sets slot `c` to stopped and
changes nothing else: every other slot, the cursor and the bindings are as
before. -/
theorem Task_stop_own_entry (s : Kernel) (hc : s.current_task ≠ 0)
    (huniq : ∀ j : Fin 8, j ≠ 0 → j < s.current_task →
      (s.Task_list j).function ≠ (s.Task_list s.current_task).function) :
    ((Task_stop (s.Task_list s.current_task).function s).Task_list s.current_task).state =
      TASK_STOPPED ∧
    (∀ j : Fin 8, j ≠ s.current_task →
      (Task_stop (s.Task_list s.current_task).function s).Task_list j = s.Task_list j) ∧
    (Task_stop (s.Task_list s.current_task).function s).current_task = s.current_task ∧
    (Task_stop (s.Task_list s.current_task).function s).Event_task_list = s.Event_task_list := by
  have hfind : task_slots.find?
      (fun i => decide ((s.Task_list i).function = (s.Task_list s.current_task).function)) =
      some s.current_task := by
    rw [find?_increasing _ _ task_slots_sorted]
    refine ⟨(mem_task_slots _).mpr hc, by simp, ?_⟩
    intro j hj hlt
    simpa using huniq j ((mem_task_slots j).mp hj) hlt
  refine ⟨?_, ?_, Task_stop_current _ s, Task_stop_Event_task_list _ s⟩
  · unfold Task_stop
    rw [hfind]
    simp
  · intro j hj
    unfold Task_stop
    rw [hfind]
    simp [Function.update_noteq hj]

theorem Task_stop_own_entry_witness :
    ((Task_stop ((TA0_N_IRQHandler main_setup).1.Task_list
        (TA0_N_IRQHandler main_setup).1.current_task).function
      (TA0_N_IRQHandler main_setup).1).Task_list
        (TA0_N_IRQHandler main_setup).1.current_task).state = TASK_STOPPED :=
  (Task_stop_own_entry (TA0_N_IRQHandler main_setup).1 (by decide) (by decide)).1

/-- C15, evaluated on two reachable runs. First run: an event task is
dispatched and its trigger fires again, which makes the running task
suspended; the next handler invocation selects that same slot, stores no
return address, and returns with the cursor on a suspended slot. Second run:
a periodic task calls `Task_stop` and the following handler invocation
re-activates it in its counter loop; the selection equals the cursor, whose
slot is then suspended, not stopped, so nothing is redirected and the cursor
slot stays suspended. -/
theorem cursor_not_running_after_handler :
    ((run (Task_list_init 0x800 (Task_schedule boot)) retrigger_events).current_task = 1 ∧
      (TA0_N_IRQHandler
        (run (Task_list_init 0x800 (Task_schedule boot)) retrigger_events)).1.current_task = 1 ∧
      ((TA0_N_IRQHandler
        (run (Task_list_init 0x800 (Task_schedule boot)) retrigger_events)).1.Task_list 1).state =
          TASK_SUSPENDED ∧
      (TA0_N_IRQHandler
        (run (Task_list_init 0x800 (Task_schedule boot)) retrigger_events)).2 = none) ∧
    ((run (Task_list_init 0x800 (Task_schedule boot)) stop_at_boundary_events).current_task = 1 ∧
      ((run (Task_list_init 0x800 (Task_schedule boot)) stop_at_boundary_events).Task_list
        1).state = TASK_STOPPED ∧
      (TA0_N_IRQHandler
        (run (Task_list_init 0x800 (Task_schedule boot))
          stop_at_boundary_events)).1.current_task = 1 ∧
      ((TA0_N_IRQHandler
        (run (Task_list_init 0x800 (Task_schedule boot))
          stop_at_boundary_events)).1.Task_list 1).state = TASK_SUSPENDED ∧
      (TA0_N_IRQHandler
        (run (Task_list_init 0x800 (Task_schedule boot)) stop_at_boundary_events)).2 = none) := by
  decide

/-! ## The scenario of main -/

theorem tick_counters_start_offset_zero (t : task_ctrl_blk) (h : t.start_offset = 0) :
    (tick_counters t).start_offset = 0 := by
  unfold tick_counters
  have hn : ¬ t.start_offset > 0 := by omega
  rw [if_neg hn]
  split
  · exact h
  · exact h

/-- When slots 1 and 3 are stopped and slots 4..7 undefined, the only slots
of 1..7 that can be eligible are 2 and 3, and 3 is not. -/
theorem scenario_eligible (tl : Fin 8 → task_ctrl_blk) (h1 : (tl 1).state = TASK_STOPPED)
    (h4 : ∀ j : Fin 8, 4 ≤ j.val → (tl j).state = TASK_UNDEFINED) (j : Fin 8) (hj : j ≠ 0)
    (he : eligible tl j) : j = 2 ∨ j = 3 := by
  have hj0 : j.val ≠ 0 := fun e => hj (Fin.ext e)
  by_contra hne
  have hn2 : j.val ≠ 2 := fun e => hne (Or.inl (Fin.ext e))
  have hn3 : j.val ≠ 3 := fun e => hne (Or.inr (Fin.ext e))
  unfold eligible at he
  by_cases hj1 : j.val = 1
  · have e : j = 1 := Fin.ext hj1
    rw [e, h1] at he
    rcases he.1 with h | h <;> exact absurd h (by decide)
  · have hge : 4 ≤ j.val := by omega
    rw [h4 j hge] at he
    rcases he.1 with h | h <;> exact absurd h (by decide)

/-- The slot that is eligible, below `UINT32_MAX`, least in remaining
deadline and lowest in index among the least is the one selected. -/
theorem get_priority_task_least (tl : Fin 8 → task_ctrl_blk) (i : Fin 8) (hi0 : i ≠ 0)
    (hi : eligible tl i) (hlt : (tl i).deadline_remaining < UINT32_MAX)
    (hmin : ∀ j : Fin 8, j ≠ 0 → eligible tl j →
      (tl i).deadline_remaining ≤ (tl j).deadline_remaining)
    (hlow : ∀ j : Fin 8, j ≠ 0 → eligible tl j →
      (tl j).deadline_remaining = (tl i).deadline_remaining → i ≤ j) :
    get_priority_task tl = i := by
  rcases get_priority_task_cases tl with ⟨_, hall⟩ | ⟨h0, he, _, hmin2, hfirst⟩
  · exact absurd (hall i hi0 hi) (not_le.mpr hlt)
  · have heq := le_antisymm (hmin2 i hi0 hi) (hmin _ h0 he)
    rcases lt_or_eq_of_le (hlow _ h0 he heq) with hlt2 | heq2
    · exact absurd (hfirst i hi0 hlt2 hi) (by rw [heq]; exact lt_irrefl _)
    · exact heq2.symm

/-- A handler invocation that selects the cursor slot, not stopped after the
counter update, is the counter update alone. -/
theorem handler_same_task (s : Kernel) (heq : selected s = s.current_task)
    (hns : ((tick_update s).Task_list s.current_task).state ≠ TASK_STOPPED) :
    TA0_N_IRQHandler s = (tick_update s, none) := by
  have hc := tick_update_current s
  unfold selected at heq
  unfold TA0_N_IRQHandler dispatch
  have h1 : ¬ get_priority_task (tick_update s).Task_list ≠ (tick_update s).current_task := by
    rw [hc]; exact not_not.mpr heq
  have h2 : ¬ ((tick_update s).Task_list (tick_update s).current_task).state =
      TASK_STOPPED := by
    rw [hc]; exact hns
  simp only [if_neg h1, if_neg h2]

/-- A handler invocation that selects a slot other than the cursor: new
cursor, new running slot, stored return address, and demotion of a running
old cursor slot. -/
theorem handler_switch (s : Kernel) (hne : selected s ≠ s.current_task) :
    (TA0_N_IRQHandler s).1.current_task = selected s ∧
    ((TA0_N_IRQHandler s).1.Task_list (selected s)).state = TASK_RUNNING ∧
    (TA0_N_IRQHandler s).2 = some (s.Task_list (selected s)).function ∧
    (((tick_update s).Task_list s.current_task).state = TASK_RUNNING →
      ((TA0_N_IRQHandler s).1.Task_list s.current_task).state = TASK_SUSPENDED) := by
  have hc := tick_update_current s
  have hf := tick_update_function s (selected s)
  unfold selected at hne hf ⊢
  have h1 : get_priority_task (tick_update s).Task_list ≠ (tick_update s).current_task := by
    rw [hc]; exact hne
  have h2 : s.current_task ≠ get_priority_task (tick_update s).Task_list :=
    fun e => hne e.symm
  unfold TA0_N_IRQHandler dispatch
  simp only [if_pos h1]
  rw [hc]
  refine ⟨trivial, by simp, ?_, ?_⟩
  · by_cases hr : ((tick_update s).Task_list s.current_task).state = TASK_RUNNING
    · simp [hr, Function.update_noteq hne, hf]
    · simp [hr, hf]
  · intro hr
    simp [hr, Function.update_noteq h2]

theorem scenario_step (n : Nat) (hn : n < 99) (s : Kernel) (h : scenario_inv n s) :
    scenario_inv (n + 1) (TA0_N_IRQHandler s).1 ∧ (TA0_N_IRQHandler s).2 = none := by
  obtain ⟨hcur, hg, ⟨a1, a2, a3⟩, ⟨b1, b2, b3⟩, ⟨c1, c2, c3, c4, c5, c6⟩, hu⟩ := h
  have e1 := tick_update_slot s hg 1 (by decide)
  have e2 := tick_update_slot s hg 2 (by decide)
  have e3 := tick_update_slot s hg 3 (by decide)
  rw [tick_slot_of_held _ a1 a2 (by omega)] at e1
  rw [tick_slot_of_held _ c1 c2 (by omega)] at e3
  have hns : ¬ ((tick_counters (s.Task_list 2)).count = 0 ∧
      (s.Task_list 2).state = TASK_STOPPED) := by
    rintro ⟨_, hst⟩
    rw [b1] at hst
    exact absurd hst (by decide)
  have s2 : ((tick_update s).Task_list 2).state = TASK_RUNNING := by
    rw [e2, tick_slot_state, if_neg hns, b1]
  have o2 : ((tick_update s).Task_list 2).start_offset = 0 := by
    rw [e2, tick_slot_start_offset, tick_counters_start_offset_zero _ b2]
  have d2 : ((tick_update s).Task_list 2).deadline_remaining = 1499 - (n + 1) := by
    rw [e2, tick_slot_deadline_remaining, if_neg hns, if_pos (Or.inr b1), b3]
    omega
  have hu2 : ∀ j : Fin 8, 4 ≤ j.val → ((tick_update s).Task_list j).state = TASK_UNDEFINED := by
    intro j hj
    have hj0 : j ≠ 0 := by
      intro e
      rw [e] at hj
      simp at hj
    rw [tick_update_slot s hg j hj0, tick_slot_state, hu j hj]
    simp
  have s1 : ((tick_update s).Task_list 1).state = TASK_STOPPED := by rw [e1]; exact a1
  have s3 : ((tick_update s).Task_list 3).state = TASK_STOPPED := by rw [e3]; exact c1
  have hsel : selected s = s.current_task := by
    rw [hcur]
    unfold selected
    apply get_priority_task_least _ 2 (by decide) ⟨Or.inr s2, o2⟩
    · rw [d2]; unfold UINT32_MAX; omega
    · intro j hj he
      rcases scenario_eligible _ s1 hu2 j hj he with e | e
      · rw [e]
      · rw [e] at he
        unfold eligible at he
        rw [s3] at he
        rcases he.1 with h | h <;> exact absurd h (by decide)
    · intro j hj he _
      rcases scenario_eligible _ s1 hu2 j hj he with e | e
      · rw [e]
      · rw [e]; decide
  have hkeep := handler_same_task s hsel (by rw [hcur, s2]; decide)
  rw [hkeep]
  refine ⟨?_, rfl⟩
  refine ⟨by rw [tick_update_current, hcur], tick_update_gate s hg, ⟨s1, ?_, ?_⟩,
    ⟨s2, o2, d2⟩, ⟨s3, ?_, ?_, ?_, ?_, ?_⟩, hu2⟩
  · rw [e1]; exact a2
  · rw [e1]; simp only; omega
  · rw [e3]; exact c2
  · rw [e3]; simp only; omega
  · rw [e3]; exact c4
  · rw [e3]; exact c5
  · rw [e3]; exact c6

theorem scenario_ticks (n : Nat) (hn : n ≤ 99) : scenario_inv n (ticks main_setup (n + 1)) := by
  induction n with
  | zero => decide
  | succ k ih =>
    exact (scenario_step k (by omega) _ (ih (by omega))).1

/-- Tick 100 of the scenario: entered in a state of shape `scenario_inv 99`,
the handler activates `Task_3`, selects it, suspends `Task_2` and stores the
entry of `Task_3` as return address. -/
theorem scenario_preempt (s : Kernel) (h : scenario_inv 99 s) :
    activates s 3 ∧ (TA0_N_IRQHandler s).1.current_task = 3 ∧
      ((TA0_N_IRQHandler s).1.Task_list 3).state = TASK_RUNNING ∧
      ((TA0_N_IRQHandler s).1.Task_list 2).state = TASK_SUSPENDED ∧
      (TA0_N_IRQHandler s).2 = some 0x3000 := by
  obtain ⟨hcur, hg, ⟨a1, a2, a3⟩, ⟨b1, b2, b3⟩, ⟨c1, c2, c3, c4, c5, c6⟩, hu⟩ := h
  have e1 := tick_update_slot s hg 1 (by decide)
  have e2 := tick_update_slot s hg 2 (by decide)
  have e3 := tick_update_slot s hg 3 (by decide)
  rw [tick_slot_of_held _ a1 a2 (by omega)] at e1
  have hns : ¬ ((tick_counters (s.Task_list 2)).count = 0 ∧
      (s.Task_list 2).state = TASK_STOPPED) := by
    rintro ⟨_, hst⟩
    rw [b1] at hst
    exact absurd hst (by decide)
  have s2 : ((tick_update s).Task_list 2).state = TASK_RUNNING := by
    rw [e2, tick_slot_state, if_neg hns, b1]
  have d2 : ((tick_update s).Task_list 2).deadline_remaining = 1399 := by
    rw [e2, tick_slot_deadline_remaining, if_neg hns, if_pos (Or.inr b1), b3]
  have hc3 : (tick_counters (s.Task_list 3)).count = 0 := by
    unfold tick_counters
    have h0 : ¬ (s.Task_list 3).start_offset > 0 := by omega
    have hp : (s.Task_list 3).period ≠ 0 := by omega
    rw [if_neg h0, if_pos hp]
    simp only
    rw [c2, c4]
    decide
  have s3 : ((tick_update s).Task_list 3).state = TASK_SUSPENDED := by
    rw [e3, tick_slot_state, if_pos ⟨hc3, c1⟩]
  have o3 : ((tick_update s).Task_list 3).start_offset = 0 := by
    rw [e3, tick_slot_start_offset, tick_counters_start_offset_zero _ (by omega)]
  have d3 : ((tick_update s).Task_list 3).deadline_remaining = 699 := by
    rw [e3, tick_slot_deadline_remaining, if_pos ⟨hc3, c1⟩, c5]
  have hu2 : ∀ j : Fin 8, 4 ≤ j.val → ((tick_update s).Task_list j).state = TASK_UNDEFINED := by
    intro j hj
    have hj0 : j ≠ 0 := by
      intro e
      rw [e] at hj
      simp at hj
    rw [tick_update_slot s hg j hj0, tick_slot_state, hu j hj]
    simp
  have s1 : ((tick_update s).Task_list 1).state = TASK_STOPPED := by rw [e1]; exact a1
  have hsel : selected s = 3 := by
    unfold selected
    apply get_priority_task_least _ 3 (by decide) ⟨Or.inl s3, o3⟩
    · rw [d3]; unfold UINT32_MAX; omega
    · intro j hj he
      rcases scenario_eligible _ s1 hu2 j hj he with e | e
      · rw [e, d3, d2]; omega
      · rw [e]
    · intro j hj he heq
      rcases scenario_eligible _ s1 hu2 j hj he with e | e
      · rw [e, d3, d2] at heq
        omega
      · rw [e]
  have hne : selected s ≠ s.current_task := by
    rw [hsel, hcur]; decide
  obtain ⟨r1, r2, r3, r5⟩ := handler_switch s hne
  rw [hsel] at r1 r2 r3
  rw [hcur] at r5
  exact ⟨⟨c1, s3⟩, r1, r2, r5 s2, by rw [r3, c6]⟩

/-- C19. The scenario of `main`: zeroed globals, `Task_list_init`, `Task_add`
of `Task_1` (1500, 300, 100), `Task_2` (1500, 0, 1500), `Task_3`
(1500, 100, 700) into slots 1, 2, 3, timer configured, no `Task_stop`. Tick 0
puts the cursor on slot 2, running, with the entry of `Task_2` as return
address; in each of the ticks 1..99 the cursor stays on slot 2 (running) and
no return address is stored; tick 100 activates `Task_3`, which preempts
`Task_2`: the cursor becomes slot 3 (running), slot 2 becomes suspended, and
the return address is the entry of `Task_3`. -/
theorem main_scenario :
    ((TA0_N_IRQHandler main_setup).1.current_task = 2 ∧
      ((TA0_N_IRQHandler main_setup).1.Task_list 2).state = TASK_RUNNING ∧
      (TA0_N_IRQHandler main_setup).2 = some 0x2000) ∧
    (∀ n : Nat, 1 ≤ n → n ≤ 99 →
      (TA0_N_IRQHandler (ticks main_setup n)).1.current_task = 2 ∧
      ((TA0_N_IRQHandler (ticks main_setup n)).1.Task_list 2).state = TASK_RUNNING ∧
      (TA0_N_IRQHandler (ticks main_setup n)).2 = none) ∧
    (activates (ticks main_setup 100) 3 ∧
      (TA0_N_IRQHandler (ticks main_setup 100)).1.current_task = 3 ∧
      ((TA0_N_IRQHandler (ticks main_setup 100)).1.Task_list 3).state = TASK_RUNNING ∧
      ((TA0_N_IRQHandler (ticks main_setup 100)).1.Task_list 2).state = TASK_SUSPENDED ∧
      (TA0_N_IRQHandler (ticks main_setup 100)).2 = some 0x3000) := by
  refine ⟨by decide, ?_, scenario_preempt _ (scenario_ticks 99 (le_refl _))⟩
  intro n h1 h99
  obtain ⟨k, rfl⟩ : ∃ k, n = k + 1 := ⟨n - 1, by omega⟩
  obtain ⟨hinv, hra⟩ := scenario_step k (by omega) _ (scenario_ticks k (by omega))
  exact ⟨hinv.1, hinv.2.2.2.1.1, hra⟩

/-! ## Activation, blocking and the overflow test -/

/-- Selection and redirection rewrite only the state of each slot. -/
theorem dispatch_apply (s : Kernel) (j : Fin 8) :
    (dispatch s).1.Task_list j = { s.Task_list j with state := redirected_state s j } := by
  unfold dispatch redirected_state
  simp only
  by_cases hsel : get_priority_task s.Task_list ≠ s.current_task
  · rw [if_pos hsel, if_pos hsel]
    simp only
    by_cases hj : j = get_priority_task s.Task_list
    · rw [if_pos hj, ← hj]
      have hjc : j ≠ s.current_task := by rw [hj]; exact hsel
      by_cases hr : (s.Task_list s.current_task).state = TASK_RUNNING
      · simp [hr, Function.update_noteq hjc]
      · simp [hr]
    · rw [if_neg hj, Function.update_noteq hj]
      by_cases hr : (s.Task_list s.current_task).state = TASK_RUNNING
      · rw [if_pos hr]
        by_cases hjc : j = s.current_task
        · subst hjc
          simp [hr]
        · rw [Function.update_noteq hjc, if_neg (fun h => hjc h.1)]
      · rw [if_neg hr]
        by_cases hjc : j = s.current_task
        · subst hjc
          rw [if_neg (fun h => hr h.2)]
        · rw [if_neg (fun h => hjc h.1)]
  · rw [if_neg hsel, if_neg hsel]
    by_cases hst : (s.Task_list s.current_task).state = TASK_STOPPED
    · rw [if_pos hst, if_pos hst]
      simp only
      by_cases hj : j = 0
      · subst hj; simp
      · rw [Function.update_noteq hj, if_neg hj]
    · rw [if_neg hst, if_neg hst]

/-- C21. In a tick (a handler invocation that runs the counter loop), for a
slot of 1..7 whose count is 0 after the counter update: if the slot was
stopped it is activated, and it ends the tick suspended, or running in which
case it is the selected slot (and it is running whenever it is selected and
was not already the cursor), with its remaining deadline equal to the
deadline minus one, 0 for deadline 0; if the slot was already suspended or
running it is not activated, the counter loop keeps its state, and its
remaining deadline is counted down, not reloaded. -/
theorem activation_in_tick (s : Kernel) (hg : gate_open s) (i : Fin 8) (hi : i ≠ 0)
    (hc : (tick_counters (s.Task_list i)).count = 0) :
    ((s.Task_list i).state = TASK_STOPPED →
      activates s i ∧
      (((TA0_N_IRQHandler s).1.Task_list i).state = TASK_SUSPENDED ∨
        (((TA0_N_IRQHandler s).1.Task_list i).state = TASK_RUNNING ∧ selected s = i)) ∧
      (selected s = i → s.current_task ≠ i →
        ((TA0_N_IRQHandler s).1.Task_list i).state = TASK_RUNNING) ∧
      ((TA0_N_IRQHandler s).1.Task_list i).deadline_remaining = (s.Task_list i).deadline - 1 ∧
      ((s.Task_list i).deadline = 0 →
        ((TA0_N_IRQHandler s).1.Task_list i).deadline_remaining = 0)) ∧
    ((s.Task_list i).state = TASK_SUSPENDED ∨ (s.Task_list i).state = TASK_RUNNING →
      ¬ activates s i ∧
      ((tick_update s).Task_list i).state = (s.Task_list i).state ∧
      ((TA0_N_IRQHandler s).1.Task_list i).deadline_remaining =
        (s.Task_list i).deadline_remaining - 1) := by
  have hdr := (state_only_fields _ _ (step_irq_slot s hg i hi)).2.2.2.2.2
  simp only [step] at hdr
  rw [tick_slot_deadline_remaining] at hdr
  have hup := tick_update_slot s hg i hi
  have hcur := tick_update_current s
  constructor
  · intro hst
    have hsus : ((tick_update s).Task_list i).state = TASK_SUSPENDED := by
      rw [hup, tick_slot_state, if_pos ⟨hc, hst⟩]
    rw [if_pos ⟨hc, hst⟩] at hdr
    have hfin : ((TA0_N_IRQHandler s).1.Task_list i).state =
        redirected_state (tick_update s) i := by
      unfold TA0_N_IRQHandler
      rw [dispatch_apply]
    refine ⟨⟨hst, hsus⟩, ?_, ?_, hdr, fun h0 => by rw [hdr, h0]⟩
    · rw [hfin]
      unfold redirected_state selected
      by_cases hsel : get_priority_task (tick_update s).Task_list ≠ (tick_update s).current_task
      · rw [if_pos hsel]
        by_cases hj : i = get_priority_task (tick_update s).Task_list
        · rw [if_pos hj]
          exact Or.inr ⟨rfl, hj.symm⟩
        · rw [if_neg hj, hsus]
          left
          split
          · rfl
          · rfl
      · rw [if_neg hsel]
        left
        by_cases hcs :
            ((tick_update s).Task_list (tick_update s).current_task).state = TASK_STOPPED
        · rw [if_pos hcs, if_neg hi]; exact hsus
        · rw [if_neg hcs]; exact hsus
    · intro hs hne
      rw [hfin]
      unfold redirected_state
      unfold selected at hs
      have hsel : get_priority_task (tick_update s).Task_list ≠ (tick_update s).current_task := by
        rw [hs, hcur]; exact fun e => hne e.symm
      rw [if_pos hsel, if_pos hs.symm]
  · intro hsr
    have hns : ¬ ((tick_counters (s.Task_list i)).count = 0 ∧
        (s.Task_list i).state = TASK_STOPPED) := by
      rintro ⟨_, hst⟩
      rw [hst] at hsr
      rcases hsr with h | h <;> exact absurd h (by decide)
    rw [if_neg hns, if_pos hsr] at hdr
    refine ⟨?_, ?_, hdr⟩
    · rintro ⟨hst, _⟩
      exact hns ⟨hc, hst⟩
    · rw [hup, tick_slot_state, if_neg hns]

theorem activation_in_tick_witness :
    activates main_setup 2 ∧
    (((TA0_N_IRQHandler main_setup).1.Task_list 2).state = TASK_SUSPENDED ∨
      (((TA0_N_IRQHandler main_setup).1.Task_list 2).state = TASK_RUNNING ∧
        selected main_setup = 2)) ∧
    (selected main_setup = 2 → main_setup.current_task ≠ 2 →
      ((TA0_N_IRQHandler main_setup).1.Task_list 2).state = TASK_RUNNING) ∧
    ((TA0_N_IRQHandler main_setup).1.Task_list 2).deadline_remaining =
      (main_setup.Task_list 2).deadline - 1 ∧
    ((main_setup.Task_list 2).deadline = 0 →
      ((TA0_N_IRQHandler main_setup).1.Task_list 2).deadline_remaining = 0) :=
  (activation_in_tick main_setup (by decide) 2 (by decide) (by decide)).1 (by decide)

/-- C24 (as stated) fails: slot 2 is running (the hung task) with remaining
deadline 5, slot 1 is suspended with the same remaining deadline; the slot
returned is 1, a different slot whose remaining deadline is not smaller. -/
theorem hung_task_counterexample :
    eligible (table_of (sample_blk TASK_SUSPENDED 0 5) (sample_blk TASK_RUNNING 0 5)) 2 ∧
    get_priority_task (table_of (sample_blk TASK_SUSPENDED 0 5) (sample_blk TASK_RUNNING 0 5))
      ≠ 2 ∧
    ((table_of (sample_blk TASK_SUSPENDED 0 5) (sample_blk TASK_RUNNING 0 5)) 2).deadline_remaining
      ≤ ((table_of (sample_blk TASK_SUSPENDED 0 5) (sample_blk TASK_RUNNING 0 5))
          (get_priority_task (table_of (sample_blk TASK_SUSPENDED 0 5)
            (sample_blk TASK_RUNNING 0 5)))).deadline_remaining := by
  decide

/-- C24 (amended). For every task table with an eligible slot `h` of 1..7
whose remaining deadline is below `UINT32_MAX`, `get_priority_task` returns a
slot of 1..7, and if that slot differs from `h` then its remaining deadline is
smaller than that of `h`, or equal to it with a lower slot index: `h` blocks
every task of lower urgency and every task of equal urgency in a higher
slot. -/
theorem hung_task_blocks (tl : Fin 8 → task_ctrl_blk) (h : Fin 8) (hh0 : h ≠ 0)
    (hh : eligible tl h) (hlt : (tl h).deadline_remaining < UINT32_MAX) :
    get_priority_task tl ≠ 0 ∧
    (get_priority_task tl ≠ h →
      (tl (get_priority_task tl)).deadline_remaining < (tl h).deadline_remaining ∨
      ((tl (get_priority_task tl)).deadline_remaining = (tl h).deadline_remaining ∧
        get_priority_task tl < h)) := by
  rcases get_priority_task_cases tl with ⟨_, hall⟩ | ⟨h0, _, _, hmin, hfirst⟩
  · exact absurd (hall h hh0 hh) (not_le.mpr hlt)
  · refine ⟨h0, fun hne => ?_⟩
    rcases lt_or_eq_of_le (hmin h hh0 hh) with hl | he
    · exact Or.inl hl
    · right
      refine ⟨he, ?_⟩
      rcases lt_trichotomy (get_priority_task tl) h with c | c | c
      · exact c
      · exact absurd c hne
      · exact absurd (hfirst h hh0 c hh) (by rw [he]; exact lt_irrefl _)

theorem hung_task_blocks_witness :
    get_priority_task (table_of (sample_blk TASK_SUSPENDED 0 10) (sample_blk TASK_RUNNING 0 5))
      ≠ 0 ∧
    (get_priority_task (table_of (sample_blk TASK_SUSPENDED 0 10) (sample_blk TASK_RUNNING 0 5))
        ≠ 2 →
      ((table_of (sample_blk TASK_SUSPENDED 0 10) (sample_blk TASK_RUNNING 0 5))
        (get_priority_task (table_of (sample_blk TASK_SUSPENDED 0 10)
          (sample_blk TASK_RUNNING 0 5)))).deadline_remaining <
        ((table_of (sample_blk TASK_SUSPENDED 0 10)
          (sample_blk TASK_RUNNING 0 5)) 2).deadline_remaining ∨
      (((table_of (sample_blk TASK_SUSPENDED 0 10) (sample_blk TASK_RUNNING 0 5))
        (get_priority_task (table_of (sample_blk TASK_SUSPENDED 0 10)
          (sample_blk TASK_RUNNING 0 5)))).deadline_remaining =
        ((table_of (sample_blk TASK_SUSPENDED 0 10)
          (sample_blk TASK_RUNNING 0 5)) 2).deadline_remaining ∧
        get_priority_task (table_of (sample_blk TASK_SUSPENDED 0 10)
          (sample_blk TASK_RUNNING 0 5)) < 2)) :=
  hung_task_blocks _ 2 (by decide) (by decide) (by decide)

/-- C25, evaluated on the state built by `main`, where `Task_schedule` has
left `TA0CTL = 0x0112` (overflow flag, bit 0, clear): the handler still runs
the counter loop, the start offset of slot 3 goes from 100 to 99. And with
only the overflow flag set (`TA0CTL = 0x0001`) the counter loop is skipped:
the test reads every bit except bit 0. -/
theorem overflow_test_inverted :
    (main_setup.TA0CTL = 0x0112 ∧ main_setup.TA0CTL &&& 0x0001 = 0 ∧
      (main_setup.Task_list 3).start_offset = 100 ∧
      ((TA0_N_IRQHandler main_setup).1.Task_list 3).start_offset = 99 ∧
      ((tick_update main_setup).Task_list 3).start_offset = 99) ∧
    (overflow_only.TA0CTL &&& 0x0001 = 1 ∧
      (overflow_only.Task_list 3).start_offset = 100 ∧
      ((TA0_N_IRQHandler overflow_only).1.Task_list 3).start_offset = 100 ∧
      tick_update overflow_only = overflow_only) := by
  refine ⟨by decide, by decide, by decide, by decide, rfl⟩

/-! ## Tasks the tick path never activates -/

/-- With period 0 and a non-zero count the loop body changes at most the
start offset of a stopped slot. -/
theorem tick_slot_dormant (t : task_ctrl_blk) (hst : t.state = TASK_STOPPED)
    (hp : t.period = 0) (hc : t.count ≠ 0) :
    (tick_slot t).state = TASK_STOPPED ∧ (tick_slot t).period = 0 ∧
      (tick_slot t).count = t.count := by
  have hcnt : (tick_counters t).count = t.count := by
    unfold tick_counters
    split
    · rfl
    · rw [hp]; rfl
  refine ⟨?_, by rw [tick_slot_period, hp], by rw [tick_slot_count, hcnt]⟩
  rw [tick_slot_state, hcnt, if_neg (fun h => hc h.1), hst]

theorem dormant_irq (c : Nat) (hc : c ≠ 0) (i : Fin 8) (hi : i ≠ 0) (s : Kernel)
    (h : dormant c i s) :
    dormant c i (step s .irq) ∧ ¬ activates s i ∧ selected s ≠ i := by
  obtain ⟨h1, h2, h3⟩ := h
  have hup : dormant c i (tick_update s) := by
    unfold dormant
    rcases tick_update_slot_cases s i with e | e
    · rw [e]; exact ⟨h1, h2, h3⟩
    · rw [e]
      obtain ⟨a, b, d⟩ := tick_slot_dormant _ h1 h2 (by rw [h3]; exact hc)
      exact ⟨a, b, by rw [d, h3]⟩
  refine ⟨?_, ?_, ?_⟩
  · simp only [step, TA0_N_IRQHandler]
    unfold dormant
    rw [dispatch_stopped_slot _ i hi hup.1]
    exact hup
  · rintro ⟨_, hs⟩
    rw [hup.1] at hs
    exact absurd hs (by decide)
  · exact get_priority_task_ne_of_stopped _ i hi hup.1

theorem dormant_stop_reg (c : Nat) (i : Fin 8) (s : Kernel) (ev : Event)
    (hev : ev ≠ .irq) (hq : ev.quiet) (h : dormant c i s) : dormant c i (step s ev) := by
  obtain ⟨h1, h2, h3⟩ := h
  cases ev with
  | irq => exact absurd rfl hev
  | port flags => exact absurd hq (by simp [Event.quiet])
  | stop X =>
    simp only [step]
    unfold dormant
    rcases Task_stop_slot X s i with e | e
    · rw [e]; exact ⟨h1, h2, h3⟩
    · rw [e]; exact ⟨rfl, h2, h3⟩
  | reg r =>
    simp only [step]
    unfold dormant
    rw [register_slot s r i (by rw [h1]; decide)]
    exact ⟨h1, h2, h3⟩

theorem dormant_port (c : Nat) (i : Fin 8) (s : Kernel) (flags : Nat) (h : dormant c i s)
    (hu : unbound i s) : dormant c i (step s (.port flags)) := by
  simp only [step]
  unfold dormant
  rcases PORT1_slot { s with P1IFG := (s.P1IFG ||| flags) % 256 } i with e | ⟨⟨b, hb⟩, _⟩
  · rw [e]; exact h
  · exact absurd hb (hu b)

theorem unbound_step (i : Fin 8) (s : Kernel) (ev : Event)
    (hreg : (s.Task_list i).state ≠ TASK_UNDEFINED) (hu : unbound i s) :
    unbound i (step s ev) := by
  intro e
  cases ev with
  | irq =>
    simp only [step, TA0_N_IRQHandler]
    rw [dispatch_Event_task_list, tick_update_Event_task_list]
    exact hu e
  | port flags =>
    simp only [step]
    rw [PORT1_Event_task_list]
    exact hu e
  | stop X =>
    simp only [step]
    rw [Task_stop_Event_task_list]
    exact hu e
  | reg r =>
    simp only [step]
    exact fun he => hu e (register_binding s r i hreg e he)

theorem dormant_run_quiet (c : Nat) (hc : c ≠ 0) (i : Fin 8) (hi : i ≠ 0) (evs : List Event) :
    ∀ s : Kernel, dormant c i s → (∀ ev ∈ evs, ev.quiet) → dormant c i (run s evs) := by
  induction evs with
  | nil => intro s h _; exact h
  | cons ev evs ih =>
    intro s h hq
    have hq2 : ∀ e ∈ evs, e.quiet := fun e he => hq e (List.mem_cons_of_mem _ he)
    by_cases hev : ev = .irq
    · subst hev
      exact ih _ (dormant_irq c hc i hi s h).1 hq2
    · exact ih _ (dormant_stop_reg c i s ev hev (hq ev (List.mem_cons_self _ _)) h) hq2

theorem dormant_run_unbound (c : Nat) (hc : c ≠ 0) (i : Fin 8) (hi : i ≠ 0)
    (evs : List Event) :
    ∀ s : Kernel, dormant c i s → unbound i s →
      dormant c i (run s evs) ∧ unbound i (run s evs) := by
  induction evs with
  | nil => intro s h hu; exact ⟨h, hu⟩
  | cons ev evs ih =>
    intro s h hu
    have hu2 := unbound_step i s ev (by rw [h.1]; decide) hu
    cases ev with
    | irq => exact ih _ (dormant_irq c hc i hi s h).1 hu2
    | port flags => exact ih _ (dormant_port c i s flags h hu) hu2
    | stop X => exact ih _ (dormant_stop_reg c i s _ (by simp) trivial h) hu2
    | reg r => exact ih _ (dormant_stop_reg c i s _ (by simp) trivial h) hu2

/-- C22. A task registered by `Task_event_add` (period 0, count 1) into slot
`i` is never activated by the tick path: after any sequence of timer handler
invocations, `Task_stop` calls and registrations containing no port
interrupt, the slot is stopped with count 1 and period 0, and the next
handler invocation neither activates nor selects it and leaves it stopped
with count 1. -/
theorem event_task_not_ticked (f e d : Nat) (s0 : Kernel) (i : Fin 8)
    (hfree : free_slot s0.Task_list = some i) (_he : e = SWITCH_P1_1 ∨ e = SWITCH_P1_4)
    (evs : List Event) (hq : ∀ ev ∈ evs, ev.quiet) (_hvalid : ∀ ev ∈ evs, ev.valid) :
    (Task_event_add f e d s0).1 = 0 ∧
    ((run (Task_event_add f e d s0).2 evs).Task_list i).state = TASK_STOPPED ∧
    ((run (Task_event_add f e d s0).2 evs).Task_list i).count = 1 ∧
    ((run (Task_event_add f e d s0).2 evs).Task_list i).period = 0 ∧
    ¬ activates (run (Task_event_add f e d s0).2 evs) i ∧
    selected (run (Task_event_add f e d s0).2 evs) ≠ i ∧
    ((TA0_N_IRQHandler (run (Task_event_add f e d s0).2 evs)).1.Task_list i).state =
      TASK_STOPPED ∧
    ((TA0_N_IRQHandler (run (Task_event_add f e d s0).2 evs)).1.Task_list i).count = 1 := by
  have hi := free_slot_ne_zero _ _ hfree
  have h0 : dormant 1 i (Task_event_add f e d s0).2 := by
    simp only [dormant, Task_event_add, hfree, Function.update_same]
    exact ⟨trivial, trivial, trivial⟩
  have h := dormant_run_quiet 1 (by decide) i hi evs _ h0 hq
  obtain ⟨h2, h3, h4⟩ := dormant_irq 1 (by decide) i hi _ h
  simp only [step] at h2
  refine ⟨?_, h.1, h.2.2, h.2.1, h3, h4, h2.1, h2.2.2⟩
  simp only [Task_event_add, hfree]

theorem event_task_not_ticked_witness :
    (Task_event_add 0x5000 SWITCH_P1_4 100 main_setup).1 = 0 ∧
    ((run (Task_event_add 0x5000 SWITCH_P1_4 100 main_setup).2
        [.irq, .irq, .stop 0x2000, .irq]).Task_list 4).state = TASK_STOPPED ∧
    ((run (Task_event_add 0x5000 SWITCH_P1_4 100 main_setup).2
        [.irq, .irq, .stop 0x2000, .irq]).Task_list 4).count = 1 :=
  have h := event_task_not_ticked 0x5000 SWITCH_P1_4 100 main_setup 4 (by decide)
    (Or.inr rfl) [.irq, .irq, .stop 0x2000, .irq]
    (by
      intro ev hev
      simp only [List.mem_cons, List.mem_singleton, List.not_mem_nil, or_false] at hev
      rcases hev with h | h | h | h <;> subst h <;> trivial)
    (by
      intro ev hev
      simp only [List.mem_cons, List.mem_singleton, List.not_mem_nil, or_false] at hev
      rcases hev with h | h | h | h <;> subst h <;> trivial)
  ⟨h.1, h.2.1, h.2.2.1⟩

/-- C29. `Task_add` with period 0 returns 0 when a slot is free, and the task
so registered, with no trigger bound to its slot, is never activated: after
any sequence of timer handler invocations, port interrupts, `Task_stop` calls
and registrations, whatever the start offset, the slot is stopped with count
`2^32-1`, and the next handler invocation does not activate it. -/
theorem zero_period_never_activated (f S d : Nat) (s0 : Kernel) (i : Fin 8)
    (hfree : free_slot s0.Task_list = some i) (hunbound : ∀ e : Fin 2,
      s0.Event_task_list e ≠ some i)
    (evs : List Event) (_hvalid : ∀ ev ∈ evs, ev.valid) :
    (Task_add f 0 S d s0).1 = 0 ∧
    ((run (Task_add f 0 S d s0).2 evs).Task_list i).state = TASK_STOPPED ∧
    ((run (Task_add f 0 S d s0).2 evs).Task_list i).count = 4294967295 ∧
    ¬ activates (run (Task_add f 0 S d s0).2 evs) i ∧
    ((TA0_N_IRQHandler (run (Task_add f 0 S d s0).2 evs)).1.Task_list i).state =
      TASK_STOPPED := by
  have hi := free_slot_ne_zero _ _ hfree
  have h0 : dormant 4294967295 i (Task_add f 0 S d s0).2 := by
    simp only [dormant, Task_add, hfree, Function.update_same, UINT32_MAX]
    exact ⟨trivial, trivial, trivial⟩
  have hu0 : unbound i (Task_add f 0 S d s0).2 := by
    simp only [unbound, Task_add, hfree]
    exact hunbound
  obtain ⟨h, _⟩ := dormant_run_unbound 4294967295 (by decide) i hi evs _ h0 hu0
  obtain ⟨h2, h3, _⟩ := dormant_irq 4294967295 (by decide) i hi _ h
  simp only [step] at h2
  refine ⟨?_, h.1, h.2.2, h3, h2.1⟩
  simp only [Task_add, hfree]

theorem zero_period_never_activated_witness :
    (Task_add 0x5000 0 2 100 main_setup).1 = 0 ∧
    ((run (Task_add 0x5000 0 2 100 main_setup).2
        [.irq, .irq, .port 0x12, .irq, .irq]).Task_list 4).state = TASK_STOPPED ∧
    ((run (Task_add 0x5000 0 2 100 main_setup).2
        [.irq, .irq, .port 0x12, .irq, .irq]).Task_list 4).count = 4294967295 :=
  have h := zero_period_never_activated 0x5000 2 100 main_setup 4 (by decide) (by decide)
    [.irq, .irq, .port 0x12, .irq, .irq]
    (by
      intro ev hev
      simp only [List.mem_cons, List.mem_singleton, List.not_mem_nil, or_false] at hev
      rcases hev with h | h | h | h | h <;> subst h <;> trivial)
  ⟨h.1, h.2.1, h.2.2.1⟩

/-! ## The idle slot and the trigger bindings -/

theorem tick_update_slot_zero (s : Kernel) : (tick_update s).Task_list 0 = s.Task_list 0 := by
  unfold tick_update
  split
  · simp only [tick_loop_apply, if_true]
  · rfl

theorem Task_stop_slot_zero (X : Nat) (s : Kernel) :
    (Task_stop X s).Task_list 0 = s.Task_list 0 := by
  unfold Task_stop
  split
  · rename_i i hfind
    have hmem : i ∈ task_slots := List.mem_of_find?_eq_some hfind
    have hi : (0 : Fin 8) ≠ i := fun e => (mem_task_slots i).mp hmem e.symm
    simp only
    rw [Function.update_noteq hi]
  · rfl

theorem idle_alive_init (idle : Nat) (s0 : Kernel) : idle_alive (Task_list_init idle s0) := by
  refine ⟨Or.inl ?_, fun e => ?_⟩
  · simp [Task_list_init]
  · simp [Task_list_init]

theorem idle_alive_step (s : Kernel) (ev : Event) (h : idle_alive s) :
    idle_alive (step s ev) := by
  obtain ⟨hst, hu⟩ := h
  have hreg : (s.Task_list 0).state ≠ TASK_UNDEFINED := by
    rcases hst with e | e <;> rw [e] <;> decide
  refine ⟨?_, unbound_step 0 s ev hreg hu⟩
  cases ev with
  | irq =>
    simp only [step, TA0_N_IRQHandler]
    rw [dispatch_apply]
    simp only
    have h0 : ((tick_update s).Task_list 0).state = (s.Task_list 0).state := by
      rw [tick_update_slot_zero]
    unfold redirected_state
    rw [h0]
    repeat' split
    all_goals first
      | exact Or.inl rfl
      | exact Or.inr rfl
      | exact hst
  | port flags =>
    simp only [step]
    rcases PORT1_slot { s with P1IFG := (s.P1IFG ||| flags) % 256 } 0 with e | ⟨⟨b, hb⟩, _⟩
    · rw [e]; exact hst
    · exact absurd hb (hu b)
  | stop X =>
    simp only [step]
    rw [Task_stop_slot_zero]
    exact hst
  | reg r =>
    simp only [step]
    rw [register_slot s r 0 hreg]
    exact hst

theorem idle_alive_of_reachable (s : Kernel) (h : Reachable s) : idle_alive s := by
  induction h with
  | init idle s0 _ => exact idle_alive_init idle s0
  | next s ev _ _ ih => exact idle_alive_step s ev ih

/-- C28. In every reachable state slot 0 is neither stopped nor undefined, and
in the handler invocation entered there the branch for (selected slot equals
the cursor, cursor slot stopped) is not taken: a cursor slot found stopped at
the redirection step is left through the branch for a selection different
from the cursor, which makes the selected slot the cursor, and the cursor
changes in no other way. -/
theorem idle_never_stopped (s : Kernel) (h : Reachable s) :
    ((s.Task_list 0).state ≠ TASK_STOPPED ∧ (s.Task_list 0).state ≠ TASK_UNDEFINED) ∧
    ¬ (selected s = s.current_task ∧
        ((tick_update s).Task_list s.current_task).state = TASK_STOPPED) ∧
    (((tick_update s).Task_list s.current_task).state = TASK_STOPPED →
      selected s ≠ s.current_task ∧ (TA0_N_IRQHandler s).1.current_task = selected s) ∧
    ((TA0_N_IRQHandler s).1.current_task ≠ s.current_task →
      selected s ≠ s.current_task ∧ (TA0_N_IRQHandler s).1.current_task = selected s) := by
  obtain ⟨hst, _⟩ := idle_alive_of_reachable s h
  have hno : ¬ (selected s = s.current_task ∧
      ((tick_update s).Task_list s.current_task).state = TASK_STOPPED) := by
    rintro ⟨hsel, hstop⟩
    rw [← hsel] at hstop
    by_cases h0 : selected s = 0
    · rw [h0, tick_update_slot_zero] at hstop
      rw [hstop] at hst
      rcases hst with e | e <;> exact absurd e (by decide)
    · have he := get_priority_task_eligible (tick_update s).Task_list h0
      unfold selected at hstop
      unfold eligible at he
      rw [hstop] at he
      rcases he.1 with e | e <;> exact absurd e (by decide)
  refine ⟨⟨?_, ?_⟩, hno, ?_, ?_⟩
  · rcases hst with e | e <;> rw [e] <;> decide
  · rcases hst with e | e <;> rw [e] <;> decide
  · intro hstop
    have hne : selected s ≠ s.current_task := fun e => hno ⟨e, hstop⟩
    exact ⟨hne, (handler_switch s hne).1⟩
  · intro hch
    have hne : selected s ≠ s.current_task := by
      intro e
      have hk := handler_same_task s e (fun c => hno ⟨e, c⟩)
      rw [hk] at hch
      exact hch (tick_update_current s)
    exact ⟨hne, (handler_switch s hne).1⟩

theorem idle_never_stopped_witness :
    (((run (Task_list_init 0x800 (Task_schedule boot))
        [.reg (.add 0x1000 2 0 5), .irq, .stop 0x1000]).Task_list 0).state ≠ TASK_STOPPED ∧
      ((run (Task_list_init 0x800 (Task_schedule boot))
        [.reg (.add 0x1000 2 0 5), .irq, .stop 0x1000]).Task_list 0).state ≠ TASK_UNDEFINED) :=
  (idle_never_stopped
    (step (step (step (Task_list_init 0x800 (Task_schedule boot)) (.reg (.add 0x1000 2 0 5)))
      .irq) (.stop 0x1000))
    (Reachable.next _ (.stop 0x1000)
      (Reachable.next _ .irq
        (Reachable.next _ (.reg (.add 0x1000 2 0 5))
          (Reachable.init 0x800 (Task_schedule boot) rfl) trivial) trivial) trivial)).1

/-- C23 (as stated) fails: `SWITCH_P1_1` is bound to slot 1 by a first
`Task_event_add`; a second `Task_event_add` with the same trigger binds it to
slot 2. -/
theorem binding_counterexample :
    (Task_event_add 0x1000 SWITCH_P1_1 10 (Task_list_init 0x800 boot)).1 = 0 ∧
    (Task_event_add 0x1000 SWITCH_P1_1 10 (Task_list_init 0x800 boot)).2.Event_task_list 0 =
      some 1 ∧
    (step (Task_event_add 0x1000 SWITCH_P1_1 10 (Task_list_init 0x800 boot)).2
      (.reg (.event_add 0x2000 SWITCH_P1_1 20))).Event_task_list 0 = some 2 := by
  decide

theorem step_binding (s : Kernel) (e : Fin 2) (ev : Event) (hs : ev.spares e) :
    (step s ev).Event_task_list e = s.Event_task_list e := by
  cases ev with
  | irq =>
    simp only [step, TA0_N_IRQHandler]
    rw [dispatch_Event_task_list, tick_update_Event_task_list]
  | port flags =>
    simp only [step]
    rw [PORT1_Event_task_list]
  | stop X =>
    simp only [step]
    rw [Task_stop_Event_task_list]
  | reg r =>
    cases r with
    | add f p o d =>
      cases hf : free_slot s.Task_list <;> simp [step, register, Task_add, hf]
    | event_add f e2 d =>
      have hne : e2 ≠ e.val := hs
      cases hf : free_slot s.Task_list with
      | none => simp [step, register, Task_event_add, hf]
      | some m =>
        simp only [step, register, Task_event_add, hf]
        by_cases h2 : e2 < 2
        · simp only [h2, dite_true]
          have hee : e ≠ ⟨e2, h2⟩ := fun c => hne (by rw [c])
          rw [Function.update_noteq hee]
        · simp only [h2, dite_false]

/-- C23 (amended). Once a trigger has been bound to a slot by a successful
`Task_event_add`, no later timer handler invocation, port interrupt,
`Task_stop`, `Task_add`, or `Task_event_add` for the other trigger changes
which slot is bound to it; only a later `Task_event_add` naming the same
trigger can rebind it. The binding table holds one slot per trigger. -/
theorem binding_stable (f d : Nat) (e : Fin 2) (s0 : Kernel) (i : Fin 8)
    (hfree : free_slot s0.Task_list = some i) (evs : List Event)
    (_hvalid : ∀ ev ∈ evs, ev.valid) (hs : ∀ ev ∈ evs, ev.spares e) :
    (Task_event_add f e.val d s0).2.Event_task_list e = some i ∧
    (run (Task_event_add f e.val d s0).2 evs).Event_task_list e = some i := by
  have h0 : (Task_event_add f e.val d s0).2.Event_task_list e = some i := by
    simp [Task_event_add, hfree]
  refine ⟨h0, ?_⟩
  have hrun : ∀ (l : List Event) (s : Kernel), (∀ ev ∈ l, ev.spares e) →
      (run s l).Event_task_list e = s.Event_task_list e := by
    intro l
    induction l with
    | nil => intro s _; rfl
    | cons ev l ih =>
      intro s hl
      have h1 := ih (step s ev) (fun x hx => hl x (List.mem_cons_of_mem _ hx))
      have h2 := step_binding s e ev (hl ev (List.mem_cons_self _ _))
      simp only [run, List.foldl_cons] at h1 ⊢
      rw [h1, h2]
  rw [hrun evs _ hs, h0]

theorem binding_stable_witness :
    (Task_event_add 0x1000 ((0 : Fin 2)).val 10 (Task_list_init 0x800 boot)).2.Event_task_list 0 =
      some 1 ∧
    (run (Task_event_add 0x1000 ((0 : Fin 2)).val 10 (Task_list_init 0x800 boot)).2
      [.reg (.event_add 0x2000 SWITCH_P1_4 20), .port 0x02, .irq, .stop 0x1000,
        .reg (.add 0x3000 5 0 9)]).Event_task_list 0 = some 1 :=
  binding_stable 0x1000 10 0 (Task_list_init 0x800 boot) 1 (by decide)
    [.reg (.event_add 0x2000 SWITCH_P1_4 20), .port 0x02, .irq, .stop 0x1000,
      .reg (.add 0x3000 5 0 9)]
    (by
      intro ev hev
      simp only [List.mem_cons, List.mem_singleton, List.not_mem_nil, or_false] at hev
      rcases hev with h | h | h | h | h <;> subst h <;>
        simp [Event.valid, Reg.valid, SWITCH_P1_4])
    (by
      intro ev hev
      simp only [List.mem_cons, List.mem_singleton, List.not_mem_nil, or_false] at hev
      rcases hev with h | h | h | h | h <;> subst h <;>
        simp [Event.spares, SWITCH_P1_4])

/-! ## The deadline of an event task is never read -/

theorem Kernel_ext (a b : Kernel) (h1 : a.Task_list = b.Task_list)
    (h2 : a.Event_task_list = b.Event_task_list) (h3 : a.current_task = b.current_task)
    (h4 : a.TA0CTL = b.TA0CTL) (h5 : a.P1IFG = b.P1IFG) : a = b := by
  cases a
  cases b
  simp only at h1 h2 h3 h4 h5
  subst h1 h2 h3 h4 h5
  rfl

theorem with_deadline_apply (i : Fin 8) (d : Nat) (s : Kernel) (j : Fin 8) :
    (with_deadline i d s).Task_list j =
      if j = i then { s.Task_list j with deadline := d } else s.Task_list j := by
  unfold with_deadline
  by_cases h : j = i
  · subst h; simp
  · simp [h, Function.update_noteq h]

theorem with_deadline_fields (i : Fin 8) (d : Nat) (s : Kernel) (j : Fin 8) :
    ((with_deadline i d s).Task_list j).state = (s.Task_list j).state ∧
    ((with_deadline i d s).Task_list j).start_offset = (s.Task_list j).start_offset ∧
    ((with_deadline i d s).Task_list j).deadline_remaining =
      (s.Task_list j).deadline_remaining ∧
    ((with_deadline i d s).Task_list j).function = (s.Task_list j).function ∧
    ((with_deadline i d s).Task_list j).period = (s.Task_list j).period ∧
    ((with_deadline i d s).Task_list j).count = (s.Task_list j).count := by
  rw [with_deadline_apply]
  split
  · exact ⟨rfl, rfl, rfl, rfl, rfl, rfl⟩
  · exact ⟨rfl, rfl, rfl, rfl, rfl, rfl⟩

/-- With period 0 and a non-zero count the loop body does not read the
deadline. -/
theorem tick_slot_with_deadline (t : task_ctrl_blk) (d : Nat) (hp : t.period = 0)
    (hc : t.count ≠ 0) :
    tick_slot { t with deadline := d } = { tick_slot t with deadline := d } := by
  unfold tick_slot tick_deadline tick_activate tick_counters
  by_cases hso : t.start_offset > 0
  · by_cases hs : t.state = TASK_SUSPENDED ∨ t.state = TASK_RUNNING <;>
      by_cases hd : t.deadline_remaining > 0 <;> simp [hso, hc, hs, hd]
  · by_cases hs : t.state = TASK_SUSPENDED ∨ t.state = TASK_RUNNING <;>
      by_cases hd : t.deadline_remaining > 0 <;> simp [hso, hp, hc, hs, hd]

theorem tick_loop_with_deadline (i : Fin 8) (d : Nat) (s : Kernel) (h : event_like i s) :
    tick_loop (with_deadline i d s).Task_list =
      (with_deadline i d { s with Task_list := tick_loop s.Task_list }).Task_list := by
  funext j
  rw [with_deadline_apply, tick_loop_apply, with_deadline_apply]
  simp only
  rw [tick_loop_apply]
  by_cases hj0 : j = 0 <;> by_cases hji : j = i
  · simp [hj0, hji]
  · simp [hj0, hji]
  · subst hji
    simp only [hj0, if_false, if_true]
    exact tick_slot_with_deadline _ d h.1 h.2.1
  · simp [hj0, hji]

theorem tick_update_with_deadline (i : Fin 8) (d : Nat) (s : Kernel) (h : event_like i s) :
    tick_update (with_deadline i d s) = with_deadline i d (tick_update s) := by
  have hl := tick_loop_with_deadline i d s h
  unfold tick_update
  have hctl : (with_deadline i d s).TA0CTL = s.TA0CTL := rfl
  rw [hctl]
  by_cases hg : s.TA0CTL &&& 0xFFFE ≠ 0
  · rw [if_pos hg, if_pos hg]
    exact Kernel_ext _ _ hl rfl rfl rfl rfl
  · rw [if_neg hg, if_neg hg]

theorem priority_step_with_deadline (i : Fin 8) (d : Nat) (s : Kernel) :
    priority_step (with_deadline i d s).Task_list = priority_step s.Task_list := by
  funext acc x
  obtain ⟨h1, h2, h3, _⟩ := with_deadline_fields i d s x
  unfold priority_step
  rw [h1, h2, h3]

theorem get_priority_task_with_deadline (i : Fin 8) (d : Nat) (s : Kernel) :
    get_priority_task (with_deadline i d s).Task_list = get_priority_task s.Task_list := by
  unfold get_priority_task
  rw [priority_step_with_deadline]

theorem redirected_state_with_deadline (i : Fin 8) (d : Nat) (s : Kernel) (j : Fin 8) :
    redirected_state (with_deadline i d s) j = redirected_state s j := by
  unfold redirected_state
  have hc : (with_deadline i d s).current_task = s.current_task := rfl
  rw [get_priority_task_with_deadline, hc, (with_deadline_fields i d s j).1,
    (with_deadline_fields i d s s.current_task).1]

theorem dispatch_current (s : Kernel) :
    (dispatch s).1.current_task =
      if get_priority_task s.Task_list ≠ s.current_task then get_priority_task s.Task_list
      else if (s.Task_list s.current_task).state = TASK_STOPPED then 0
      else s.current_task := by
  unfold dispatch
  simp only
  repeat' split
  all_goals rfl

theorem dispatch_P1IFG (s : Kernel) : (dispatch s).1.P1IFG = s.P1IFG := by
  unfold dispatch
  simp only
  repeat' split
  all_goals rfl

/-- The value stored into the saved return address, in terms of the table
before redirection. -/
theorem dispatch_output (s : Kernel) :
    (dispatch s).2 =
      if get_priority_task s.Task_list ≠ s.current_task then
        some (s.Task_list (get_priority_task s.Task_list)).function
      else if (s.Task_list s.current_task).state = TASK_STOPPED then
        some (s.Task_list 0).function
      else none := by
  unfold dispatch
  simp only
  by_cases hsel : get_priority_task s.Task_list ≠ s.current_task
  · rw [if_pos hsel, if_pos hsel]
    simp only [Function.update_same]
    by_cases hr : (s.Task_list s.current_task).state = TASK_RUNNING
    · rw [if_pos hr, Function.update_noteq hsel]
    · rw [if_neg hr]
  · rw [if_neg hsel, if_neg hsel]
    by_cases hst : (s.Task_list s.current_task).state = TASK_STOPPED
    · rw [if_pos hst, if_pos hst]
      simp only [Function.update_same]
    · rw [if_neg hst, if_neg hst]

theorem dispatch_with_deadline (i : Fin 8) (d : Nat) (s : Kernel) :
    (dispatch (with_deadline i d s)).1 = with_deadline i d (dispatch s).1 ∧
      (dispatch (with_deadline i d s)).2 = (dispatch s).2 := by
  have hc : (with_deadline i d s).current_task = s.current_task := rfl
  constructor
  · apply Kernel_ext
    · funext j
      rw [dispatch_apply, redirected_state_with_deadline, with_deadline_apply,
        with_deadline_apply, dispatch_apply]
      split
      · rfl
      · rfl
    · rw [dispatch_Event_task_list]
      show s.Event_task_list = (dispatch s).1.Event_task_list
      rw [dispatch_Event_task_list]
    · rw [dispatch_current, get_priority_task_with_deadline, hc,
        (with_deadline_fields i d s s.current_task).1]
      show _ = (dispatch s).1.current_task
      rw [dispatch_current]
    · rw [dispatch_TA0CTL]
      show s.TA0CTL = (dispatch s).1.TA0CTL
      rw [dispatch_TA0CTL]
    · rw [dispatch_P1IFG]
      show s.P1IFG = (dispatch s).1.P1IFG
      rw [dispatch_P1IFG]
  · rw [dispatch_output, dispatch_output, get_priority_task_with_deadline, hc,
      (with_deadline_fields i d s s.current_task).1,
      (with_deadline_fields i d s (get_priority_task s.Task_list)).2.2.2.1,
      (with_deadline_fields i d s 0).2.2.2.1]

theorem handler_with_deadline (i : Fin 8) (d : Nat) (s : Kernel) (h : event_like i s) :
    (TA0_N_IRQHandler (with_deadline i d s)).1 = with_deadline i d (TA0_N_IRQHandler s).1 ∧
      (TA0_N_IRQHandler (with_deadline i d s)).2 = (TA0_N_IRQHandler s).2 := by
  unfold TA0_N_IRQHandler
  rw [tick_update_with_deadline i d s h]
  exact dispatch_with_deadline i d (tick_update s)

theorem port_flag_with_deadline (bit clear : Nat) (e : Fin 2) (i : Fin 8) (d : Nat)
    (s : Kernel) :
    port_flag bit clear e (with_deadline i d s) = with_deadline i d (port_flag bit clear e s) := by
  apply Kernel_ext
  · funext j
    rw [port_flag_apply, with_deadline_apply, with_deadline_apply, port_flag_apply]
    have h1 : (with_deadline i d s).P1IFG = s.P1IFG := rfl
    have h2 : (with_deadline i d s).Event_task_list = s.Event_task_list := rfl
    rw [h1, h2]
    by_cases hc : s.P1IFG &&& bit ≠ 0 ∧ s.Event_task_list e = some j <;> by_cases hj : j = i
    · simp only [hc, hj, if_true, and_self, not_false_eq_true, ne_eq]
    · simp only [hc, hj, if_true, if_false, and_self, not_false_eq_true, ne_eq]
    · rw [if_neg hc, if_neg hc]
    · rw [if_neg hc, if_neg hc]
  · rw [port_flag_Event_task_list]
    show s.Event_task_list = (port_flag bit clear e s).Event_task_list
    rw [port_flag_Event_task_list]
  · rw [port_flag_current]
    show s.current_task = (port_flag bit clear e s).current_task
    rw [port_flag_current]
  · rw [port_flag_TA0CTL]
    show s.TA0CTL = (port_flag bit clear e s).TA0CTL
    rw [port_flag_TA0CTL]
  · unfold port_flag
    have h1 : (with_deadline i d s).P1IFG = s.P1IFG := rfl
    rw [h1]
    split
    · rfl
    · rfl

theorem PORT1_with_deadline (i : Fin 8) (d : Nat) (s : Kernel) :
    PORT1_IRQHandler (with_deadline i d s) = with_deadline i d (PORT1_IRQHandler s) := by
  unfold PORT1_IRQHandler
  rw [port_flag_with_deadline, port_flag_with_deadline]

theorem Task_stop_with_deadline (X : Nat) (i : Fin 8) (d : Nat) (s : Kernel) :
    Task_stop X (with_deadline i d s) = with_deadline i d (Task_stop X s) := by
  have hp : (fun k => decide (((with_deadline i d s).Task_list k).function = X)) =
      (fun k => decide ((s.Task_list k).function = X)) := by
    funext k
    rw [(with_deadline_fields i d s k).2.2.2.1]
  unfold Task_stop
  rw [hp]
  cases task_slots.find? (fun k => decide ((s.Task_list k).function = X)) with
  | none => rfl
  | some m =>
    simp only
    apply Kernel_ext
    · funext j
      simp only [with_deadline]
      by_cases hjm : j = m <;> by_cases hji : j = i
      · subst hjm; subst hji; simp
      · subst hjm; simp [Function.update_noteq hji]
      · subst hji; simp [Function.update_noteq hjm]
      · simp [Function.update_noteq hjm, Function.update_noteq hji]
    · rfl
    · rfl
    · rfl
    · rfl

theorem free_slot_with_deadline (i : Fin 8) (d : Nat) (s : Kernel) :
    free_slot (with_deadline i d s).Task_list = free_slot s.Task_list := by
  unfold free_slot
  have hp : (fun k => decide (((with_deadline i d s).Task_list k).state = TASK_UNDEFINED)) =
      (fun k => decide ((s.Task_list k).state = TASK_UNDEFINED)) := by
    funext k
    rw [(with_deadline_fields i d s k).1]
  rw [hp]

theorem register_with_deadline (i : Fin 8) (d : Nat) (s : Kernel) (r : Reg)
    (h : (s.Task_list i).state ≠ TASK_UNDEFINED) :
    (register (with_deadline i d s) r).2 = with_deadline i d (register s r).2 := by
  have hfs := free_slot_with_deadline i d s
  cases hf : free_slot s.Task_list with
  | none =>
    rw [hf] at hfs
    cases r <;> simp [register, Task_add, Task_event_add, hf, hfs]
  | some m =>
    rw [hf] at hfs
    have hmi : m ≠ i := by
      intro e
      subst e
      exact h ((free_slot_eq_some _ _).mp hf).2.1
    have him : i ≠ m := fun e => hmi e.symm
    cases r with
    | add f p o dd =>
      simp only [register, Task_add, hf, hfs]
      apply Kernel_ext
      · funext j
        simp only [with_deadline]
        by_cases hjm : j = m <;> by_cases hji : j = i
        · exact absurd (hjm.symm.trans hji) hmi
        · subst hjm; simp [Function.update_noteq hji]
        · subst hji; simp [Function.update_noteq hjm]
        · simp [Function.update_noteq hjm, Function.update_noteq hji]
      · rfl
      · rfl
      · rfl
      · rfl
    | event_add f e dd =>
      simp only [register, Task_event_add, hf, hfs]
      apply Kernel_ext
      · funext j
        simp only [with_deadline]
        by_cases hjm : j = m <;> by_cases hji : j = i
        · exact absurd (hjm.symm.trans hji) hmi
        · subst hjm; simp [Function.update_noteq hji]
        · subst hji; simp [Function.update_noteq hjm]
        · simp [Function.update_noteq hjm, Function.update_noteq hji]
      · rfl
      · rfl
      · rfl
      · rfl

theorem step_with_deadline (i : Fin 8) (d : Nat) (s : Kernel) (ev : Event)
    (h : event_like i s) : step (with_deadline i d s) ev = with_deadline i d (step s ev) := by
  cases ev with
  | irq =>
    simp only [step]
    exact (handler_with_deadline i d s h).1
  | port flags =>
    simp only [step]
    exact PORT1_with_deadline i d { s with P1IFG := (s.P1IFG ||| flags) % 256 }
  | stop X =>
    simp only [step]
    exact Task_stop_with_deadline X i d s
  | reg r =>
    simp only [step]
    exact register_with_deadline i d s r h.2.2

theorem event_like_step (i : Fin 8) (s : Kernel) (ev : Event) (h : event_like i s) :
    event_like i (step s ev) := by
  obtain ⟨hp, hc, hr⟩ := h
  by_cases hev : ev = .irq
  · subst hev
    have hd := dispatch_slot (tick_update s) i
    obtain ⟨_, fp, fc, _⟩ := state_only_fields _ _ hd
    have hup : ((tick_update s).Task_list i).period = 0 ∧
        ((tick_update s).Task_list i).count ≠ 0 ∧
        ((tick_update s).Task_list i).state ≠ TASK_UNDEFINED := by
      rcases tick_update_slot_cases s i with e | e
      · rw [e]; exact ⟨hp, hc, hr⟩
      · rw [e]
        refine ⟨by rw [tick_slot_period, hp], ?_, tick_slot_registered _ hr⟩
        rw [tick_slot_count]
        unfold tick_counters
        split
        · exact hc
        · rw [hp]; exact hc
    simp only [step, TA0_N_IRQHandler]
    exact ⟨by rw [fp]; exact hup.1, by rw [fc]; exact hup.2.1,
      state_only_registered _ _ hd hup.2.2⟩
  · have hso := step_other_slot s ev hev i hr
    obtain ⟨_, fp, fc, _⟩ := state_only_fields _ _ hso
    exact ⟨by rw [fp]; exact hp, by rw [fc]; exact hc, state_only_registered _ _ hso hr⟩

theorem run_with_deadline (i : Fin 8) (d : Nat) (evs : List Event) :
    ∀ s : Kernel, event_like i s →
      run (with_deadline i d s) evs = with_deadline i d (run s evs) ∧
        ra_trace (with_deadline i d s) evs = ra_trace s evs := by
  induction evs with
  | nil => intro s _; exact ⟨rfl, rfl⟩
  | cons ev evs ih =>
    intro s h
    obtain ⟨h1, h2⟩ := ih (step s ev) (event_like_step i s ev h)
    have hs := step_with_deadline i d s ev h
    constructor
    · simp only [run, List.foldl_cons] at h1 ⊢
      rw [hs, h1]
    · cases ev with
      | irq =>
        simp only [ra_trace]
        rw [hs, h2, (handler_with_deadline i d s h).2]
      | port flags => simp only [ra_trace]; rw [hs, h2]
      | stop X => simp only [ra_trace]; rw [hs, h2]
      | reg r => simp only [ra_trace]; rw [hs, h2]

/-- The two registrations that differ in the deadline argument produce
states that differ in the deadline field of the new slot only. -/
theorem Task_event_add_with_deadline (f e d1 d2 : Nat) (s0 : Kernel) (i : Fin 8)
    (hfree : free_slot s0.Task_list = some i) :
    (Task_event_add f e d2 s0).2 = with_deadline i d2 (Task_event_add f e d1 s0).2 ∧
      event_like i (Task_event_add f e d1 s0).2 := by
  constructor
  · simp only [Task_event_add, hfree, with_deadline]
    apply Kernel_ext
    · simp only [Function.update_same, Function.update_idem]
    · rfl
    · rfl
    · rfl
    · rfl
  · simp only [event_like, Task_event_add, hfree, Function.update_same]
    exact ⟨trivial, by decide, by decide⟩

/-- C30. Two runs start from the same state with `Task_event_add` calls that
differ only in the deadline argument (`d1` against `d2`) and continue with
the same events. After every number `n` of those events the two runs have the
same cursor, the same bindings, and in every slot the same state, count,
start offset, remaining deadline, entry and period; the next handler
invocation would store the same return address; and over the whole sequence
the stored return addresses are the same. -/
theorem event_deadline_irrelevant (f e d1 d2 : Nat) (s0 : Kernel)
    (_he : e = SWITCH_P1_1 ∨ e = SWITCH_P1_4) (evs : List Event)
    (_hvalid : ∀ ev ∈ evs, ev.valid) :
    ra_trace (Task_event_add f e d1 s0).2 evs = ra_trace (Task_event_add f e d2 s0).2 evs ∧
    ∀ n : Nat,
      (run (Task_event_add f e d1 s0).2 (evs.take n)).current_task =
        (run (Task_event_add f e d2 s0).2 (evs.take n)).current_task ∧
      (run (Task_event_add f e d1 s0).2 (evs.take n)).Event_task_list =
        (run (Task_event_add f e d2 s0).2 (evs.take n)).Event_task_list ∧
      (TA0_N_IRQHandler (run (Task_event_add f e d1 s0).2 (evs.take n))).2 =
        (TA0_N_IRQHandler (run (Task_event_add f e d2 s0).2 (evs.take n))).2 ∧
      ∀ j : Fin 8,
        ((run (Task_event_add f e d1 s0).2 (evs.take n)).Task_list j).state =
          ((run (Task_event_add f e d2 s0).2 (evs.take n)).Task_list j).state ∧
        ((run (Task_event_add f e d1 s0).2 (evs.take n)).Task_list j).count =
          ((run (Task_event_add f e d2 s0).2 (evs.take n)).Task_list j).count ∧
        ((run (Task_event_add f e d1 s0).2 (evs.take n)).Task_list j).start_offset =
          ((run (Task_event_add f e d2 s0).2 (evs.take n)).Task_list j).start_offset ∧
        ((run (Task_event_add f e d1 s0).2 (evs.take n)).Task_list j).deadline_remaining =
          ((run (Task_event_add f e d2 s0).2 (evs.take n)).Task_list j).deadline_remaining ∧
        ((run (Task_event_add f e d1 s0).2 (evs.take n)).Task_list j).function =
          ((run (Task_event_add f e d2 s0).2 (evs.take n)).Task_list j).function ∧
        ((run (Task_event_add f e d1 s0).2 (evs.take n)).Task_list j).period =
          ((run (Task_event_add f e d2 s0).2 (evs.take n)).Task_list j).period := by
  cases hf : free_slot s0.Task_list with
  | none =>
    have e1 : ∀ dd, (Task_event_add f e dd s0).2 = s0 := by
      intro dd; simp [Task_event_add, hf]
    rw [e1 d1, e1 d2]
    exact ⟨rfl, fun n => ⟨rfl, rfl, rfl, fun j => ⟨rfl, rfl, rfl, rfl, rfl, rfl⟩⟩⟩
  | some i =>
    obtain ⟨h2, hl⟩ := Task_event_add_with_deadline f e d1 d2 s0 i hf
    rw [h2]
    refine ⟨(run_with_deadline i d2 evs _ hl).2.symm, fun n => ?_⟩
    obtain ⟨hr, _⟩ := run_with_deadline i d2 (evs.take n) _ hl
    rw [hr]
    have hlk : event_like i (run (Task_event_add f e d1 s0).2 (evs.take n)) := by
      have hgen : ∀ (l : List Event) (s : Kernel), event_like i s → event_like i (run s l) := by
        intro l
        induction l with
        | nil => intro s hs; exact hs
        | cons ev l ih => intro s hs; exact ih _ (event_like_step i s ev hs)
      exact hgen _ _ hl
    refine ⟨rfl, rfl, (handler_with_deadline i d2 _ hlk).2.symm, fun j => ?_⟩
    obtain ⟨a, b, c, dd, ee, ff⟩ :=
      with_deadline_fields i d2 (run (Task_event_add f e d1 s0).2 (evs.take n)) j
    exact ⟨a.symm, ff.symm, b.symm, c.symm, dd.symm, ee.symm⟩

theorem event_deadline_irrelevant_witness :
    ra_trace (Task_event_add 0x5000 SWITCH_P1_1 100 main_setup).2
        [.irq, .port 0x02, .irq, .stop 0x5000, .irq] =
      ra_trace (Task_event_add 0x5000 SWITCH_P1_1 7 main_setup).2
        [.irq, .port 0x02, .irq, .stop 0x5000, .irq] :=
  (event_deadline_irrelevant 0x5000 SWITCH_P1_1 100 7 main_setup (Or.inl rfl)
    [.irq, .port 0x02, .irq, .stop 0x5000, .irq]
    (by
      intro ev hev
      simp only [List.mem_cons, List.mem_singleton, List.not_mem_nil, or_false] at hev
      rcases hev with h | h | h | h | h <;> subst h <;> trivial)).1

end V1_2

/-! ## Earlier releases -/

namespace V1_1

/-- C26, evaluated. A task registered with priority 200 is stored with
priority -56; once the counter loop has made it suspended,
`get_priority_task` still returns slot 0, since -56 is not greater than the
initial -1. With two suspended tasks registered with priorities 127 and 200
the slot returned is the one registered with 127. -/
theorem priority_wraps_at_128 :
    ((Task_add 0x1000 1 200 (Task_list_init 0x800 boot)).map
        (fun s => ((tick_loop s.Task_list 1).state, (tick_loop s.Task_list 1).priority,
          get_priority_task (tick_loop s.Task_list))) =
      some (TASK_SUSPENDED, -56, 0)) ∧
    (((Task_add 0x1000 1 127 (Task_list_init 0x800 boot)).bind
        (Task_add 0x2000 1 200)).map
        (fun s => ((tick_loop s.Task_list 1).state, (tick_loop s.Task_list 2).state,
          (tick_loop s.Task_list 1).priority, (tick_loop s.Task_list 2).priority,
          get_priority_task (tick_loop s.Task_list))) =
      some (TASK_SUSPENDED, TASK_SUSPENDED, 127, -56, 1)) := by
  decide

end V1_1

namespace V1_0

/-- C27, evaluated. After `Task_list_init`, seven `Task_add` calls fill slots
1..7 (slot 0 is the idle task); in the eighth call the scan ends with
`i = 8` and the stores go to `Task_list[8]`, outside the 8-entry array. -/
theorem eighth_task_out_of_bounds :
    ((add_all seven_tasks (Task_list_init 0x800)).map
        (fun tl => (task_slots.map (fun i => (tl i).function), (tl 0).function, scan_free tl)) =
      some ([0x1000, 0x1100, 0x1200, 0x1300, 0x1400, 0x1500, 0x1600], 0x800, 8)) ∧
    add_all (seven_tasks ++ [(0x1700, 800, 8)]) (Task_list_init 0x800) = none := by
  decide

end V1_0
